import Mathlib

/-!
# Ollama input plugin: the metrics store and the observing proxy

A shallow embedding of `MetricsStore` (`inputs/ollama/metrics.go`) with the operations on
it, and of the request handlers that feed it (`inputs/ollama/proxy.go`). The parsers of
`inputs/spark_streaming` and the sentinels and cache keys of `inputs/npu` follow in
namespaces of their own; the statements come after all definitions.

* A Go `map[string]V` is a finite list of entries with pairwise distinct keys (`GoMap`).
  Reading a missing key gives the zero value of `V`, writing a key updates its entry or
  creates one, and `range` visits every entry once.
* `int64` values are integers, and every `int64` addition is wrapped to 64 bits (`add64`).
* `float64` is an abstract type `F` carrying the operations the package uses (`Float64`);
  nothing is assumed about these operations unless a statement says so, so the statements
  hold for IEEE-754 doubles as well as for exact arithmetic.
* `time.Now()` is an input of the mutators: the instant is passed as an argument.
* The mutex only serialises the calls, so each call is one atomic step on the store.
-/

namespace Ollama

/-! ## Go maps keyed by strings -/

/-- A Go `map[string]V`: finitely many entries, no key twice. -/
structure GoMap (V : Type) where
  entries : List (String × V)
  nodup : (entries.map Prod.fst).Nodup

namespace GoMap

variable {V : Type}

/-- The map made by `make(map[string]V)`. -/
def empty : GoMap V := ⟨[], List.nodup_nil⟩

/-- The value stored under `k` in a list of entries, if any. -/
def lookupEntries : List (String × V) → String → Option V
  | [], _ => none
  | (k', v') :: rest, k => if k' = k then some v' else lookupEntries rest k

/-- The two-valued read `v, ok := m[k]`. -/
def find? (m : GoMap V) (k : String) : Option V := lookupEntries m.entries k

/-- The read `m[k]`: the stored value, or the zero value of `V` when `k` is missing. -/
def getD (m : GoMap V) (k : String) (zero : V) : V := (m.find? k).getD zero

/-- The keys of the map, that is what `for k := range m` visits. -/
def keys (m : GoMap V) : List String := m.entries.map Prod.fst

/-- Overwrite the entry of `k` in a list of entries, or add one at the end. -/
def setEntries : List (String × V) → String → V → List (String × V)
  | [], k, v => [(k, v)]
  | (k', v') :: rest, k, v =>
    if k' = k then (k, v) :: rest else (k', v') :: setEntries rest k v

/-- The write `m[k] = v`. -/
def set (m : GoMap V) (k : String) (v : V) : GoMap V :=
  ⟨setEntries m.entries k v, by
    have hmem : ∀ (l : List (String × V)) (x : String),
        x ∈ (setEntries l k v).map Prod.fst → x = k ∨ x ∈ l.map Prod.fst := by
      intro l
      induction l with
      | nil => intro x hx; simpa [setEntries] using hx
      | cons e rest ih =>
        intro x hx
        obtain ⟨k', v'⟩ := e
        by_cases hk : k' = k
        · simp only [setEntries, hk, if_true, List.map_cons, List.mem_cons] at hx ⊢
          rcases hx with hx | hx
          · exact Or.inl hx
          · exact Or.inr (Or.inr hx)
        · simp only [setEntries, hk, if_false, List.map_cons, List.mem_cons] at hx ⊢
          rcases hx with hx | hx
          · exact Or.inr (Or.inl hx)
          · rcases ih x hx with h | h
            · exact Or.inl h
            · exact Or.inr (Or.inr h)
    have hnd : ∀ l : List (String × V), (l.map Prod.fst).Nodup →
        ((setEntries l k v).map Prod.fst).Nodup := by
      intro l
      induction l with
      | nil => intro _; simp [setEntries]
      | cons e rest ih =>
        intro h
        obtain ⟨k', v'⟩ := e
        simp only [List.map_cons, List.nodup_cons] at h
        by_cases hk : k' = k
        · subst hk
          simpa [setEntries] using h
        · simp only [setEntries, hk, if_false, List.map_cons, List.nodup_cons]
          refine ⟨?_, ih h.2⟩
          intro hx
          rcases hmem rest k' hx with h' | h'
          · exact hk h'
          · exact h.1 h'
    exact hnd m.entries m.nodup⟩

end GoMap

/-! ## Machine integers and floats -/

/-- The value of an integer after wrapping to a signed 64-bit word. -/
def wrap64 (x : Int) : Int := (x + 2 ^ 63) % 2 ^ 64 - 2 ^ 63

/-- Go's `+` on `int64`. -/
def add64 (a b : Int) : Int := wrap64 (a + b)

/-- The `float64` operations used by the package. -/
class Float64 (F : Type) where
  /-- The conversion `float64(n)` of an integer, also the value of an integer constant. -/
  ofInt : Int → F
  /-- Go's `+` on `float64`. -/
  add : F → F → F
  /-- Go's `/` on `float64`. -/
  div : F → F → F
  /-- Go's `<` on `float64`. -/
  lt : F → F → Bool
  /-- The test `x != x`. -/
  isNaN : F → Bool

/-- An instant as returned by `time.Now()`. -/
abbrev Time := Nat

/-! ## `types.go` -/

/-- The struct `Message`. -/
structure Message where
  Role : String
  Content : String
deriving DecidableEq

/-- The struct `OllamaResponse`; the `int64` fields are integers. -/
structure OllamaResponse where
  Model : String
  CreatedAt : String
  Message : Message
  Response : String
  Done : Bool
  TotalDuration : Int
  LoadDuration : Int
  PromptEvalCount : Int
  PromptEvalDuration : Int
  EvalCount : Int
  EvalDuration : Int
deriving DecidableEq

/-! ## `metrics.go` -/

/-- The struct `MetricsStore` (the mutex is left out). -/
structure MetricsStore (F : Type) where
  requestCount : GoMap Int
  requestSuccess : GoMap Int
  requestFailed : GoMap Int
  tokenCount : GoMap Int
  promptTokens : GoMap Int
  durationSamples : GoMap (List F)
  loadDurations : GoMap (List F)
  lastUpdate : Time

/-- The struct `Stats`. -/
structure Stats (F : Type) where
  Avg : F
  P50 : F
  P95 : F
  P99 : F
  Min : F
  Max : F

section Store

variable {F : Type}

/-- The constructor `NewMetricsStore`: seven empty maps and the current instant. -/
def NewMetricsStore (now : Time) : MetricsStore F :=
  { requestCount := GoMap.empty
    requestSuccess := GoMap.empty
    requestFailed := GoMap.empty
    tokenCount := GoMap.empty
    promptTokens := GoMap.empty
    durationSamples := GoMap.empty
    loadDurations := GoMap.empty
    lastUpdate := now }

/-- The method `limitSamples`: when the window of `model` holds more than 1000 samples, keep
`samples[model][500:]`. -/
def limitSamples (samples : GoMap (List F)) (model : String) : GoMap (List F) :=
  let maxSamples := 1000
  if (samples.getD model []).length > maxSamples then
    samples.set model ((samples.getD model []).drop (maxSamples / 2))
  else
    samples

/-- The method `RecordSuccess`: four counters of `model`, its duration window and, for a
positive `LoadDuration`, its load window are written, then the time stamp. -/
def RecordSuccess [Float64 F] (m : MetricsStore F) (model : String) (resp : OllamaResponse)
    (duration : F) (now : Time) : MetricsStore F :=
  let requestCount := m.requestCount.set model (add64 (m.requestCount.getD model 0) 1)
  let requestSuccess := m.requestSuccess.set model (add64 (m.requestSuccess.getD model 0) 1)
  let tokenCount := m.tokenCount.set model (add64 (m.tokenCount.getD model 0) resp.EvalCount)
  let promptTokens :=
    m.promptTokens.set model (add64 (m.promptTokens.getD model 0) resp.PromptEvalCount)
  let durationSamples :=
    limitSamples (m.durationSamples.set model (m.durationSamples.getD model [] ++ [duration]))
      model
  let loadDurations :=
    if resp.LoadDuration > 0 then
      let loadDur := Float64.div (Float64.ofInt resp.LoadDuration : F) (Float64.ofInt 1000000000)
      limitSamples (m.loadDurations.set model (m.loadDurations.getD model [] ++ [loadDur])) model
    else
      m.loadDurations
  { requestCount := requestCount
    requestSuccess := requestSuccess
    requestFailed := m.requestFailed
    tokenCount := tokenCount
    promptTokens := promptTokens
    durationSamples := durationSamples
    loadDurations := loadDurations
    lastUpdate := now }

/-- The method `RecordFailure`: two counters of `model` are written, then the time stamp. -/
def RecordFailure (m : MetricsStore F) (model : String) (now : Time) : MetricsStore F :=
  { m with
    requestCount := m.requestCount.set model (add64 (m.requestCount.getD model 0) 1)
    requestFailed := m.requestFailed.set model (add64 (m.requestFailed.getD model 0) 1)
    lastUpdate := now }

/-- The loop `result := make(map[string]int64); for k, v := range src { result[k] = v }`. -/
def copyMap {V : Type} (src : GoMap V) : GoMap V :=
  src.entries.foldl (fun result e => result.set e.1 e.2) GoMap.empty

/-- The method `GetRequestCount`: the snapshot and the store after the call. -/
def GetRequestCount (m : MetricsStore F) : GoMap Int × MetricsStore F :=
  (copyMap m.requestCount, m)

/-- The method `GetSuccessCount`: the snapshot and the store after the call. -/
def GetSuccessCount (m : MetricsStore F) : GoMap Int × MetricsStore F :=
  (copyMap m.requestSuccess, m)

/-- The method `GetFailureCount`: the snapshot and the store after the call. -/
def GetFailureCount (m : MetricsStore F) : GoMap Int × MetricsStore F :=
  (copyMap m.requestFailed, m)

/-- The method `GetTokenCount`: the snapshot and the store after the call. -/
def GetTokenCount (m : MetricsStore F) : GoMap Int × MetricsStore F :=
  (copyMap m.tokenCount, m)

/-- The method `GetPromptTokens`: the snapshot and the store after the call. -/
def GetPromptTokens (m : MetricsStore F) : GoMap Int × MetricsStore F :=
  (copyMap m.promptTokens, m)

/-- The order of `sort.Float64s`: `x < y`, with every NaN before every other value. -/
def float64Less [Float64 F] (x y : F) : Bool :=
  Float64.lt x y || (Float64.isNaN x && !Float64.isNaN y)

/-- The call `sort.Float64s` on a copy of the slice: ascending for `float64Less`. -/
def sortFloat64s [Float64 F] (values : List F) : List F :=
  values.insertionSort (fun a b => float64Less b a = false)

/-- The function `calculateStats`; `none` stands for the run-time panic of an index out of
range. -/
def calculateStats [Float64 F] (values : List F) : Option (Stats F) :=
  if values.length = 0 then
    some
      { Avg := Float64.ofInt 0, P50 := Float64.ofInt 0, P95 := Float64.ofInt 0
        P99 := Float64.ofInt 0, Min := Float64.ofInt 0, Max := Float64.ofInt 0 }
  else
    let sorted := sortFloat64s values
    let sum := sorted.foldl Float64.add (Float64.ofInt 0)
    let avg := Float64.div sum (Float64.ofInt sorted.length)
    do
      let p50 ← sorted[sorted.length * 50 / 100]?
      let p95 ← sorted[sorted.length * 95 / 100]?
      let p99 ← sorted[sorted.length * 99 / 100]?
      let min ← sorted[0]?
      let max ← sorted[sorted.length - 1]?
      pure { Avg := avg, P50 := p50, P95 := p95, P99 := p99, Min := min, Max := max }

/-- The loop shared by `GetDurationStats` and `GetLoadDurationStats`: every non-empty
window gets an entry holding its statistics. -/
def statsOf [Float64 F] (windows : GoMap (List F)) : Option (GoMap (Stats F)) :=
  windows.entries.foldlM
    (fun result e =>
      if e.2.length > 0 then (calculateStats e.2).map (fun st => result.set e.1 st)
      else some result)
    GoMap.empty

/-- The method `GetDurationStats`: the statistics and the store after the call. -/
def GetDurationStats [Float64 F] (m : MetricsStore F) :
    Option (GoMap (Stats F) × MetricsStore F) :=
  (statsOf m.durationSamples).map (fun result => (result, m))

/-- The method `GetLoadDurationStats`: the statistics and the store after the call. -/
def GetLoadDurationStats [Float64 F] (m : MetricsStore F) :
    Option (GoMap (Stats F) × MetricsStore F) :=
  (statsOf m.loadDurations).map (fun result => (result, m))

/-- One call of a mutator of the store. -/
inductive Call (F : Type) where
  | success (model : String) (resp : OllamaResponse) (duration : F) (now : Time)
  | failure (model : String) (now : Time)

/-- The model a call is made for. -/
def Call.model : Call F → String
  | .success model _ _ _ => model
  | .failure model _ => model

/-- The store after one call. -/
def Call.apply [Float64 F] (m : MetricsStore F) : Call F → MetricsStore F
  | .success model resp duration now => RecordSuccess m model resp duration now
  | .failure model now => RecordFailure m model now

/-- The store after a sequence of calls, first call first. -/
def runCalls [Float64 F] (m : MetricsStore F) (calls : List (Call F)) : MetricsStore F :=
  calls.foldl Call.apply m

end Store

/-- Exact rational arithmetic as an instance of the `float64` operations. -/
instance : Float64 ℚ where
  ofInt n := n
  add x y := x + y
  div x y := x / y
  lt x y := decide (x < y)
  isNaN _ := false

/-! ## `proxy.go`

The handlers run against the outside world through an `Env`: the JSON decoder
(`json.Unmarshal`, one function per target struct), the request constructor, the HTTP
client and the clock are inputs, and nothing is assumed about them. Bodies are byte lists
together with a flag telling whether reading them ends with an error rather than at EOF.
`bufio.Scanner` with its default split function and buffer is modelled after the Go
standard library.
-/

/-- A slice of bytes, `[]byte`. -/
abbrev Bytes := List UInt8

/-- The struct `OllamaRequest`. -/
structure OllamaRequest where
  Model : String
  Prompt : String
  Messages : List Message
  Stream : Bool
deriving DecidableEq

/-- The struct `StreamChunk`; the `int64` fields are integers. -/
structure StreamChunk where
  Model : String
  CreatedAt : String
  Message : Message
  Response : String
  Done : Bool
  TotalDuration : Int
  LoadDuration : Int
  PromptEvalCount : Int
  PromptEvalDuration : Int
  EvalCount : Int
  EvalDuration : Int
deriving DecidableEq

/-- An `http.Header`: the values stored under each key. -/
abbrev Header := List (String × List String)

/-- The method `Header.Add`: append a value to those of a key. -/
def headerAdd : Header → String → String → Header
  | [], key, value => [(key, [value])]
  | (k, vs) :: rest, key, value =>
    if k = key then (k, vs ++ [value]) :: rest else (k, vs) :: headerAdd rest key value

/-- The method `Header.Del`: remove a key. -/
def headerDel (h : Header) (key : String) : Header :=
  h.filter (fun e => !(e.1 == key))

/-- The method `Header.Set`: make one value the only value of a key. -/
def headerSet (h : Header) (key value : String) : Header :=
  headerAdd (headerDel h key) key value

/-- The loop `for key, values := range src { for _, value := range values {
dst.Add(key, value) } }`. -/
def copyHeader (src dst : Header) : Header :=
  src.foldl (fun acc e => e.2.foldl (fun acc' value => headerAdd acc' e.1 value) acc) dst

/-- An incoming `*http.Request`, as far as the handlers read it. -/
structure Request where
  Method : String
  Path : String
  Header : Header
  Body : Bytes
  BodyErr : Bool

/-- The request sent to the backend. -/
structure ProxyRequest where
  Method : String
  URL : String
  Header : Header
  Body : Bytes
deriving DecidableEq

/-- A backend `*http.Response`: status, header, the bytes its body delivers and whether
reading the body ends with an error instead of EOF. -/
structure Response where
  StatusCode : Nat
  Header : Header
  Body : Bytes
  BodyErr : Bool

/-- The state of an `http.ResponseWriter`: whether it implements `http.Flusher`, its
header map, the status written (if any), the bytes written and the number of flushes. -/
structure ResponseWriter where
  flusher : Bool
  header : Header
  status : Option Nat
  body : Bytes
  flushes : Nat
deriving DecidableEq

/-- The method `WriteHeader`: the first status written is the one sent. -/
def ResponseWriter.WriteHeader (w : ResponseWriter) (code : Nat) : ResponseWriter :=
  match w.status with
  | none => { w with status := some code }
  | some _ => w

/-- The method `Write`: status 200 is written first when none was, then the bytes. -/
def ResponseWriter.Write (w : ResponseWriter) (b : Bytes) : ResponseWriter :=
  { (w.WriteHeader 200) with body := w.body ++ b }

/-- The method `Flush` of a writer that is an `http.Flusher`. -/
def ResponseWriter.Flush (w : ResponseWriter) : ResponseWriter :=
  { (w.WriteHeader 200) with flushes := w.flushes + 1 }

/-- The bytes of a string (UTF-8). -/
def bytesOf (s : String) : Bytes := s.toUTF8.data.toList

/-- The function `http.Error`: plain-text headers, the status, the message and a
line-feed. -/
def httpError (w : ResponseWriter) (error : String) (code : Nat) : ResponseWriter :=
  let h := headerDel w.header "Content-Length"
  let h := headerSet h "Content-Type" "text/plain; charset=utf-8"
  let h := headerSet h "X-Content-Type-Options" "nosniff"
  (({ w with header := h }).WriteHeader code).Write (bytesOf error ++ [10])

/-- The function `dropCR` of package `bufio`: drop one trailing carriage return. -/
def dropCR (data : Bytes) : Bytes :=
  if data.getLast? = some 13 then data.dropLast else data

/-- The tokens a `bufio.Scanner` with the split function `bufio.ScanLines` and the default
buffer delivers for the bytes of a body, and whether it stops with `bufio.ErrTooLong`.
The first argument is the part of the current line read so far. A line ends at a
line-feed; the token is the line without the line-feed and without one carriage return
before it; bytes after the last line-feed form a last token; the scanner stops when
65536 bytes (`bufio.MaxScanTokenSize`) are pending without a line-feed. -/
def scanTokens : Bytes → Bytes → List Bytes × Bool
  | cur, [] => (if cur.length = 0 then [] else [dropCR cur], false)
  | cur, b :: rest =>
    if b = 10 then
      (dropCR cur :: (scanTokens [] rest).1, (scanTokens [] rest).2)
    else if cur.length + 1 ≥ 65536 then
      ([], true)
    else
      scanTokens (cur ++ [b]) rest

/-- The lines read by `for scanner.Scan() { line := scanner.Bytes() ... }` from a body,
and whether the scanner stopped on a line that is too long. -/
def scanLines (body : Bytes) : List Bytes × Bool := scanTokens [] body

/-- What a handler reaches outside the store and the writer. -/
structure Env (F : Type) where
  /-- The field `ins.OllamaURL`. -/
  OllamaURL : String
  /-- The call `json.Unmarshal(bodyBytes, &reqBody)`; `none` is an error. -/
  unmarshalRequest : Bytes → Option OllamaRequest
  /-- The call `json.Unmarshal(respBytes, &ollamaResp)`; `none` is an error. -/
  unmarshalResponse : Bytes → Option OllamaResponse
  /-- The call `json.Unmarshal(line, &chunk)`; `none` is an error. -/
  unmarshalChunk : Bytes → Option StreamChunk
  /-- Whether `http.NewRequestWithContext` accepts the method and the URL. -/
  newRequest : String → String → Bool
  /-- The call `ins.client.Do(proxyReq)`; `none` is an error. -/
  clientDo : ProxyRequest → Option Response
  /-- The value of `time.Since(startTime).Seconds()` when the response is recorded. -/
  sinceSeconds : F
  /-- The value of `time.Now()` when the store is written. -/
  now : Time

/-- What a request handler leaves behind: the writer, the store and the requests sent to
the backend. -/
structure Outcome (F : Type) where
  w : ResponseWriter
  metrics : MetricsStore F
  sent : List ProxyRequest

/-- The variables of the loop of `handleStreamResponse`. -/
structure StreamLoop where
  w : ResponseWriter
  lastChunk : StreamChunk
  hasError : Bool

/-- The zero value of `StreamChunk`, as declared by `var lastChunk StreamChunk`. -/
def zeroChunk : StreamChunk :=
  { Model := "", CreatedAt := "", Message := ⟨"", ""⟩, Response := "", Done := false
    TotalDuration := 0, LoadDuration := 0, PromptEvalCount := 0, PromptEvalDuration := 0
    EvalCount := 0, EvalDuration := 0 }

/-- The `OllamaResponse` that `handleStreamResponse` builds from the last chunk. -/
def responseOfChunk (lastChunk : StreamChunk) : OllamaResponse :=
  { Model := lastChunk.Model, CreatedAt := "", Message := ⟨"", ""⟩, Response := ""
    Done := lastChunk.Done, TotalDuration := lastChunk.TotalDuration
    LoadDuration := lastChunk.LoadDuration, PromptEvalCount := lastChunk.PromptEvalCount
    PromptEvalDuration := lastChunk.PromptEvalDuration, EvalCount := lastChunk.EvalCount
    EvalDuration := lastChunk.EvalDuration }

section Proxy

variable {F : Type}

/-- One pass through the body of the loop of `handleStreamResponse`, for one line. -/
def streamStep (env : Env F) (st : StreamLoop) (line : Bytes) : StreamLoop :=
  if line.length = 0 then
    st
  else
    let w := ((st.w.Write line).Write [10]).Flush
    match env.unmarshalChunk line with
    | none => { w := w, lastChunk := st.lastChunk, hasError := true }
    | some chunk =>
      if chunk.Done then { w := w, lastChunk := chunk, hasError := st.hasError }
      else { w := w, lastChunk := st.lastChunk, hasError := st.hasError }

/-- The method `handleStreamResponse`: the writer and the store after the call. -/
def handleStreamResponse [Float64 F] (env : Env F) (metrics : MetricsStore F)
    (w : ResponseWriter) (resp : Response) (model : String) :
    ResponseWriter × MetricsStore F :=
  if !w.flusher then
    (w, RecordFailure metrics model env.now)
  else
    let st := (scanLines resp.Body).1.foldl (streamStep env)
      { w := w, lastChunk := zeroChunk, hasError := false }
    let hasError := st.hasError || ((scanLines resp.Body).2 || resp.BodyErr)
    if hasError then
      (st.w, RecordFailure metrics model env.now)
    else if st.lastChunk.Done then
      (st.w, RecordSuccess metrics model (responseOfChunk st.lastChunk) env.sinceSeconds
        env.now)
    else
      (st.w, metrics)

/-- The method `handleNonStreamResponse`: the writer and the store after the call. -/
def handleNonStreamResponse [Float64 F] (env : Env F) (metrics : MetricsStore F)
    (w : ResponseWriter) (resp : Response) (model : String) :
    ResponseWriter × MetricsStore F :=
  if resp.BodyErr then
    (w, RecordFailure metrics model env.now)
  else
    match env.unmarshalResponse resp.Body with
    | none => (w.Write resp.Body, RecordFailure metrics model env.now)
    | some ollamaResp =>
      (w.Write resp.Body, RecordSuccess metrics model ollamaResp env.sinceSeconds env.now)

/-- The model name a request is recorded under: its `model` field, or `unknown`. -/
def modelOf (reqBody : OllamaRequest) : String :=
  if reqBody.Model = "" then "unknown" else reqBody.Model

/-- The method `proxyWithMetrics`. -/
def proxyWithMetrics [Float64 F] (env : Env F) (metrics : MetricsStore F)
    (w : ResponseWriter) (r : Request) : Outcome F :=
  if r.BodyErr then
    { w := httpError w "Failed to read request" 400, metrics := metrics, sent := [] }
  else
    match env.unmarshalRequest r.Body with
    | none =>
      { w := httpError w "Invalid request format" 400, metrics := metrics, sent := [] }
    | some reqBody =>
      let model := modelOf reqBody
      if !env.newRequest r.Method (env.OllamaURL ++ r.Path) then
        { w := httpError w "Failed to create proxy request" 500, metrics := metrics
          sent := [] }
      else
        let proxyReq : ProxyRequest :=
          { Method := r.Method, URL := env.OllamaURL ++ r.Path
            Header := copyHeader r.Header [], Body := r.Body }
        match env.clientDo proxyReq with
        | none =>
          { w := httpError w "Proxy request failed" 502
            metrics := RecordFailure metrics model env.now, sent := [proxyReq] }
        | some resp =>
          let w := ({ w with header := copyHeader resp.Header w.header }).WriteHeader
            resp.StatusCode
          if reqBody.Stream then
            { w := (handleStreamResponse env metrics w resp model).1
              metrics := (handleStreamResponse env metrics w resp model).2
              sent := [proxyReq] }
          else
            { w := (handleNonStreamResponse env metrics w resp model).1
              metrics := (handleNonStreamResponse env metrics w resp model).2
              sent := [proxyReq] }

/-- The call `io.Copy(w, resp.Body)`: the bytes the body delivers are written; nothing is
written when it delivers none. -/
def ioCopy (w : ResponseWriter) (resp : Response) : ResponseWriter :=
  if resp.Body.length = 0 then w else w.Write resp.Body

/-- The method `simpleProxy`. -/
def simpleProxy (env : Env F) (metrics : MetricsStore F) (w : ResponseWriter)
    (r : Request) : Outcome F :=
  if r.BodyErr then
    { w := httpError w "Failed to read request" 400, metrics := metrics, sent := [] }
  else if !env.newRequest r.Method (env.OllamaURL ++ r.Path) then
    { w := httpError w "Failed to create proxy request" 500, metrics := metrics, sent := [] }
  else
    let proxyReq : ProxyRequest :=
      { Method := r.Method, URL := env.OllamaURL ++ r.Path
        Header := copyHeader r.Header [], Body := r.Body }
    match env.clientDo proxyReq with
    | none =>
      { w := httpError w "Proxy request failed" 502, metrics := metrics, sent := [proxyReq] }
    | some resp =>
      let w := ({ w with header := copyHeader resp.Header w.header }).WriteHeader
        resp.StatusCode
      { w := ioCopy w resp, metrics := metrics, sent := [proxyReq] }

end Proxy

/-! ## Vocabulary for the statements -/

section Vocabulary

variable {F : Type}

/-- The number of `RecordSuccess` calls made for `model` in a sequence of calls. -/
def successesFor (calls : List (Call F)) (model : String) : Nat :=
  match calls with
  | [] => 0
  | .success m _ _ _ :: rest => (if m = model then 1 else 0) + successesFor rest model
  | .failure _ _ :: rest => successesFor rest model

/-- The number of `RecordFailure` calls made for `model` in a sequence of calls. -/
def failuresFor (calls : List (Call F)) (model : String) : Nat :=
  match calls with
  | [] => 0
  | .success _ _ _ _ :: rest => failuresFor rest model
  | .failure m _ :: rest => (if m = model then 1 else 0) + failuresFor rest model

/-- What `limitSamples` leaves of a window: the window itself up to 1000 samples, and
the window without its 500 oldest samples beyond that. -/
def trimWindow (window : List F) : List F :=
  if window.length > 1000 then window.drop 500 else window

/-- The number of samples of a window after `k` recorded successes, as the store's
contract gives it: all `k` up to the cap of 1000, then between 501 and 1000. -/
def retainedCount (k : Nat) : Nat :=
  if k ≤ 1000 then k else 501 + (k - 1001) % 500

/-- The calls `RecordSuccess(model, resp, duration)` for one model, one per record. -/
def successCalls (model : String) (records : List (OllamaResponse × F × Time)) :
    List (Call F) :=
  records.map (fun x => Call.success model x.1 x.2.1 x.2.2)

/-- The durations passed by a sequence of records, oldest first. -/
def durationsOf (records : List (OllamaResponse × F × Time)) : List F :=
  records.map (fun x => x.2.1)

/-- The integers an `int64` can hold. -/
def inInt64 (x : Int) : Prop := -2 ^ 63 ≤ x ∧ x < 2 ^ 63

instance (x : Int) : Decidable (inInt64 x) := by
  unfold inInt64
  infer_instance

/-- A terminal response record: 42 generated tokens, 10 prompt tokens, 2 s of loading. -/
def sampleResponse : OllamaResponse :=
  { Model := "llama3", CreatedAt := "", Message := ⟨"assistant", ""⟩, Response := ""
    Done := true, TotalDuration := 0, LoadDuration := 2000000000, PromptEvalCount := 10
    PromptEvalDuration := 0, EvalCount := 42, EvalDuration := 0 }

/-- A response record with negative token counts, as decoded from the body
`{"done":true,"eval_count":-3,"prompt_eval_count":-1}`. -/
def negativeResponse : OllamaResponse :=
  { Model := "", CreatedAt := "", Message := ⟨"", ""⟩, Response := "", Done := true
    TotalDuration := 0, LoadDuration := 0, PromptEvalCount := -1, PromptEvalDuration := 0
    EvalCount := -3, EvalDuration := 0 }

/-- A response record with the largest generated-token count an `int64` holds. -/
def hugeResponse : OllamaResponse :=
  { Model := "", CreatedAt := "", Message := ⟨"", ""⟩, Response := "", Done := true
    TotalDuration := 0, LoadDuration := 0, PromptEvalCount := 0, PromptEvalDuration := 0
    EvalCount := 9223372036854775807, EvalDuration := 0 }

/-- Whether a call is a `RecordSuccess`. -/
def Call.isSuccess : Call F → Bool
  | .success _ _ _ _ => true
  | .failure _ _ => false

/-- A store whose duration window for `llama3` holds the 1000 samples 0, 1, ..., 999. -/
def fullWindowStore : MetricsStore ℚ :=
  { (NewMetricsStore 0 : MetricsStore ℚ) with
    durationSamples :=
      GoMap.empty.set "llama3" (List.map (fun i : Nat => (i : ℚ)) (List.range 1000)) }

/-- Four calls: two successes and a failure for `llama3`, a failure for `phi`. -/
def sampleCalls : List (Call ℚ) :=
  [Call.success "llama3" sampleResponse 1 1, Call.failure "llama3" 2, Call.failure "phi" 3,
    Call.success "llama3" sampleResponse 2 4]

/-- The input `[1, 2, ..., 10]` of the quantile engine. -/
def oneToTen : List ℚ := [1, 2, 3, 4, 5, 6, 7, 8, 9, 10]

/-- The value `Stats{}`: every field is zero. -/
def zeroStats [Float64 F] : Stats F :=
  { Avg := Float64.ofInt 0, P50 := Float64.ofInt 0, P95 := Float64.ofInt 0
    P99 := Float64.ofInt 0, Min := Float64.ofInt 0, Max := Float64.ofInt 0 }

/-- The non-empty lines of a list of lines, each followed by one line-feed, in order. -/
def relayed : List Bytes → Bytes
  | [] => []
  | line :: rest => if line.length = 0 then relayed rest else line ++ [10] ++ relayed rest

/-- The records decoded from the non-empty lines that parse, in order. -/
def parsedChunks (env : Env F) (lines : List Bytes) : List StreamChunk :=
  lines.filterMap (fun line => if line.length = 0 then none else env.unmarshalChunk line)

/-- The last record with `done = true` among the non-empty lines that parse. -/
def lastDone (env : Env F) (lines : List Bytes) : Option StreamChunk :=
  ((parsedChunks env lines).filter (fun chunk => chunk.Done)).getLast?

/-- Whether some non-empty line fails to parse. -/
def someLineFails (env : Env F) (lines : List Bytes) : Bool :=
  lines.any (fun line => !(line.length = 0) && (env.unmarshalChunk line).isNone)

/-- Whether reading the stream ends with an error: a failed read of the body, or a line
too long for the scanner (`scanner.Err() != nil`). -/
def streamErr (resp : Response) : Bool := (scanLines resp.Body).2 || resp.BodyErr

/-- A writer as the server hands it to a handler: it can flush and nothing was written. -/
def freshWriter : ResponseWriter :=
  { flusher := true, header := [], status := none, body := [], flushes := 0 }

/-- A writer that is no `http.Flusher`, with nothing written. -/
def plainWriter : ResponseWriter :=
  { flusher := false, header := [], status := none, body := [], flushes := 0 }

/-- A stream line whose record has `done = false`. -/
def lineNotDone : Bytes := bytesOf "\x7b\"model\":\"llama3\",\"done\":false\x7d"

/-- The stream line of a terminal record with two seconds of load time. -/
def lineDone : Bytes :=
  bytesOf ("\x7b\"model\":\"llama3\",\"done\":true,\"load_duration\":2000000000," ++
    "\"eval_count\":42,\"prompt_eval_count\":10\x7d")

/-- A stream line that is not JSON. -/
def lineBad : Bytes := bytesOf "not json"

/-- The record of `lineNotDone`. -/
def chunkNotDone : StreamChunk := { zeroChunk with Model := "llama3" }

/-- The record of `lineDone`. -/
def chunkDone : StreamChunk :=
  { zeroChunk with
    Model := "llama3", Done := true, LoadDuration := 2000000000, EvalCount := 42
    PromptEvalCount := 10 }

/-- The request body with model `llama3`, not streamed. -/
def requestBody : Bytes := bytesOf "\x7b\"model\":\"llama3\",\"stream\":false\x7d"

/-- The request body with model `llama3`, streamed. -/
def streamRequestBody : Bytes := bytesOf "\x7b\"model\":\"llama3\",\"stream\":true\x7d"

/-- A request body without a model field. -/
def noModelRequestBody : Bytes := bytesOf "\x7b\"stream\":false\x7d"

/-- The backend body of the non-stream scenario. -/
def responseBody : Bytes :=
  bytesOf ("\x7b\"model\":\"llama3\",\"done\":true,\"eval_count\":42," ++
    "\"prompt_eval_count\":10\x7d")

/-- A backend body whose record names another model than the request. -/
def otherModelResponseBody : Bytes :=
  bytesOf "\x7b\"model\":\"mistral\",\"done\":true,\"eval_count\":5\x7d"

/-- The record of `responseBody`. -/
def responseRecord : OllamaResponse :=
  { Model := "llama3", CreatedAt := "", Message := ⟨"", ""⟩, Response := "", Done := true
    TotalDuration := 0, LoadDuration := 0, PromptEvalCount := 10, PromptEvalDuration := 0
    EvalCount := 42, EvalDuration := 0 }

/-- The record of `otherModelResponseBody`. -/
def otherModelRecord : OllamaResponse :=
  { Model := "mistral", CreatedAt := "", Message := ⟨"", ""⟩, Response := "", Done := true
    TotalDuration := 0, LoadDuration := 0, PromptEvalCount := 0, PromptEvalDuration := 0
    EvalCount := 5, EvalDuration := 0 }

/-- An environment in exact arithmetic whose decoder agrees with `encoding/json` on the
sample bodies above and rejects every other body, and whose backend gives one fixed
answer. -/
def sampleEnv (answer : Option Response) : Env ℚ :=
  { OllamaURL := "http://localhost:11434"
    unmarshalRequest := fun body =>
      if body = requestBody then some ⟨"llama3", "", [], false⟩
      else if body = streamRequestBody then some ⟨"llama3", "", [], true⟩
      else if body = noModelRequestBody then some ⟨"", "", [], false⟩
      else none
    unmarshalResponse := fun body =>
      if body = responseBody then some responseRecord
      else if body = otherModelResponseBody then some otherModelRecord
      else none
    unmarshalChunk := fun line =>
      if line = lineNotDone then some chunkNotDone
      else if line = lineDone then some chunkDone
      else none
    newRequest := fun _ _ => true
    clientDo := fun _ => answer
    sinceSeconds := 3 / 2
    now := 7 }

/-- A backend response with status 200 and the given body, read to its end. -/
def okResponse (body : Bytes) : Response :=
  { StatusCode := 200, Header := [], Body := body, BodyErr := false }

/-- The three-line stream: two records with `done = false`, then the terminal record. -/
def doneStream : Bytes := lineNotDone ++ [10] ++ lineNotDone ++ [10] ++ lineDone ++ [10]

/-- A stream with a malformed line after the terminal record. -/
def badStream : Bytes := lineDone ++ [10] ++ lineBad ++ [10] ++ lineNotDone ++ [10]

/-- A stream that ends without a terminal record. -/
def gapStream : Bytes := lineNotDone ++ [10] ++ lineNotDone ++ [10]

/-- The body made of the given lines, each followed by one line-feed. -/
def linesBody : List Bytes → Bytes
  | [] => []
  | line :: rest => line ++ [10] ++ linesBody rest

/-- A stream with an empty line between two records. -/
def blankLineStream : Bytes := lineNotDone ++ [10, 10] ++ lineDone ++ [10]

/-- A stream whose only line ends with carriage return and line-feed. -/
def crlfStream : Bytes := lineDone ++ [13, 10]

/-- A stream whose only line has no line-feed after it. -/
def unterminatedStream : Bytes := lineDone

/-- A stream whose only line holds `n` spaces. -/
def longLineStream (n : Nat) : Bytes := List.replicate n 32 ++ [10]

/-- The request `POST /api/chat` with the given body, read to its end. -/
def chatRequest (body : Bytes) : Request :=
  { Method := "POST", Path := "/api/chat", Header := [], Body := body, BodyErr := false }

/-- The backend body of an error reply. -/
def errorBody : Bytes := bytesOf "\x7b\"error\":\"x\"\x7d"

/-- The record `encoding/json` decodes from `errorBody`: no known field is present, so
every field has its zero value. -/
def zeroRecord : OllamaResponse :=
  { Model := "", CreatedAt := "", Message := ⟨"", ""⟩, Response := "", Done := false
    TotalDuration := 0, LoadDuration := 0, PromptEvalCount := 0, PromptEvalDuration := 0
    EvalCount := 0, EvalDuration := 0 }

/-- The backend reply with status 500 and the body `errorBody`. -/
def errorResponse : Response :=
  { StatusCode := 500, Header := [], Body := errorBody, BodyErr := false }

/-- The environment `sampleEnv` whose decoder also knows `errorBody` and whose backend
answers with `errorResponse`. -/
def errorEnv : Env ℚ :=
  { sampleEnv (some errorResponse) with
    unmarshalResponse := fun body =>
      if body = errorBody then some zeroRecord
      else (sampleEnv (some errorResponse)).unmarshalResponse body }

/-- The request sent to the backend for a request `r`. -/
def proxyRequestOf (env : Env F) (r : Request) : ProxyRequest :=
  { Method := r.Method, URL := env.OllamaURL ++ r.Path, Header := copyHeader r.Header []
    Body := r.Body }

end Vocabulary

end Ollama

/-!
# Spark Streaming input plugin: the parsers of the Web UI text and the application filter

A shallow embedding of `parseInputRate`, `parseTimeValue` and `convertTimeToMS`
(`inputs/spark_streaming/spark_ui_parser.go`) and of `filterAppsByPrefix`
(`inputs/spark_streaming/yarn_client.go`).

* A Go string is a Lean string, that is a valid UTF-8 text; positions count characters
  where Go counts bytes, which changes no comparison of an index with 0 and no slice taken
  right after a match.
* The functions of package `strings` are modelled after the Go standard library.
* `strconv.ParseFloat` and the `float64` multiplication are operations of the abstract
  float type (`GoFloat`); `Double` is the instance that rounds every operation to the
  nearest `float64`, and the rational numbers are the instance of exact arithmetic.
-/

namespace SparkStreaming

/-- The `float64` operations of this package: those of `Ollama.Float64`, the product and
`strconv.ParseFloat(s, 64)`, which is `none` when it returns an error. -/
class GoFloat (F : Type) extends Ollama.Float64 F where
  /-- Go's `*` on `float64`. -/
  mul : F → F → F
  /-- The call `strconv.ParseFloat(s, 64)`; `none` is an error. -/
  parseFloat : String → Option F

/-- The function `unicode.IsSpace`. -/
def isSpace (c : Char) : Bool :=
  c.toNat = 0x09 || c.toNat = 0x0A || c.toNat = 0x0B || c.toNat = 0x0C || c.toNat = 0x0D ||
    c.toNat = 0x20 || c.toNat = 0x85 || c.toNat = 0xA0 || c.toNat = 0x1680 ||
    (0x2000 ≤ c.toNat && c.toNat ≤ 0x200A) || c.toNat = 0x2028 || c.toNat = 0x2029 ||
    c.toNat = 0x202F || c.toNat = 0x205F || c.toNat = 0x3000

/-- The loop of `strings.Fields`: the first argument is the field read so far. -/
def fieldsFrom : List Char → List Char → List String
  | cur, [] => if cur.length = 0 then [] else [String.mk cur]
  | cur, c :: rest =>
    if isSpace c then
      if cur.length = 0 then fieldsFrom [] rest else String.mk cur :: fieldsFrom [] rest
    else
      fieldsFrom (cur ++ [c]) rest

/-- The function `strings.Fields`: the maximal runs of characters that are not spaces. -/
def Fields (s : String) : List String := fieldsFrom [] s.toList

/-- The function `strings.TrimSpace`. -/
def TrimSpace (s : String) : String :=
  String.mk (((s.toList.dropWhile isSpace).reverse.dropWhile isSpace).reverse)

/-- The search of `strings.Index` from position `i` on. -/
def indexFrom : List Char → List Char → Nat → Int
  | [], substr, i => if substr.length = 0 then i else -1
  | c :: rest, substr, i =>
    if substr.isPrefixOf (c :: rest) then i else indexFrom rest substr (i + 1)

/-- The function `strings.Index`: the position of the first occurrence, or `-1`. -/
def Index (s substr : String) : Int := indexFrom s.toList substr.toList 0

/-- The slice `s[i:]`. -/
def sliceFrom (s : String) (i : Nat) : String := String.mk (s.toList.drop i)

/-- The function `strings.TrimSuffix`. -/
def TrimSuffix (s suffix : String) : String :=
  if suffix.toList.reverse.isPrefixOf s.toList.reverse then
    String.mk (s.toList.take (s.length - suffix.length))
  else
    s

/-- The loop of `strings.Split` for a separator of one character. -/
def splitFrom : List Char → List Char → Char → List String
  | cur, [], _ => [String.mk cur]
  | cur, c :: rest, sep =>
    if c = sep then String.mk cur :: splitFrom [] rest sep else splitFrom (cur ++ [c]) rest sep

/-- The function `strings.Split` for a separator of one character. -/
def Split (s : String) (sep : Char) : List String := splitFrom [] s.toList sep

/-- The function `strings.HasPrefix`. -/
def HasPrefix (s pfx : String) : Bool := pfx.toList.isPrefixOf s.toList

section Parsers

variable {F : Type}

/-- The fallback loop of `parseInputRate` from index `i` on: the first part that parses,
the first and the last part left out; 0 when there is none. -/
def firstNumberFrom [GoFloat F] (n : Nat) : Nat → List String → F
  | _, [] => Ollama.Float64.ofInt 0
  | i, part :: rest =>
    if i > 0 ∧ i < n - 1 then
      match GoFloat.parseFloat part with
      | some val => val
      | none => firstNumberFrom n (i + 1) rest
    else
      firstNumberFrom n (i + 1) rest

/-- The method `parseInputRate`. -/
def parseInputRate [GoFloat F] (text : String) : F :=
  let avg : Option F :=
    if Index text "(avg:" > 0 then
      let avgStr := sliceFrom text ((Index text "(avg:").toNat + 5)
      let avgStr := TrimSpace (TrimSuffix avgStr ")")
      let avgStr := (Split avgStr ' ').headD ""
      GoFloat.parseFloat avgStr
    else
      none
  match avg with
  | some val => val
  | none => firstNumberFrom (Fields text).length 0 (Fields text)

/-- The value added to `totalMS` for a value and its unit by the `switch` of
`convertTimeToMS`; `none` for an unknown unit, for which nothing is added. -/
def unitMS [GoFloat F] (value : F) (unit : String) : Option F :=
  if unit = "ms" then
    some value
  else if unit = "s" ∨ unit = "seconds" ∨ unit = "sec" then
    some (GoFloat.mul value (Ollama.Float64.ofInt 1000))
  else if unit = "min" ∨ unit = "minutes" then
    some (GoFloat.mul (GoFloat.mul value (Ollama.Float64.ofInt 60)) (Ollama.Float64.ofInt 1000))
  else if unit = "h" ∨ unit = "hours" then
    some (GoFloat.mul (GoFloat.mul (GoFloat.mul value (Ollama.Float64.ofInt 60))
      (Ollama.Float64.ofInt 60)) (Ollama.Float64.ofInt 1000))
  else if unit = "d" ∨ unit = "days" then
    some (GoFloat.mul (GoFloat.mul (GoFloat.mul (GoFloat.mul value (Ollama.Float64.ofInt 24))
      (Ollama.Float64.ofInt 60)) (Ollama.Float64.ofInt 60)) (Ollama.Float64.ofInt 1000))
  else
    none

/-- The loop of `convertTimeToMS` over the parts not read yet, two at a time. -/
def convertLoop [GoFloat F] : List String → F → F
  | valueStr :: unit :: rest, totalMS =>
    match GoFloat.parseFloat valueStr with
    | none => convertLoop rest totalMS
    | some value =>
      match unitMS value unit with
      | some ms => convertLoop rest (Ollama.Float64.add totalMS ms)
      | none => convertLoop rest totalMS
  | _, totalMS => totalMS

/-- The method `convertTimeToMS`. -/
def convertTimeToMS [GoFloat F] (timeStr : String) : F :=
  convertLoop (Fields timeStr) (Ollama.Float64.ofInt 0)

/-- The method `parseTimeValue`. -/
def parseTimeValue [GoFloat F] (text : String) (pfx : String) : F :=
  if Index text pfx < 0 then
    Ollama.Float64.ofInt 0
  else
    convertTimeToMS (TrimSpace (sliceFrom text ((Index text pfx).toNat + pfx.length)))

end Parsers

/-- The struct `YARNApp`. -/
structure YARNApp where
  ID : String
  Name : String
  State : String
  FinalStatus : String
  TrackingURL : String
  User : String
  Queue : String
deriving DecidableEq

/-- The inner loop of `filterAppsByPrefix`: whether the name starts with one of the
prefixes (the loop stops at the first one). -/
def matchesPrefix (name : String) : List String → Bool
  | [] => false
  | pfx :: rest => if HasPrefix name pfx then true else matchesPrefix name rest

/-- The outer loop of `filterAppsByPrefix`: the applications kept so far and those to
come. -/
def filterLoop (AppPrefixes : List String) : List YARNApp → List YARNApp → List YARNApp
  | filtered, [] => filtered
  | filtered, app :: rest =>
    if matchesPrefix app.Name AppPrefixes then filterLoop AppPrefixes (filtered ++ [app]) rest
    else filterLoop AppPrefixes filtered rest

/-- The method `filterAppsByPrefix`; `AppPrefixes` is the field `ins.AppPrefixes`. -/
def filterAppsByPrefix (AppPrefixes : List String) (apps : List YARNApp) : List YARNApp :=
  if AppPrefixes.length = 0 then apps else filterLoop AppPrefixes [] apps

/-! ## Vocabulary for the statements -/

/-- The digits of a decimal numeral as a number. -/
def digitsValue (digits : List Char) : Nat :=
  digits.foldl (fun acc c => acc * 10 + (c.toNat - 48)) 0

/-- A decimal numeral without sign: digits, then possibly a point and digits. -/
def parseUnsigned (chars : List Char) : Option ℚ :=
  let whole := chars.takeWhile (fun c => c.isDigit)
  let rest := chars.dropWhile (fun c => c.isDigit)
  match rest with
  | [] => if whole.length = 0 then none else some (mkRat (digitsValue whole) 1)
  | c :: frac =>
    if c = '.' ∧ frac.all (fun d => d.isDigit) ∧ 0 < whole.length + frac.length then
      some (mkRat (digitsValue (whole ++ frac)) (10 ^ frac.length))
    else
      none

/-- The exact value of a plain decimal numeral with an optional sign; `none` for every
other string. On these numerals `strconv.ParseFloat` returns no error. -/
def parseDecimal (s : String) : Option ℚ :=
  match s.toList with
  | '-' :: rest => (parseUnsigned rest).map (fun x => -x)
  | '+' :: rest => parseUnsigned rest
  | chars => parseUnsigned chars

/-- Exact rational arithmetic as an instance of the operations of this package; it reads
plain decimal numerals only. -/
instance : GoFloat ℚ where
  mul x y := x * y
  parseFloat := parseDecimal

/-- The number of milliseconds in a unit of `convertTimeToMS`. -/
def unitFactor (unit : String) : Option Int :=
  if unit = "ms" then some 1
  else if unit = "s" ∨ unit = "seconds" ∨ unit = "sec" then some 1000
  else if unit = "min" ∨ unit = "minutes" then some 60000
  else if unit = "h" ∨ unit = "hours" then some 3600000
  else if unit = "d" ∨ unit = "days" then some 86400000
  else none

/-- The parts of a time string made of the given (number, unit) pairs. -/
def partsOf : List (String × String) → List String
  | [] => []
  | p :: rest => p.1 :: p.2 :: partsOf rest

/-- The sum over the pairs of the number times the milliseconds of its unit, added up
from the left starting at 0; a pair that is not a number with a known unit adds nothing. -/
def sumMS {F : Type} [GoFloat F] : List (String × String) → F → F
  | [], total => total
  | p :: rest, total =>
    match GoFloat.parseFloat p.1, unitFactor p.2 with
    | some value, some factor =>
      sumMS rest (Ollama.Float64.add total (GoFloat.mul value (Ollama.Float64.ofInt factor)))
    | _, _ => sumMS rest total

/-- The constants by which the `switch` of `convertTimeToMS` multiplies a value of the
unit, one after the other; `none` for an unknown unit. -/
def unitChain (unit : String) : Option (List Int) :=
  if unit = "ms" then some []
  else if unit = "s" ∨ unit = "seconds" ∨ unit = "sec" then some [1000]
  else if unit = "min" ∨ unit = "minutes" then some [60, 1000]
  else if unit = "h" ∨ unit = "hours" then some [60, 60, 1000]
  else if unit = "d" ∨ unit = "days" then some [24, 60, 60, 1000]
  else none

/-- The value multiplied by the constants of a chain, one after the other. -/
def chainProduct {F : Type} [GoFloat F] (value : F) (chain : List Int) : F :=
  chain.foldl (fun v k => GoFloat.mul v (Ollama.Float64.ofInt k)) value

/-- The sum over the pairs of the number multiplied in turn by the constants of its unit,
added up from the left; a pair that is not a number with a known unit adds nothing. -/
def sumChained {F : Type} [GoFloat F] : List (String × String) → F → F
  | [], total => total
  | p :: rest, total =>
    match GoFloat.parseFloat p.1, unitChain p.2 with
    | some value, some chain =>
      sumChained rest (Ollama.Float64.add total (chainProduct value chain))
    | _, _ => sumChained rest total

/-- The number of binary digits of `m`, for `m < 2 ^ fuel`. -/
def binaryDigits : Nat → Nat → Nat
  | 0, _ => 0
  | fuel + 1, m => if m = 0 then 0 else binaryDigits fuel (m / 2) + 1

/-- The numerator and the denominator of `n / d / 2 ^ e`. -/
def scaleBy (n d : Nat) (e : Int) : Nat × Nat :=
  if e ≥ 0 then (n, d * 2 ^ e.toNat) else (n * 2 ^ (-e).toNat, d)

/-- The integer nearest to `n / d`, the even one on a tie. -/
def divRoundEven (n d : Nat) : Nat :=
  if 2 * (n % d) > d ∨ (2 * (n % d) = d ∧ n / d % 2 = 1) then n / d + 1 else n / d

/-- The positive number `n / d` rounded to 53 significant bits, to the nearest such number
and to the one with an even last bit on a tie: with `e` the exponent for which
`2 ^ 52 ≤ n / d / 2 ^ e < 2 ^ 53`, the nearest integer to `n / d / 2 ^ e` times `2 ^ e`. -/
def roundPositive (n d : Nat) : ℚ :=
  let e0 : Int := (binaryDigits n n : Int) - (binaryDigits d d : Int) - 53
  let e : Int :=
    if (scaleBy n d e0).1 ≥ 2 ^ 53 * (scaleBy n d e0).2 then e0 + 1 else e0
  let m := divRoundEven (scaleBy n d e).1 (scaleBy n d e).2
  if e ≥ 0 then mkRat (m * 2 ^ e.toNat : Nat) 1 else mkRat m (2 ^ (-e).toNat)

/-- The `float64` nearest to a rational number, for numbers whose size is in the range of
the normal `float64` values (no overflow, no underflow). -/
def roundDouble (q : ℚ) : ℚ :=
  if q.num = 0 then 0
  else if q.num < 0 then -roundPositive q.num.natAbs q.den
  else roundPositive q.num.natAbs q.den

/-- A finite `float64` value, as the rational number it stands for. -/
structure Double where
  val : ℚ
deriving DecidableEq

/-- The arithmetic of `float64` on finite values in the normal range: every operation
returns the `float64` nearest to the exact result, each operation rounded on its own, and
`strconv.ParseFloat` returns the `float64` nearest to a plain decimal numeral. -/
instance : GoFloat Double where
  ofInt n := ⟨roundDouble n⟩
  add x y := ⟨roundDouble (x.val + y.val)⟩
  div x y := ⟨roundDouble (x.val / y.val)⟩
  lt x y := decide (x.val < y.val)
  isNaN _ := false
  mul x y := ⟨roundDouble (x.val * y.val)⟩
  parseFloat s := (parseDecimal s).map (fun q => ⟨roundDouble q⟩)

/-- Three applications: two Spark jobs and another one. -/
def sampleApps : List YARNApp :=
  [⟨"application_1", "spark-etl-orders", "RUNNING", "UNDEFINED", "", "etl", "default"⟩,
    ⟨"application_2", "flink-audit", "RUNNING", "UNDEFINED", "", "ops", "default"⟩,
    ⟨"application_3", "spark-stream-clicks", "RUNNING", "UNDEFINED", "", "etl", "default"⟩]

end SparkStreaming

/-!
# NPU input plugin: error sentinels and cache keys

A shallow embedding of the sentinel values written by `collectChipMetrics`
(`inputs/npu/collector.go`), of their conversion and validation in `converter.go`, and of
the cache with its keys (`inputs/npu/cache.go`).

* A floating-point value is the number it stands for, an infinity or NaN (`FloatVal`);
  the conversion of an integer to `float32` or `float64` rounds it to 24 or 53 significant
  bits, to the nearest value and to even on a tie. The integers met here are below `2^64`,
  far from the overflow of either format.
* `int32`, `uint32` and `int` values are integers.
* The device manager of package `devmanager` is an input: each of its calls is a function
  whose result `none` stands for an error.
* The clock is read once per operation and passed as an argument.
-/

namespace Npu

/-- The constant `RetError`. -/
def RetError : Int := -1

/-- The constant `UnRetError`. -/
def UnRetError : Int := 0xFFFFFFFF

/-- The constant `inputName`. -/
def inputName : String := "npu"

/-- The constant `HealthyStatus`. -/
def HealthyStatus : String := "Healthy"

/-- The constant `UnHealthyStatus`. -/
def UnHealthyStatus : String := "UnHealthy"

/-- The constant `AbnormalStatus`. -/
def AbnormalStatus : String := "Abnormal"

/-- The constant `NetworkInit`. -/
def NetworkInit : Int := 0

/-- The constant `NetworkSuccess`. -/
def NetworkSuccess : Int := 1

/-- A `float32` or `float64` value: a finite number, an infinity or NaN. -/
inductive FloatVal where
  | finite (x : ℚ)
  | inf (negative : Bool)
  | nan
deriving DecidableEq

/-- Go's `==` on floats: NaN is equal to nothing, itself included. -/
def FloatVal.eq : FloatVal → FloatVal → Bool
  | .finite x, .finite y => decide (x = y)
  | .inf a, .inf b => a == b
  | _, _ => false

/-- The number of binary digits of `m`, for `m < 2 ^ fuel`. -/
def bitLength : Nat → Nat → Nat
  | 0, _ => 0
  | fuel + 1, m => if m = 0 then 0 else bitLength fuel (m / 2) + 1

/-- The integer nearest to `n` among those with at most `p` significant bits, the even one
on a tie. -/
def roundToBits (p : Nat) (n : Int) : Int :=
  let m := n.natAbs
  let bits := bitLength m m
  let e := bits - p
  let q := m / 2 ^ e
  let r := m % 2 ^ e
  let q' := if 2 * r > 2 ^ e ∨ (2 * r = 2 ^ e ∧ q % 2 = 1) then q + 1 else q
  Int.sign n * ((q' * 2 ^ e : Nat) : Int)

/-- The conversion `float32(n)` of an integer. -/
def float32OfInt (n : Int) : FloatVal := .finite (roundToBits 24 n)

/-- The conversion `float64(n)` of an integer. -/
def float64OfInt (n : Int) : FloatVal := .finite (roundToBits 53 n)

/-- The conversion `float64(x)` of a `float32`, which is exact. -/
def float64OfFloat32 (x : FloatVal) : FloatVal := x

/-- The function `isInvalidValue`. -/
def isInvalidValue (value : FloatVal) : Bool :=
  if value.eq (float64OfInt RetError) || value.eq (float64OfInt UnRetError) then
    true
  else if !(value.eq value) then
    true
  else
    false

/-- A label set, `map[string]string`. -/
abbrev Labels := Ollama.GoMap String

/-- The arguments of one call `types.NewSample(inputName, metricName, value, labels)`. -/
structure Sample where
  Input : String
  Metric : String
  Value : FloatVal
  Labels : Labels

/-- The function `pushMetric`; the sample list grows at its front. -/
def pushMetric (slist : List Sample) (name : String) (value : FloatVal) (labels : Labels) :
    List Sample :=
  if isInvalidValue value then
    slist
  else
    let metricName := inputName ++ "_" ++ name
    { Input := inputName, Metric := metricName, Value := value, Labels := labels } :: slist

/-- The struct `HuaWeiAIChip`, without its pointers into package `common`. -/
structure HuaWeiAIChip where
  LogicID : Int
  PhyId : Int
  DeviceID : Int
  CardId : Int
  MainBoardId : Int
  VDieID : Int
  PCIeBusInfo : String
deriving DecidableEq

/-- The struct `ChipMetrics`, without the pointer `DevProcessInfo` into package `common`. -/
structure ChipMetrics where
  Chip : HuaWeiAIChip
  Timestamp : Ollama.Time
  HealthStatus : String
  NetHealthStatus : String
  ErrorCodes : List Int
  Utilization : Int
  OverallUtilization : Int
  VectorUtilization : Int
  Temperature : Int
  Power : FloatVal
  Voltage : FloatVal
  AICoreCurrentFreq : Int
  HBMTotal : Nat
  HBMUsed : Nat
  HBMFree : Nat
  DDRTotal : Nat
  DDRUsed : Nat
  DDRFree : Nat

/-- The device types `common.AICore`, `common.Overall` and `common.VectorCore`. -/
inductive DeviceType where
  | AICore
  | Overall
  | VectorCore
deriving DecidableEq

/-- The calls of the device manager made by `collectChipMetrics`; the first argument is
the logic ID and `none` is an error. -/
structure DeviceManager where
  GetDeviceHealth : Int → Option Int
  GetDeviceAllErrorCode : Int → Option (List Int)
  GetDeviceTemperature : Int → Option Int
  GetDevicePowerInfo : Int → Option FloatVal
  GetDeviceVoltage : Int → Option FloatVal
  GetDeviceUtilizationRate : Int → DeviceType → Option Int
  GetDeviceFrequency : Int → Option Int
  IsTrainingCard : Bool
  GetDeviceNetWorkHealth : Int → Option Int
  GetDeviceMemoryInfo : Int → Option (Nat × Nat)

/-- The method `collectChipMetrics`, without the process information. -/
def collectChipMetrics (dmgr : DeviceManager) (chip : HuaWeiAIChip) (now : Ollama.Time) :
    ChipMetrics :=
  let logicID := chip.LogicID
  let HealthStatus :=
    match dmgr.GetDeviceHealth logicID with
    | some health => if health ≠ 0 then UnHealthyStatus else HealthyStatus
    | none => UnHealthyStatus
  let ErrorCodes := (dmgr.GetDeviceAllErrorCode logicID).getD []
  let Temperature :=
    match dmgr.GetDeviceTemperature logicID with
    | none => RetError
    | some temp => temp
  let Power :=
    match dmgr.GetDevicePowerInfo logicID with
    | none => float32OfInt RetError
    | some power => power
  let Voltage :=
    match dmgr.GetDeviceVoltage logicID with
    | none => float32OfInt UnRetError
    | some voltage => voltage
  let Utilization :=
    match dmgr.GetDeviceUtilizationRate logicID DeviceType.AICore with
    | none => RetError
    | some util => util
  let OverallUtilization :=
    match dmgr.GetDeviceUtilizationRate logicID DeviceType.Overall with
    | none => RetError
    | some overallUtil => overallUtil
  let VectorUtilization :=
    match dmgr.GetDeviceUtilizationRate logicID DeviceType.VectorCore with
    | none => RetError
    | some vectorUtil => vectorUtil
  let AICoreCurrentFreq :=
    match dmgr.GetDeviceFrequency logicID with
    | none => UnRetError
    | some freq => freq
  let NetHealthStatus :=
    if dmgr.IsTrainingCard then
      match dmgr.GetDeviceNetWorkHealth logicID with
      | none => AbnormalStatus
      | some netCode =>
        if netCode = NetworkInit ∨ netCode = NetworkSuccess then HealthyStatus
        else UnHealthyStatus
    else
      AbnormalStatus
  let hbm : Nat × Nat × Nat :=
    match dmgr.GetDeviceMemoryInfo logicID with
    | some hbmInfo =>
      (hbmInfo.1 % 2 ^ 64, hbmInfo.2 % 2 ^ 64,
        (hbmInfo.1 % 2 ^ 64 + 2 ^ 64 - hbmInfo.2 % 2 ^ 64) % 2 ^ 64)
    | none => (0, 0, 0)
  { Chip := chip, Timestamp := now, HealthStatus := HealthStatus
    NetHealthStatus := NetHealthStatus, ErrorCodes := ErrorCodes, Utilization := Utilization
    OverallUtilization := OverallUtilization, VectorUtilization := VectorUtilization
    Temperature := Temperature, Power := Power, Voltage := Voltage
    AICoreCurrentFreq := AICoreCurrentFreq, HBMTotal := hbm.1, HBMUsed := hbm.2.1
    HBMFree := hbm.2.2, DDRTotal := 0, DDRUsed := 0, DDRFree := 0 }

/-- The block `// Basic metrics` of `ConvertMetricsToSamples`: its first seven calls of
`pushMetric`, in order. -/
def convertBasicMetrics (metrics : ChipMetrics) (slist : List Sample) (labels : Labels) :
    List Sample :=
  let slist := pushMetric slist "temperature" (float64OfInt metrics.Temperature) labels
  let slist := pushMetric slist "power" (float64OfFloat32 metrics.Power) labels
  let slist := pushMetric slist "voltage" (float64OfFloat32 metrics.Voltage) labels
  let slist := pushMetric slist "utilization" (float64OfInt metrics.Utilization) labels
  let slist :=
    pushMetric slist "overall_utilization" (float64OfInt metrics.OverallUtilization) labels
  let slist :=
    pushMetric slist "vector_utilization" (float64OfInt metrics.VectorUtilization) labels
  pushMetric slist "aicore_freq" (float64OfInt metrics.AICoreCurrentFreq) labels

/-- A value stored in the cache: the chip list or the metrics of a chip. -/
inductive CacheValue where
  | chips (list : List HuaWeiAIChip)
  | metrics (m : ChipMetrics)

/-- The struct `cacheItem`. -/
structure cacheItem where
  value : CacheValue
  expiration : Ollama.Time

/-- The struct `Cache` (the mutex is left out). -/
structure Cache where
  items : Ollama.GoMap cacheItem

/-- The function `NewCache`. -/
def NewCache : Cache := { items := Ollama.GoMap.empty }

/-- The method `Cache.Set`. -/
def Cache.Set (c : Cache) (key : String) (value : CacheValue) (ttl : Nat)
    (now : Ollama.Time) : Cache :=
  { items := c.items.set key { value := value, expiration := now + ttl } }

/-- The method `Cache.Get`. -/
def Cache.Get (c : Cache) (key : String) (now : Ollama.Time) : Option CacheValue :=
  match c.items.find? key with
  | none => none
  | some item => if now > item.expiration then none else some item.value

/-- The constant `CacheKeyChipList`. -/
def CacheKeyChipList : String := "npu_chip_list"

/-- The constant `CacheKeyMetricsBase`. -/
def CacheKeyMetricsBase : String := "npu_metrics_"

/-- The conversion `string(rune(v))`: the character with code point `v`, or the
replacement character U+FFFD when `v` is no valid code point (negative, a surrogate, or
above U+10FFFF). -/
def stringOfRune (v : Int) : String :=
  if 0 ≤ v ∧ v ≤ 0x10FFFF ∧ ¬ (0xD800 ≤ v ∧ v ≤ 0xDFFF) then
    String.singleton (Char.ofNat v.toNat)
  else
    "\uFFFD"

/-- The function `GetMetricsCacheKey`. -/
def GetMetricsCacheKey (phyID : Int) : String := CacheKeyMetricsBase ++ stringOfRune phyID

/-- The state of an `NpuCollector` read by the methods below, with the result of
`discoverChips` (`none` is an error) as an input. -/
structure NpuCollector where
  dmgr : DeviceManager
  cache : Cache
  cacheTime : Nat
  discoverChips : Option (List HuaWeiAIChip)

/-- The method `GetChips`: the chip list and the cache after the call. -/
def NpuCollector.GetChips (nc : NpuCollector) (now : Ollama.Time) :
    List HuaWeiAIChip × Cache :=
  match nc.cache.Get CacheKeyChipList now with
  | none =>
    match nc.discoverChips with
    | none => ([], nc.cache)
    | some chips =>
      (chips, nc.cache.Set CacheKeyChipList (CacheValue.chips chips) nc.cacheTime now)
  | some (CacheValue.chips chips) => (chips, nc.cache)
  | some (CacheValue.metrics _) => ([], nc.cache)

/-- The method `GetMetrics`. -/
def NpuCollector.GetMetrics (nc : NpuCollector) (phyID : Int) (now : Ollama.Time) :
    Option ChipMetrics :=
  match nc.cache.Get (GetMetricsCacheKey phyID) now with
  | some (CacheValue.metrics m) => some m
  | _ => none

/-- The method `collectAllMetrics`: the collector after the call. -/
def NpuCollector.collectAllMetrics (nc : NpuCollector) (now : Ollama.Time) : NpuCollector :=
  let chips := (nc.GetChips now).1
  let cache := (nc.GetChips now).2
  if chips.length = 0 then
    { nc with cache := cache }
  else
    { nc with
      cache := chips.foldl
        (fun c chip =>
          c.Set (GetMetricsCacheKey chip.PhyId)
            (CacheValue.metrics (collectChipMetrics nc.dmgr chip now)) nc.cacheTime now)
        cache }

/-! ## Vocabulary for the statements -/

/-- A device manager of which every call fails. -/
def failingDevice : DeviceManager :=
  { GetDeviceHealth := fun _ => none
    GetDeviceAllErrorCode := fun _ => none
    GetDeviceTemperature := fun _ => none
    GetDevicePowerInfo := fun _ => none
    GetDeviceVoltage := fun _ => none
    GetDeviceUtilizationRate := fun _ _ => none
    GetDeviceFrequency := fun _ => none
    IsTrainingCard := false
    GetDeviceNetWorkHealth := fun _ => none
    GetDeviceMemoryInfo := fun _ => none }

/-- The chip with the given logic and physical ID on card 0. -/
def chipWith (logicID phyID : Int) : HuaWeiAIChip :=
  { LogicID := logicID, PhyId := phyID, DeviceID := phyID, CardId := 0, MainBoardId := 0
    VDieID := 0, PCIeBusInfo := "" }

/-- A collector with an empty cache that discovers two chips, of physical ID -1 and -2. -/
def twoChipCollector : NpuCollector :=
  { dmgr := failingDevice, cache := NewCache, cacheTime := 60
    discoverChips := some [chipWith 0 (-1), chipWith 1 (-2)] }

end Npu

namespace Ollama

/-! ## Facts about Go maps -/

namespace GoMap

variable {V : Type}

theorem lookupEntries_setEntries_self (l : List (String × V)) (k : String) (v : V) :
    lookupEntries (setEntries l k v) k = some v := by
  induction l with
  | nil => simp [setEntries, lookupEntries]
  | cons e rest ih =>
    obtain ⟨k', v'⟩ := e
    by_cases hk : k' = k
    · simp [setEntries, lookupEntries, hk]
    · simp [setEntries, lookupEntries, hk, ih]

theorem lookupEntries_setEntries_ne (l : List (String × V)) (k k' : String) (v : V)
    (h : k' ≠ k) : lookupEntries (setEntries l k v) k' = lookupEntries l k' := by
  induction l with
  | nil =>
    have h' : ¬ k = k' := fun e => h e.symm
    simp [setEntries, lookupEntries, h']
  | cons e rest ih =>
    obtain ⟨k0, v0⟩ := e
    by_cases hk : k0 = k
    · have h' : ¬ k = k' := fun e => h e.symm
      subst hk
      simp [setEntries, lookupEntries, h']
    · by_cases hk0 : k0 = k'
      · subst hk0
        simp [setEntries, lookupEntries, hk]
      · simp [setEntries, lookupEntries, hk, hk0, ih]

theorem lookupEntries_eq_none (l : List (String × V)) (k : String) :
    lookupEntries l k = none ↔ k ∉ l.map Prod.fst := by
  induction l with
  | nil => simp [lookupEntries]
  | cons e rest ih =>
    obtain ⟨k', v'⟩ := e
    by_cases hk : k' = k
    · simp [lookupEntries, hk]
    · have hk' : ¬ k = k' := fun e => hk e.symm
      simp only [lookupEntries, hk, if_false, ih, List.map_cons, List.mem_cons, hk', false_or]

@[simp] theorem find?_empty (k : String) : (empty : GoMap V).find? k = none := rfl

@[simp] theorem find?_set_self (m : GoMap V) (k : String) (v : V) :
    (m.set k v).find? k = some v :=
  lookupEntries_setEntries_self m.entries k v

theorem find?_set_ne (m : GoMap V) (k k' : String) (v : V) (h : k' ≠ k) :
    (m.set k v).find? k' = m.find? k' :=
  lookupEntries_setEntries_ne m.entries k k' v h

theorem find?_set (m : GoMap V) (k k' : String) (v : V) :
    (m.set k v).find? k' = if k' = k then some v else m.find? k' := by
  by_cases h : k' = k
  · subst h; simp
  · simp [h, find?_set_ne m k k' v h]

@[simp] theorem getD_empty (k : String) (z : V) : (empty : GoMap V).getD k z = z := rfl

@[simp] theorem getD_set_self (m : GoMap V) (k : String) (v z : V) :
    (m.set k v).getD k z = v := by
  simp [getD]

theorem getD_set_ne (m : GoMap V) (k k' : String) (v z : V) (h : k' ≠ k) :
    (m.set k v).getD k' z = m.getD k' z := by
  simp [getD, find?_set_ne m k k' v h]

theorem mem_keys_iff (m : GoMap V) (k : String) : k ∈ m.keys ↔ (m.find? k).isSome = true := by
  have h := lookupEntries_eq_none m.entries k
  unfold keys find?
  cases hl : lookupEntries m.entries k with
  | none => simpa [hl] using h
  | some v =>
    rw [hl] at h
    simp only [Option.isSome_some, iff_true]
    by_contra hc
    exact absurd (h.mpr hc) (by simp)

theorem mem_keys_set (m : GoMap V) (k k' : String) (v : V) :
    k' ∈ (m.set k v).keys ↔ k' = k ∨ k' ∈ m.keys := by
  rw [mem_keys_iff, mem_keys_iff, find?_set]
  by_cases h : k' = k
  · simp [h]
  · simp [h]

end GoMap

/-- Copying a map entry by entry gives a map with the same entries under every key. -/
theorem find?_copyMap {V : Type} (src : GoMap V) (k : String) :
    (copyMap src).find? k = src.find? k := by
  have key : ∀ (l : List (String × V)) (acc : GoMap V), (l.map Prod.fst).Nodup →
      (l.foldl (fun result e => result.set e.1 e.2) acc).find? k =
        (GoMap.lookupEntries l k).orElse (fun _ => acc.find? k) := by
    intro l
    induction l with
    | nil => intro acc _; simp [GoMap.lookupEntries]
    | cons e rest ih =>
      intro acc hnd
      obtain ⟨k', v'⟩ := e
      simp only [List.map_cons, List.nodup_cons] at hnd
      rw [List.foldl_cons, ih _ hnd.2]
      by_cases hk : k' = k
      · subst hk
        have hnone : GoMap.lookupEntries rest k' = none :=
          (GoMap.lookupEntries_eq_none rest k').mpr hnd.1
        simp [GoMap.lookupEntries, hnone]
      · have hk' : k ≠ k' := fun e => hk e.symm
        simp [GoMap.lookupEntries, hk, GoMap.find?_set_ne acc k' k v' hk']
  have h := key src.entries GoMap.empty src.nodup
  unfold copyMap GoMap.find?
  unfold GoMap.find? at h
  rw [h]
  cases GoMap.lookupEntries src.entries k <;> simp [GoMap.empty, GoMap.lookupEntries]

/-- A copied map has the keys of its source. -/
theorem mem_keys_copyMap {V : Type} (src : GoMap V) (k : String) :
    k ∈ (copyMap src).keys ↔ k ∈ src.keys := by
  rw [GoMap.mem_keys_iff, GoMap.mem_keys_iff, find?_copyMap]

/-! ## Facts about 64-bit addition -/

theorem wrap64_zero : wrap64 0 = 0 := by decide

theorem wrap64_add_left (x y : Int) : wrap64 (wrap64 x + y) = wrap64 (x + y) := by
  unfold wrap64
  have h : (x + 2 ^ 63) % 2 ^ 64 - 2 ^ 63 + y + 2 ^ 63 = (x + 2 ^ 63) % 2 ^ 64 + y := by ring
  rw [h, Int.emod_add_emod]
  have h2 : x + 2 ^ 63 + y = x + y + 2 ^ 63 := by ring
  rw [h2]

theorem wrap64_add_right (x y : Int) : wrap64 (x + wrap64 y) = wrap64 (x + y) := by
  rw [add_comm, wrap64_add_left, add_comm]

theorem wrap64_of_range (x : Int) (h0 : -2 ^ 63 ≤ x) (h1 : x < 2 ^ 63) : wrap64 x = x := by
  unfold wrap64
  rw [Int.emod_eq_of_lt (by omega) (by omega)]
  omega

theorem wrap64_lower (x : Int) : -2 ^ 63 ≤ wrap64 x := by
  unfold wrap64
  have := Int.emod_nonneg (x + 2 ^ 63) (show (2 : Int) ^ 64 ≠ 0 by norm_num)
  omega

theorem wrap64_upper (x : Int) : wrap64 x < 2 ^ 63 := by
  unfold wrap64
  have := Int.emod_lt_of_pos (x + 2 ^ 63) (show (0 : Int) < 2 ^ 64 by norm_num)
  omega

/-! ## The effect of the mutators on each field -/

section Effects

variable {F : Type}

theorem getD_limitSamples (samples : GoMap (List F)) (model k : String) :
    (limitSamples samples model).getD k [] =
      if k = model then trimWindow (samples.getD model []) else samples.getD k [] := by
  unfold limitSamples trimWindow
  by_cases hlen : (samples.getD model []).length > 1000
  · by_cases hk : k = model
    · subst hk; simp [hlen]
    · simp [hlen, hk, GoMap.getD_set_ne _ _ _ _ _ hk]
  · by_cases hk : k = model
    · subst hk; simp [hlen]
    · simp [hlen, hk]

theorem find?_limitSamples_ne (samples : GoMap (List F)) (model k : String) (h : k ≠ model) :
    (limitSamples samples model).find? k = samples.find? k := by
  unfold limitSamples
  by_cases hlen : (samples.getD model []).length > 1000
  · simp [hlen, GoMap.find?_set_ne _ _ _ _ h]
  · simp [hlen]

theorem find?_limitSamples_set (samples : GoMap (List F)) (model : String) (w : List F) :
    (limitSamples (samples.set model w) model).find? model = some (trimWindow w) := by
  unfold limitSamples trimWindow
  by_cases hlen : w.length > 1000
  · simp [hlen]
  · simp [hlen]

theorem successesFor_le_length (calls : List (Call F)) (model : String) :
    successesFor calls model + failuresFor calls model ≤ calls.length := by
  induction calls with
  | nil => simp [successesFor, failuresFor]
  | cons c rest ih =>
    cases c with
    | success m r d t =>
      simp only [successesFor, failuresFor, List.length_cons]
      split <;> omega
    | failure m t =>
      simp only [successesFor, failuresFor, List.length_cons]
      split <;> omega

theorem getD_set_eq {V : Type} (m : GoMap V) (k k' : String) (v z : V) :
    (m.set k v).getD k' z = if k' = k then v else m.getD k' z := by
  by_cases h : k' = k
  · subst h; simp
  · simp [h, GoMap.getD_set_ne m k k' v z h]

/-- The three request counters of a model after a sequence of calls, from a store in
which they hold the 64-bit values of `a`, `b` and `c`. -/
theorem requestCounters_runCalls [Float64 F] (calls : List (Call F)) (s : MetricsStore F)
    (model : String) (a b c : Int)
    (ha : s.requestCount.getD model 0 = wrap64 a)
    (hb : s.requestSuccess.getD model 0 = wrap64 b)
    (hc : s.requestFailed.getD model 0 = wrap64 c) :
    (runCalls s calls).requestCount.getD model 0 =
        wrap64 (a + successesFor calls model + failuresFor calls model) ∧
      (runCalls s calls).requestSuccess.getD model 0 = wrap64 (b + successesFor calls model) ∧
      (runCalls s calls).requestFailed.getD model 0 = wrap64 (c + failuresFor calls model) := by
  induction calls generalizing s a b c with
  | nil => simpa [runCalls, successesFor, failuresFor] using ⟨ha, hb, hc⟩
  | cons call rest ih =>
    cases call with
    | success m r d t =>
      by_cases hm : m = model
      · subst hm
        have h := ih (RecordSuccess s m r d t) (a + 1) (b + 1) c
          (by simp [RecordSuccess, ha, add64, wrap64_add_left])
          (by simp [RecordSuccess, hb, add64, wrap64_add_left])
          (by simpa [RecordSuccess] using hc)
        simp only [runCalls, List.foldl_cons, Call.apply, successesFor, failuresFor, if_true,
          Nat.cast_add, Nat.cast_one] at h ⊢
        refine ⟨?_, ?_, h.2.2⟩
        · rw [h.1]; congr 1; ring
        · rw [h.2.1]; congr 1; ring
      · have hm' : model ≠ m := fun e => hm e.symm
        have h := ih (RecordSuccess s m r d t) a b c
          (by simpa [RecordSuccess, getD_set_eq, hm'] using ha)
          (by simpa [RecordSuccess, getD_set_eq, hm'] using hb)
          (by simpa [RecordSuccess] using hc)
        simpa [runCalls, Call.apply, successesFor, failuresFor, hm] using h
    | failure m t =>
      by_cases hm : m = model
      · subst hm
        have h := ih (RecordFailure s m t) (a + 1) b (c + 1)
          (by simp [RecordFailure, ha, add64, wrap64_add_left])
          (by simpa [RecordFailure] using hb)
          (by simp [RecordFailure, hc, add64, wrap64_add_left])
        simp only [runCalls, List.foldl_cons, Call.apply, successesFor, failuresFor, if_true,
          Nat.cast_add, Nat.cast_one] at h ⊢
        refine ⟨?_, h.2.1, ?_⟩
        · rw [h.1]; congr 1; ring
        · rw [h.2.2]; congr 1; ring
      · have hm' : model ≠ m := fun e => hm e.symm
        have h := ih (RecordFailure s m t) a b c
          (by simpa [RecordFailure, getD_set_eq, hm'] using ha)
          (by simpa [RecordFailure] using hb)
          (by simpa [RecordFailure, getD_set_eq, hm'] using hc)
        simpa [runCalls, Call.apply, successesFor, failuresFor, hm] using h

/-- The three request counters of a model after a sequence of calls on a fresh store. -/
theorem requestCounters_fresh [Float64 F] (calls : List (Call F)) (now : Time)
    (model : String) :
    (runCalls (NewMetricsStore now) calls).requestCount.getD model 0 =
        wrap64 (successesFor calls model + failuresFor calls model) ∧
      (runCalls (NewMetricsStore now) calls).requestSuccess.getD model 0 =
        wrap64 (successesFor calls model) ∧
      (runCalls (NewMetricsStore now) calls).requestFailed.getD model 0 =
        wrap64 (failuresFor calls model) := by
  have h := requestCounters_runCalls calls (NewMetricsStore now : MetricsStore F) model 0 0 0
    (by simp [NewMetricsStore, wrap64_zero]) (by simp [NewMetricsStore, wrap64_zero])
    (by simp [NewMetricsStore, wrap64_zero])
  simpa using h

theorem getD_durationSamples_RecordSuccess [Float64 F] (s : MetricsStore F) (m k : String)
    (r : OllamaResponse) (d : F) (t : Time) :
    (RecordSuccess s m r d t).durationSamples.getD k [] =
      if k = m then trimWindow (s.durationSamples.getD m [] ++ [d])
      else s.durationSamples.getD k [] := by
  simp only [RecordSuccess, getD_limitSamples, GoMap.getD_set_self]
  by_cases hk : k = m
  · simp [hk]
  · simp [hk, GoMap.getD_set_ne _ _ _ _ _ hk]

theorem getD_loadDurations_RecordSuccess [Float64 F] (s : MetricsStore F) (m k : String)
    (r : OllamaResponse) (d : F) (t : Time) :
    (RecordSuccess s m r d t).loadDurations.getD k [] =
      if k = m ∧ r.LoadDuration > 0 then
        trimWindow (s.loadDurations.getD m [] ++
          [Float64.div (Float64.ofInt r.LoadDuration : F) (Float64.ofInt 1000000000)])
      else s.loadDurations.getD k [] := by
  by_cases hl : r.LoadDuration > 0
  · simp only [RecordSuccess, hl, if_true, getD_limitSamples, GoMap.getD_set_self, and_true]
    by_cases hk : k = m
    · simp [hk]
    · simp [hk, GoMap.getD_set_ne _ _ _ _ _ hk]
  · simp [RecordSuccess, hl]

theorem length_trimWindow_le (w : List F) (h : w.length ≤ 1001) :
    (trimWindow w).length ≤ 1000 := by
  unfold trimWindow
  split
  · rw [List.length_drop]; omega
  · omega

/-- One call keeps every window within 1000 samples. -/
theorem windows_bounded_apply [Float64 F] (s : MetricsStore F) (c : Call F)
    (h : ∀ k, (s.durationSamples.getD k []).length ≤ 1000 ∧
      (s.loadDurations.getD k []).length ≤ 1000) (k : String) :
    ((Call.apply s c).durationSamples.getD k []).length ≤ 1000 ∧
      ((Call.apply s c).loadDurations.getD k []).length ≤ 1000 := by
  cases c with
  | success m r d t =>
    simp only [Call.apply, getD_durationSamples_RecordSuccess, getD_loadDurations_RecordSuccess]
    refine ⟨?_, ?_⟩
    · split
      · apply length_trimWindow_le
        have := (h m).1
        simp only [List.length_append, List.length_singleton]
        omega
      · exact (h k).1
    · split
      · apply length_trimWindow_le
        have := (h m).2
        simp only [List.length_append, List.length_singleton]
        omega
      · exact (h k).2
  | failure m t => exact h k

/-- A sequence of calls keeps every window within 1000 samples. -/
theorem windows_bounded_runCalls [Float64 F] (calls : List (Call F)) (s : MetricsStore F)
    (h : ∀ k, (s.durationSamples.getD k []).length ≤ 1000 ∧
      (s.loadDurations.getD k []).length ≤ 1000) (k : String) :
    ((runCalls s calls).durationSamples.getD k []).length ≤ 1000 ∧
      ((runCalls s calls).loadDurations.getD k []).length ≤ 1000 := by
  induction calls generalizing s with
  | nil => exact h k
  | cons c rest ih => exact ih (Call.apply s c) (fun k' => windows_bounded_apply s c h k')

theorem retainedCount_succ (k : Nat) :
    retainedCount (k + 1) = if retainedCount k < 1000 then retainedCount k + 1 else 501 := by
  unfold retainedCount
  split_ifs <;> omega

theorem retainedCount_le (k : Nat) : retainedCount k ≤ 1000 ∧ retainedCount k ≤ k := by
  unfold retainedCount
  split_ifs <;> omega

theorem runCalls_append [Float64 F] (s : MetricsStore F) (calls : List (Call F))
    (c : Call F) : runCalls s (calls ++ [c]) = Call.apply (runCalls s calls) c := by
  simp [runCalls, List.foldl_append]

/-- The duration window of a model after a run of successes for it on a fresh store. -/
theorem durationWindow_successCalls [Float64 F] (model : String)
    (records : List (OllamaResponse × F × Time)) (now : Time) :
    (runCalls (NewMetricsStore now) (successCalls model records)).durationSamples.getD model []
      = (durationsOf records).drop (records.length - retainedCount records.length) := by
  induction records using List.reverseRecOn with
  | nil => simp [successCalls, durationsOf, runCalls, NewMetricsStore]
  | append_singleton rest x ih =>
    have hcalls : successCalls model (rest ++ [x]) =
        successCalls model rest ++ [Call.success model x.1 x.2.1 x.2.2] := by
      simp [successCalls]
    have hdur : durationsOf (rest ++ [x]) = durationsOf rest ++ [x.2.1] := by
      simp [durationsOf]
    have hlen : (durationsOf rest).length = rest.length := by simp [durationsOf]
    obtain ⟨hle1, hle2⟩ := retainedCount_le rest.length
    rw [hcalls, runCalls_append, Call.apply, getD_durationSamples_RecordSuccess, if_pos rfl, ih,
      hdur, List.length_append, List.length_singleton, retainedCount_succ]
    unfold trimWindow
    have hwl : ((durationsOf rest).drop (rest.length - retainedCount rest.length)
        ++ [x.2.1]).length = retainedCount rest.length + 1 := by
      rw [List.length_append, List.length_drop, List.length_singleton, hlen]; omega
    rw [hwl]
    have hdl : ((durationsOf rest).drop (rest.length - retainedCount rest.length)).length =
        retainedCount rest.length := by
      rw [List.length_drop, hlen]; omega
    by_cases hfull : retainedCount rest.length < 1000
    · have e : rest.length + 1 - (retainedCount rest.length + 1) =
          rest.length - retainedCount rest.length := by omega
      rw [if_neg (by omega), if_pos hfull, e,
        List.drop_append_of_le_length (show rest.length -
          retainedCount rest.length ≤ (durationsOf rest).length by omega)]
    · have hN : retainedCount rest.length = 1000 := by omega
      have e : rest.length + 1 - 501 = 500 + (rest.length - retainedCount rest.length) := by
        omega
      rw [if_pos (by omega), if_neg hfull,
        List.drop_append_of_le_length (show 500 ≤ ((durationsOf rest).drop
          (rest.length - retainedCount rest.length)).length by omega),
        e, List.drop_append_of_le_length (show 500 + (rest.length -
          retainedCount rest.length) ≤ (durationsOf rest).length by omega),
        List.drop_drop, Nat.add_comm]

theorem trimWindow_append_singleton (w : List F) (x : F) :
    trimWindow (w ++ [x]) = (if w.length ≥ 1000 then w.drop 500 else w) ++ [x] := by
  unfold trimWindow
  simp only [List.length_append, List.length_singleton]
  by_cases h : w.length ≥ 1000
  · rw [if_pos (by omega), if_pos h, List.drop_append_of_le_length (by omega)]
  · rw [if_neg (by omega), if_neg h]

theorem length_trimWindow_append_ne (w : List F) (x : F) :
    (trimWindow (w ++ [x])).length ≠ w.length := by
  rw [trimWindow_append_singleton]
  by_cases h : w.length ≥ 1000
  · rw [if_pos h, List.length_append, List.length_drop, List.length_singleton]; omega
  · rw [if_neg h, List.length_append, List.length_singleton]; omega

theorem le_wrap64_add (x d : Int) (hd : 0 ≤ d) (h : x + d < 2 ^ 63) : x ≤ wrap64 (x + d) := by
  by_cases hlow : -2 ^ 63 ≤ x + d
  · rw [wrap64_of_range _ hlow h]; omega
  · have := wrap64_lower (x + d)
    omega

/-- The keys of one of the counter maps after a sequence of calls, given which calls
write to that map. -/
theorem mem_keys_runCalls [Float64 F] (proj : MetricsStore F → GoMap Int)
    (touched : Call F → Bool)
    (hstep : ∀ (s : MetricsStore F) (c : Call F) (k : String),
      k ∈ (proj (Call.apply s c)).keys ↔
        k ∈ (proj s).keys ∨ (touched c = true ∧ c.model = k))
    (calls : List (Call F)) (s : MetricsStore F) (k : String) :
    k ∈ (proj (runCalls s calls)).keys ↔
      k ∈ (proj s).keys ∨ ∃ c ∈ calls, touched c = true ∧ c.model = k := by
  induction calls generalizing s with
  | nil => simp [runCalls]
  | cons c rest ih =>
    have h := ih (Call.apply s c)
    simp only [runCalls, List.foldl_cons] at h ⊢
    rw [h, hstep]
    simp only [List.mem_cons, exists_eq_or_imp, or_assoc]

theorem mem_keys_requestCount_apply [Float64 F] (s : MetricsStore F) (c : Call F)
    (k : String) :
    k ∈ (Call.apply s c).requestCount.keys ↔
      k ∈ s.requestCount.keys ∨ (true = true ∧ c.model = k) := by
  cases c with
  | success m r d t =>
    simp only [Call.apply, RecordSuccess, GoMap.mem_keys_set, Call.model, true_and]
    tauto
  | failure m t =>
    simp only [Call.apply, RecordFailure, GoMap.mem_keys_set, Call.model, true_and]
    tauto

theorem mem_keys_requestSuccess_apply [Float64 F] (s : MetricsStore F) (c : Call F)
    (k : String) :
    k ∈ (Call.apply s c).requestSuccess.keys ↔
      k ∈ s.requestSuccess.keys ∨ (c.isSuccess = true ∧ c.model = k) := by
  cases c with
  | success m r d t =>
    simp only [Call.apply, RecordSuccess, GoMap.mem_keys_set, Call.model, Call.isSuccess,
      true_and]
    tauto
  | failure m t => simp [Call.apply, RecordFailure, Call.isSuccess]

theorem mem_keys_tokenCount_apply [Float64 F] (s : MetricsStore F) (c : Call F)
    (k : String) :
    k ∈ (Call.apply s c).tokenCount.keys ↔
      k ∈ s.tokenCount.keys ∨ (c.isSuccess = true ∧ c.model = k) := by
  cases c with
  | success m r d t =>
    simp only [Call.apply, RecordSuccess, GoMap.mem_keys_set, Call.model, Call.isSuccess,
      true_and]
    tauto
  | failure m t => simp [Call.apply, RecordFailure, Call.isSuccess]

theorem mem_keys_promptTokens_apply [Float64 F] (s : MetricsStore F) (c : Call F)
    (k : String) :
    k ∈ (Call.apply s c).promptTokens.keys ↔
      k ∈ s.promptTokens.keys ∨ (c.isSuccess = true ∧ c.model = k) := by
  cases c with
  | success m r d t =>
    simp only [Call.apply, RecordSuccess, GoMap.mem_keys_set, Call.model, Call.isSuccess,
      true_and]
    tauto
  | failure m t => simp [Call.apply, RecordFailure, Call.isSuccess]

theorem mem_keys_requestFailed_apply [Float64 F] (s : MetricsStore F) (c : Call F)
    (k : String) :
    k ∈ (Call.apply s c).requestFailed.keys ↔
      k ∈ s.requestFailed.keys ∨ ((!c.isSuccess) = true ∧ c.model = k) := by
  cases c with
  | success m r d t => simp [Call.apply, RecordSuccess, Call.isSuccess]
  | failure m t =>
    simp only [Call.apply, RecordFailure, GoMap.mem_keys_set, Call.model, Call.isSuccess,
      Bool.not_false, true_and]
    tauto

theorem not_mem_keys_empty {V : Type} (k : String) : k ∉ (GoMap.empty : GoMap V).keys := by
  simp [GoMap.keys, GoMap.empty]

/-- The function `calculateStats` never indexes out of range: it returns statistics for
every input. -/
theorem calculateStats_total [Float64 F] (values : List F) :
    ∃ st, calculateStats values = some st := by
  unfold calculateStats
  by_cases h0 : values.length = 0
  · rw [if_pos h0]; exact ⟨_, rfl⟩
  · rw [if_neg h0]
    have hlen : (sortFloat64s values).length = values.length :=
      List.length_insertionSort _ _
    have h50 : (sortFloat64s values).length * 50 / 100 < (sortFloat64s values).length := by
      omega
    have h95 : (sortFloat64s values).length * 95 / 100 < (sortFloat64s values).length := by
      omega
    have h99 : (sortFloat64s values).length * 99 / 100 < (sortFloat64s values).length := by
      omega
    have hmin : 0 < (sortFloat64s values).length := by omega
    have hmax : (sortFloat64s values).length - 1 < (sortFloat64s values).length := by omega
    simp only [List.getElem?_eq_getElem h50, List.getElem?_eq_getElem h95,
      List.getElem?_eq_getElem h99, List.getElem?_eq_getElem hmin,
      List.getElem?_eq_getElem hmax, Option.bind_eq_bind, Option.some_bind]
    exact ⟨_, rfl⟩

/-- The map built by the loop of `GetDurationStats` over a list of entries. -/
theorem statsOf_entries [Float64 F] (l : List (String × List F)) (acc : GoMap (Stats F))
    (hnd : (l.map Prod.fst).Nodup) :
    ∃ res, l.foldlM
        (fun result e =>
          if e.2.length > 0 then (calculateStats e.2).map (fun st => result.set e.1 st)
          else some result) acc = some res ∧
      ∀ k : String, res.find? k =
        match GoMap.lookupEntries l k with
        | some w => if w.length > 0 then calculateStats w else acc.find? k
        | none => acc.find? k := by
  induction l generalizing acc with
  | nil => exact ⟨acc, rfl, fun k => by simp [GoMap.lookupEntries]⟩
  | cons e rest ih =>
    obtain ⟨k', w'⟩ := e
    simp only [List.map_cons, List.nodup_cons] at hnd
    have hnone : GoMap.lookupEntries rest k' = none :=
      (GoMap.lookupEntries_eq_none rest k').mpr hnd.1
    by_cases hw : w'.length > 0
    · obtain ⟨st, hst⟩ := calculateStats_total w'
      obtain ⟨res, hres, hfind⟩ := ih (acc.set k' st) hnd.2
      refine ⟨res, ?_, ?_⟩
      · simp only [List.foldlM_cons, hw, if_true, hst, Option.map_some', Option.bind_eq_bind,
          Option.some_bind]
        exact hres
      · intro k
        rw [hfind k]
        by_cases hk : k' = k
        · subst hk
          simp [GoMap.lookupEntries, hnone, hw, hst]
        · have hk' : k ≠ k' := fun e => hk e.symm
          simp only [GoMap.lookupEntries, hk, if_false, GoMap.find?_set_ne _ _ _ _ hk']
    · obtain ⟨res, hres, hfind⟩ := ih acc hnd.2
      refine ⟨res, ?_, ?_⟩
      · simp only [List.foldlM_cons, hw, if_false, Option.bind_eq_bind, Option.some_bind]
        exact hres
      · intro k
        rw [hfind k]
        by_cases hk : k' = k
        · subst hk
          simp [GoMap.lookupEntries, hnone, hw]
        · simp only [GoMap.lookupEntries, hk, if_false]

/-- The map built by the loop of `GetDurationStats`: an entry for every non-empty window,
holding its statistics, and no other entry. -/
theorem statsOf_spec [Float64 F] (windows : GoMap (List F)) :
    ∃ res, statsOf windows = some res ∧
      ∀ k : String,
        (res.find? k =
          if (windows.getD k []).length > 0 then calculateStats (windows.getD k [])
          else none) ∧
        (k ∈ res.keys ↔ (windows.getD k []).length > 0) := by
  obtain ⟨res, hres, hfind⟩ := statsOf_entries windows.entries GoMap.empty windows.nodup
  refine ⟨res, hres, fun k => ?_⟩
  have hk : res.find? k =
      if (windows.getD k []).length > 0 then calculateStats (windows.getD k [])
      else none := by
    rw [hfind k]
    unfold GoMap.getD GoMap.find?
    cases GoMap.lookupEntries windows.entries k with
    | none => simp [GoMap.empty, GoMap.lookupEntries]
    | some w => simp [GoMap.empty, GoMap.lookupEntries]
  refine ⟨hk, ?_⟩
  rw [GoMap.mem_keys_iff, hk]
  by_cases hw : (windows.getD k []).length > 0
  · obtain ⟨st, hst⟩ := calculateStats_total (windows.getD k [])
    simp [hw, hst]
  · simp [hw]

/-- What `calculateStats` returns on a non-empty input, field by field. -/
theorem calculateStats_spec [Float64 F] (xs : List F) (hne : xs ≠ []) :
    ∃ st, calculateStats xs = some st ∧
      st.Avg = Float64.div ((sortFloat64s xs).foldl Float64.add (Float64.ofInt 0))
        (Float64.ofInt xs.length) ∧
      (sortFloat64s xs)[xs.length * 50 / 100]? = some st.P50 ∧
      (sortFloat64s xs)[xs.length * 95 / 100]? = some st.P95 ∧
      (sortFloat64s xs)[xs.length * 99 / 100]? = some st.P99 ∧
      (sortFloat64s xs)[0]? = some st.Min ∧
      (sortFloat64s xs)[xs.length - 1]? = some st.Max := by
  have h0 : ¬ xs.length = 0 := fun h => hne (List.length_eq_zero.mp h)
  have hlen : (sortFloat64s xs).length = xs.length := List.length_insertionSort _ _
  have h50 : xs.length * 50 / 100 < (sortFloat64s xs).length := by omega
  have h95 : xs.length * 95 / 100 < (sortFloat64s xs).length := by omega
  have h99 : xs.length * 99 / 100 < (sortFloat64s xs).length := by omega
  have hmin : 0 < (sortFloat64s xs).length := by omega
  have hmax : xs.length - 1 < (sortFloat64s xs).length := by omega
  unfold calculateStats
  rw [if_neg h0]
  simp only [hlen, List.getElem?_eq_getElem h50, List.getElem?_eq_getElem h95,
    List.getElem?_eq_getElem h99, List.getElem?_eq_getElem hmin,
    List.getElem?_eq_getElem hmax, Option.bind_eq_bind, Option.some_bind]
  exact ⟨_, rfl, rfl, rfl, rfl, rfl, rfl, rfl⟩

/-- Summing the sorted copy gives the sum of the input when the order of the additions
is immaterial. -/
theorem sum_sortFloat64s [Float64 F] (xs : List F)
    (hcomm : ∀ a b : F, Float64.add a b = Float64.add b a)
    (hassoc : ∀ a b c : F, Float64.add (Float64.add a b) c = Float64.add a (Float64.add b c)) :
    (sortFloat64s xs).foldl Float64.add (Float64.ofInt 0) =
      xs.foldl Float64.add (Float64.ofInt 0) := by
  apply List.Perm.foldl_eq' (List.perm_insertionSort _ xs)
  intro x _ y _ z
  rw [hassoc, hassoc, hcomm x y]

/-- The sorted copy is ascending when the order of `sort.Float64s` compares any two values
and is transitive. -/
theorem sorted_sortFloat64s [Float64 F] (xs : List F)
    (htotal : ∀ a b : F, float64Less b a = false ∨ float64Less a b = false)
    (htrans : ∀ a b c : F, float64Less b a = false → float64Less c b = false →
      float64Less c a = false) :
    (sortFloat64s xs).Sorted (fun a b => float64Less b a = false) := by
  haveI : IsTotal F (fun a b => float64Less b a = false) := ⟨htotal⟩
  haveI : IsTrans F (fun a b => float64Less b a = false) := ⟨htrans⟩
  exact List.sorted_insertionSort _ xs

theorem float64Less_rat (a b : ℚ) : float64Less a b = decide (a < b) := by
  simp [float64Less, Float64.lt, Float64.isNaN]

end Effects

/-! ## The loop of `handleStreamResponse` -/

section StreamFacts

variable {F : Type}

@[simp] theorem body_Write (w : ResponseWriter) (b : Bytes) : (w.Write b).body = w.body ++ b :=
  rfl

@[simp] theorem body_Flush (w : ResponseWriter) : w.Flush.body = w.body := by
  unfold ResponseWriter.Flush ResponseWriter.WriteHeader
  cases w.status <;> rfl

@[simp] theorem flusher_Write (w : ResponseWriter) (b : Bytes) :
    (w.Write b).flusher = w.flusher := by
  unfold ResponseWriter.Write ResponseWriter.WriteHeader
  cases w.status <;> rfl

/-- The bytes written by one pass of the loop do not depend on the decoder. -/
theorem body_streamStep (env : Env F) (st : StreamLoop) (line : Bytes) :
    (streamStep env st line).w.body =
      st.w.body ++ (if line.length = 0 then [] else line ++ [10]) := by
  unfold streamStep
  by_cases h : line.length = 0
  · simp [h]
  · simp only [h, if_false]
    cases env.unmarshalChunk line with
    | none => simp
    | some chunk =>
      by_cases hd : chunk.Done = true
      · simp [hd]
      · simp [hd]

/-- The bytes written by the loop: the non-empty lines, each followed by a line-feed. -/
theorem body_streamLoop (env : Env F) (lines : List Bytes) (st : StreamLoop) :
    (lines.foldl (streamStep env) st).w.body = st.w.body ++ relayed lines := by
  induction lines generalizing st with
  | nil => simp [relayed]
  | cons line rest ih =>
    rw [List.foldl_cons, ih, body_streamStep]
    by_cases h : line.length = 0
    · simp [relayed, h]
    · simp [relayed, h]

/-- The error flag after the loop: set before, or set by a non-empty line that fails to
parse. -/
theorem hasError_streamLoop (env : Env F) (lines : List Bytes) (st : StreamLoop) :
    (lines.foldl (streamStep env) st).hasError = (st.hasError || someLineFails env lines) := by
  induction lines generalizing st with
  | nil => simp [someLineFails]
  | cons line rest ih =>
    rw [List.foldl_cons, ih]
    unfold someLineFails at ih ⊢
    rw [List.any_cons, ← Bool.or_assoc]
    congr 1
    unfold streamStep
    by_cases h : line.length = 0
    · simp [h]
    · simp only [h, if_false]
      cases hp : env.unmarshalChunk line with
      | none => simp
      | some chunk =>
        by_cases hd : chunk.Done = true
        · simp [hd]
        · simp [hd]

theorem lastDone_cons_empty (env : Env F) (line : Bytes) (rest : List Bytes)
    (h : line.length = 0) : lastDone env (line :: rest) = lastDone env rest := by
  simp only [lastDone, parsedChunks, List.filterMap_cons, h, if_true]

theorem lastDone_cons_none (env : Env F) (line : Bytes) (rest : List Bytes)
    (h : ¬ line.length = 0) (hp : env.unmarshalChunk line = none) :
    lastDone env (line :: rest) = lastDone env rest := by
  simp only [lastDone, parsedChunks, List.filterMap_cons, h, if_false, hp]

theorem lastDone_cons_not_done (env : Env F) (line : Bytes) (rest : List Bytes)
    (chunk : StreamChunk) (h : ¬ line.length = 0) (hp : env.unmarshalChunk line = some chunk)
    (hd : ¬ chunk.Done = true) : lastDone env (line :: rest) = lastDone env rest := by
  simp only [lastDone, parsedChunks, List.filterMap_cons, h, if_false, hp]
  rw [List.filter_cons_of_neg (by simpa using hd)]

theorem lastDone_cons_done (env : Env F) (line : Bytes) (rest : List Bytes)
    (chunk : StreamChunk) (h : ¬ line.length = 0) (hp : env.unmarshalChunk line = some chunk)
    (hd : chunk.Done = true) :
    lastDone env (line :: rest) = some ((lastDone env rest).getD chunk) := by
  simp only [lastDone, parsedChunks, List.filterMap_cons, h, if_false, hp]
  rw [List.filter_cons_of_pos (by simpa using hd), List.getLast?_cons]

/-- The chunk kept after the loop: the last record with `done = true`, or the chunk kept
before when there is none. -/
theorem lastChunk_streamLoop (env : Env F) (lines : List Bytes) (st : StreamLoop) :
    (lines.foldl (streamStep env) st).lastChunk = (lastDone env lines).getD st.lastChunk := by
  induction lines generalizing st with
  | nil => simp [lastDone, parsedChunks]
  | cons line rest ih =>
    rw [List.foldl_cons, ih]
    by_cases h : line.length = 0
    · rw [lastDone_cons_empty env line rest h]
      simp [streamStep, h]
    · cases hp : env.unmarshalChunk line with
      | none =>
        rw [lastDone_cons_none env line rest h hp]
        simp [streamStep, h, hp]
      | some chunk =>
        by_cases hd : chunk.Done = true
        · rw [lastDone_cons_done env line rest chunk h hp hd]
          simp [streamStep, h, hp, hd]
        · rw [lastDone_cons_not_done env line rest chunk h hp hd]
          simp [streamStep, h, hp, hd]

/-- The last record with `done = true` has `done = true`. -/
theorem done_of_lastDone (env : Env F) (lines : List Bytes) (chunk : StreamChunk)
    (h : lastDone env lines = some chunk) : chunk.Done = true := by
  unfold lastDone at h
  have hmem := List.mem_of_getLast?_eq_some h
  simpa using (List.mem_filter.mp hmem).2

/-- The store after `handleStreamResponse` on a writer that can flush: a failure when a
line failed or the scanner ended with an error, else a success built from the last record
with `done = true`, else the store as it was. -/
theorem metrics_handleStreamResponse [Float64 F] (env : Env F) (metrics : MetricsStore F)
    (w : ResponseWriter) (resp : Response) (model : String) (hf : w.flusher = true) :
    (handleStreamResponse env metrics w resp model).2 =
      if (someLineFails env (scanLines resp.Body).1 || streamErr resp) = true then
        RecordFailure metrics model env.now
      else
        match lastDone env (scanLines resp.Body).1 with
        | some chunk =>
          RecordSuccess metrics model (responseOfChunk chunk) env.sinceSeconds env.now
        | none => metrics := by
  unfold handleStreamResponse
  simp only [hf, Bool.not_true, Bool.false_eq_true, if_false, hasError_streamLoop,
    lastChunk_streamLoop, Bool.false_or]
  unfold streamErr
  by_cases herr : (someLineFails env (scanLines resp.Body).1 ||
      ((scanLines resp.Body).2 || resp.BodyErr)) = true
  · rw [if_pos herr, if_pos herr]
  · rw [if_neg herr, if_neg herr]
    cases hl : lastDone env (scanLines resp.Body).1 with
    | none => simp [zeroChunk]
    | some chunk => simp [done_of_lastDone env _ chunk hl]

/-- The bytes written by `handleStreamResponse` on a writer that can flush. -/
theorem body_handleStreamResponse [Float64 F] (env : Env F) (metrics : MetricsStore F)
    (w : ResponseWriter) (resp : Response) (model : String) (hf : w.flusher = true) :
    (handleStreamResponse env metrics w resp model).1.body =
      w.body ++ relayed (scanLines resp.Body).1 := by
  unfold handleStreamResponse
  simp only [hf, Bool.not_true, Bool.false_eq_true, if_false]
  split
  · exact body_streamLoop env _ _
  · split
    · exact body_streamLoop env _ _
    · exact body_streamLoop env _ _

/-- When some parsed record has `done = true` there is a last such record. -/
theorem lastDone_isSome (env : Env F) (lines : List Bytes)
    (h : (parsedChunks env lines).any (fun chunk => chunk.Done) = true) :
    ∃ chunk, lastDone env lines = some chunk := by
  unfold lastDone
  cases hl : ((parsedChunks env lines).filter (fun chunk => chunk.Done)).getLast? with
  | some chunk => exact ⟨chunk, rfl⟩
  | none =>
    rw [List.getLast?_eq_none_iff, List.filter_eq_nil_iff] at hl
    rw [List.any_eq_true] at h
    obtain ⟨c, hc, hd⟩ := h
    exact absurd hd (hl c hc)

/-- When no parsed record has `done = true` there is no last such record. -/
theorem lastDone_eq_none (env : Env F) (lines : List Bytes)
    (h : (parsedChunks env lines).any (fun chunk => chunk.Done) = false) :
    lastDone env lines = none := by
  unfold lastDone
  rw [List.getLast?_eq_none_iff, List.filter_eq_nil_iff]
  intro c hc hd
  have : (parsedChunks env lines).any (fun chunk => chunk.Done) = true :=
    List.any_eq_true.mpr ⟨c, hc, hd⟩
  rw [h] at this
  exact Bool.noConfusion this

/-- The newest load sample after a success whose record has a positive load duration. -/
theorem getLast?_loadDurations_RecordSuccess [Float64 F] (s : MetricsStore F) (m : String)
    (r : OllamaResponse) (d : F) (t : Time) (h : r.LoadDuration > 0) :
    ((RecordSuccess s m r d t).loadDurations.getD m []).getLast? =
      some (Float64.div (Float64.ofInt r.LoadDuration : F) (Float64.ofInt 1000000000)) := by
  rw [getD_loadDurations_RecordSuccess, if_pos ⟨rfl, h⟩, trimWindow_append_singleton]
  simp

/-- The map of load windows after a success whose record has no positive load duration. -/
theorem loadDurations_RecordSuccess_of_not_pos [Float64 F] (s : MetricsStore F) (m : String)
    (r : OllamaResponse) (d : F) (t : Time) (h : ¬ r.LoadDuration > 0) :
    (RecordSuccess s m r d t).loadDurations = s.loadDurations := by
  simp [RecordSuccess, h]

/-- The scanner delivers a line that ends with a line-feed and fits in its buffer. -/
theorem scanTokens_line (line : Bytes) (cur rest : Bytes) (hlf : ∀ b ∈ line, b ≠ 10)
    (hlen : cur.length + line.length < 65536) :
    scanTokens cur (line ++ 10 :: rest) =
      (dropCR (cur ++ line) :: (scanTokens [] rest).1, (scanTokens [] rest).2) := by
  induction line generalizing cur with
  | nil => simp [scanTokens]
  | cons b l ih =>
    have hb : b ≠ 10 := hlf b (List.mem_cons_self _ _)
    have hl : ∀ x ∈ l, x ≠ 10 := fun x hx => hlf x (List.mem_cons_of_mem _ hx)
    simp only [List.length_cons] at hlen
    have hshort : ¬ cur.length + 1 ≥ 65536 := by omega
    rw [List.cons_append, scanTokens, if_neg hb, if_neg hshort,
      ih (cur ++ [b]) hl (by simp only [List.length_append, List.length_singleton]; omega)]
    simp

/-- The scanner stops with an error on 65536 pending bytes without a line-feed. -/
theorem scanTokens_too_long (pre : Bytes) (cur rest : Bytes) (hlf : ∀ b ∈ pre, b ≠ 10)
    (hlen : cur.length + pre.length ≥ 65536) (hcur : cur.length < 65536) :
    scanTokens cur (pre ++ rest) = ([], true) := by
  induction pre generalizing cur with
  | nil => simp only [List.length_nil] at hlen; omega
  | cons b l ih =>
    have hb : b ≠ 10 := hlf b (List.mem_cons_self _ _)
    have hl : ∀ x ∈ l, x ≠ 10 := fun x hx => hlf x (List.mem_cons_of_mem _ hx)
    simp only [List.length_cons] at hlen
    rw [List.cons_append, scanTokens, if_neg hb]
    by_cases hfull : cur.length + 1 ≥ 65536
    · rw [if_pos hfull]
    · rw [if_neg hfull]
      exact ih (cur ++ [b]) hl
        (by simp only [List.length_append, List.length_singleton]; omega)
        (by simp only [List.length_append, List.length_singleton]; omega)

theorem dropCR_of_no_CR (line : Bytes) (h : line.getLast? ≠ some 13) : dropCR line = line := by
  unfold dropCR
  rw [if_neg h]

/-- The scanner reads back the lines of a body made of lines that hold no line-feed, do
not end with a carriage return and fit in the buffer. -/
theorem scanLines_linesBody (lines : List Bytes)
    (h : ∀ line ∈ lines,
      (∀ b ∈ line, b ≠ 10) ∧ line.getLast? ≠ some 13 ∧ line.length < 65536) :
    scanLines (linesBody lines) = (lines, false) := by
  unfold scanLines
  induction lines with
  | nil => simp [linesBody, scanTokens]
  | cons line rest ih =>
    obtain ⟨hlf, hcr, hlen⟩ := h line (List.mem_cons_self _ _)
    have hrest := ih (fun l hl => h l (List.mem_cons_of_mem _ hl))
    have hbody : linesBody (line :: rest) = line ++ 10 :: linesBody rest := by
      simp [linesBody]
    rw [hbody, scanTokens_line line [] (linesBody rest) hlf (by simpa using hlen), hrest]
    simp [dropCR_of_no_CR line hcr]

/-- Relaying non-empty lines gives back the body they were cut from. -/
theorem relayed_of_non_empty (lines : List Bytes) (h : ∀ line ∈ lines, line.length ≠ 0) :
    relayed lines = linesBody lines := by
  induction lines with
  | nil => rfl
  | cons line rest ih =>
    have h0 := h line (List.mem_cons_self _ _)
    simp only [relayed, linesBody, h0, if_false]
    rw [ih (fun l hl => h l (List.mem_cons_of_mem _ hl))]

/-- The scanner stops with an error, having delivered nothing, on a first line of 65536
or more spaces. -/
theorem scanLines_longLineStream (n : Nat) (hn : n ≥ 65536) :
    scanLines (longLineStream n) = ([], true) := by
  unfold scanLines longLineStream
  exact scanTokens_too_long (List.replicate n 32) [] [10]
    (fun b hb => by rw [List.eq_of_mem_replicate hb]; decide)
    (by simpa using hn) (by simp)

/-- Nothing is written of a stream whose first line holds 65536 or more spaces. -/
theorem body_handleStreamResponse_longLineStream [Float64 F] (env : Env F)
    (metrics : MetricsStore F) (model : String) (n : Nat) (hn : n ≥ 65536) :
    (handleStreamResponse env metrics freshWriter (okResponse (longLineStream n)) model).1.body
      = [] := by
  rw [body_handleStreamResponse _ _ _ _ _ rfl]
  have hscan : scanLines (okResponse (longLineStream n)).Body = ([], true) :=
    scanLines_longLineStream n hn
  rw [hscan]
  rfl

theorem longLineStream_ne_nil (n : Nat) : longLineStream n ≠ [] := by
  simp [longLineStream]

/-- The bytes written by `handleNonStreamResponse` when the body is read to its end. -/
theorem body_handleNonStreamResponse [Float64 F] (env : Env F) (metrics : MetricsStore F)
    (w : ResponseWriter) (resp : Response) (model : String) (h : resp.BodyErr = false) :
    (handleNonStreamResponse env metrics w resp model).1.body = w.body ++ resp.Body := by
  unfold handleNonStreamResponse
  simp only [h, Bool.false_eq_true, if_false]
  cases env.unmarshalResponse resp.Body <;> rfl

/-- A success for `m` leaves the entry of every other model as it was in each of the
seven maps. -/
theorem sameEntries_RecordSuccess [Float64 F] (s : MetricsStore F) (m k : String)
    (r : OllamaResponse) (d : F) (t : Time) (hk : k ≠ m) :
    (RecordSuccess s m r d t).requestCount.find? k = s.requestCount.find? k ∧
      (RecordSuccess s m r d t).requestSuccess.find? k = s.requestSuccess.find? k ∧
      (RecordSuccess s m r d t).requestFailed.find? k = s.requestFailed.find? k ∧
      (RecordSuccess s m r d t).tokenCount.find? k = s.tokenCount.find? k ∧
      (RecordSuccess s m r d t).promptTokens.find? k = s.promptTokens.find? k ∧
      (RecordSuccess s m r d t).durationSamples.find? k = s.durationSamples.find? k ∧
      (RecordSuccess s m r d t).loadDurations.find? k = s.loadDurations.find? k := by
  refine ⟨GoMap.find?_set_ne _ _ _ _ hk, GoMap.find?_set_ne _ _ _ _ hk, rfl,
    GoMap.find?_set_ne _ _ _ _ hk, GoMap.find?_set_ne _ _ _ _ hk, ?_, ?_⟩
  · simp only [RecordSuccess]
    rw [find?_limitSamples_ne _ _ _ hk, GoMap.find?_set_ne _ _ _ _ hk]
  · simp only [RecordSuccess]
    split
    · rw [find?_limitSamples_ne _ _ _ hk, GoMap.find?_set_ne _ _ _ _ hk]
    · rfl

/-- A failure for `m` leaves the entry of every other model as it was in each of the
seven maps. -/
theorem sameEntries_RecordFailure (s : MetricsStore F) (m k : String) (t : Time)
    (hk : k ≠ m) :
    (RecordFailure s m t).requestCount.find? k = s.requestCount.find? k ∧
      (RecordFailure s m t).requestSuccess.find? k = s.requestSuccess.find? k ∧
      (RecordFailure s m t).requestFailed.find? k = s.requestFailed.find? k ∧
      (RecordFailure s m t).tokenCount.find? k = s.tokenCount.find? k ∧
      (RecordFailure s m t).promptTokens.find? k = s.promptTokens.find? k ∧
      (RecordFailure s m t).durationSamples.find? k = s.durationSamples.find? k ∧
      (RecordFailure s m t).loadDurations.find? k = s.loadDurations.find? k :=
  ⟨GoMap.find?_set_ne _ _ _ _ hk, rfl, GoMap.find?_set_ne _ _ _ _ hk, rfl, rfl, rfl, rfl⟩

/-- The store after `handleStreamResponse`: unchanged, one failure or one success, all
for the model it was called with. -/
theorem metrics_handleStreamResponse_cases [Float64 F] (env : Env F)
    (metrics : MetricsStore F) (w : ResponseWriter) (resp : Response) (model : String) :
    (handleStreamResponse env metrics w resp model).2 = metrics ∨
      (handleStreamResponse env metrics w resp model).2 =
        RecordFailure metrics model env.now ∨
      ∃ record, (handleStreamResponse env metrics w resp model).2 =
        RecordSuccess metrics model record env.sinceSeconds env.now := by
  by_cases hf : w.flusher = true
  · rw [metrics_handleStreamResponse env metrics w resp model hf]
    split
    · exact Or.inr (Or.inl rfl)
    · cases lastDone env (scanLines resp.Body).1 with
      | none => exact Or.inl rfl
      | some chunk => exact Or.inr (Or.inr ⟨_, rfl⟩)
  · refine Or.inr (Or.inl ?_)
    unfold handleStreamResponse
    simp [hf]

/-- The store after `handleNonStreamResponse`: one failure or one success, for the model
it was called with. -/
theorem metrics_handleNonStreamResponse_cases [Float64 F] (env : Env F)
    (metrics : MetricsStore F) (w : ResponseWriter) (resp : Response) (model : String) :
    (handleNonStreamResponse env metrics w resp model).2 =
        RecordFailure metrics model env.now ∨
      ∃ record, (handleNonStreamResponse env metrics w resp model).2 =
        RecordSuccess metrics model record env.sinceSeconds env.now := by
  unfold handleNonStreamResponse
  split
  · exact Or.inl rfl
  · cases env.unmarshalResponse resp.Body with
    | none => exact Or.inl rfl
    | some record => exact Or.inr ⟨record, rfl⟩

/-- The store after `proxyWithMetrics` on a request whose body parses: unchanged, one
failure or one success, all for the model of the request. -/
theorem metrics_proxyWithMetrics_cases [Float64 F] (env : Env F) (metrics : MetricsStore F)
    (w : ResponseWriter) (r : Request) (reqBody : OllamaRequest)
    (hbody : r.BodyErr = false) (hreq : env.unmarshalRequest r.Body = some reqBody) :
    (proxyWithMetrics env metrics w r).metrics = metrics ∨
      (proxyWithMetrics env metrics w r).metrics =
        RecordFailure metrics (modelOf reqBody) env.now ∨
      ∃ record, (proxyWithMetrics env metrics w r).metrics =
        RecordSuccess metrics (modelOf reqBody) record env.sinceSeconds env.now := by
  unfold proxyWithMetrics
  simp only [hbody, Bool.false_eq_true, if_false, hreq]
  split
  · exact Or.inl rfl
  · cases env.clientDo _ with
    | none => exact Or.inr (Or.inl rfl)
    | some resp =>
      by_cases hs : reqBody.Stream = true
      · simp only [hs, if_true]
        exact metrics_handleStreamResponse_cases env metrics _ resp (modelOf reqBody)
      · simp only [hs, if_false]
        exact Or.inr (metrics_handleNonStreamResponse_cases env metrics _ resp
          (modelOf reqBody))

theorem status_httpError (w : ResponseWriter) (msg : String) (code : Nat)
    (h : w.status = none) : (httpError w msg code).status = some code := by
  simp [httpError, ResponseWriter.Write, ResponseWriter.WriteHeader, h]

end StreamFacts

/-! ## Windows and order statistics -/

section WindowFacts

variable {F : Type}

/-- In an ascending list an element at a smaller index is below one at a larger index. -/
theorem sorted_getElem?_le (r : F → F → Prop) (s : List F) (hs : s.Sorted r)
    (hrefl : ∀ a, r a a) (i j : Nat) (hij : i ≤ j) (a b : F) (hi : s[i]? = some a)
    (hj : s[j]? = some b) : r a b := by
  obtain ⟨hi', ha⟩ := List.getElem?_eq_some.mp hi
  obtain ⟨hj', hb⟩ := List.getElem?_eq_some.mp hj
  haveI : IsRefl F r := ⟨hrefl⟩
  have h := hs.rel_get_of_le (show (⟨i, hi'⟩ : Fin s.length) ≤ ⟨j, hj'⟩ from hij)
  simp only [List.get_eq_getElem] at h
  rw [ha, hb] at h
  exact h

/-- An element found in the sorted copy is an element of the input. -/
theorem mem_of_sortFloat64s_getElem? [Float64 F] (xs : List F) (i : Nat) (a : F)
    (h : (sortFloat64s xs)[i]? = some a) : a ∈ xs :=
  (List.perm_insertionSort _ xs).mem_iff.mp (List.getElem?_mem h)

theorem trimWindow_append_ne_nil (w : List F) (x : F) : trimWindow (w ++ [x]) ≠ [] := by
  rw [trimWindow_append_singleton]
  simp

/-- One call keeps every stored window non-empty. -/
theorem windows_non_empty_apply [Float64 F] (s : MetricsStore F) (c : Call F)
    (h : ∀ k w, (s.durationSamples.find? k = some w → w ≠ []) ∧
      (s.loadDurations.find? k = some w → w ≠ [])) (k : String) (w : List F) :
    ((Call.apply s c).durationSamples.find? k = some w → w ≠ []) ∧
      ((Call.apply s c).loadDurations.find? k = some w → w ≠ []) := by
  cases c with
  | failure m t => exact h k w
  | success m r d t =>
    refine ⟨?_, ?_⟩
    · intro hw
      by_cases hk : k = m
      · subst hk
        simp only [Call.apply, RecordSuccess, find?_limitSamples_set] at hw
        rw [← Option.some.inj hw]
        exact trimWindow_append_ne_nil _ _
      · simp only [Call.apply, RecordSuccess] at hw
        rw [find?_limitSamples_ne _ _ _ hk, GoMap.find?_set_ne _ _ _ _ hk] at hw
        exact (h k w).1 hw
    · intro hw
      by_cases hl : r.LoadDuration > 0
      · by_cases hk : k = m
        · subst hk
          simp only [Call.apply, RecordSuccess, hl, if_true, find?_limitSamples_set] at hw
          rw [← Option.some.inj hw]
          exact trimWindow_append_ne_nil _ _
        · simp only [Call.apply, RecordSuccess, hl, if_true] at hw
          rw [find?_limitSamples_ne _ _ _ hk, GoMap.find?_set_ne _ _ _ _ hk] at hw
          exact (h k w).2 hw
      · rw [show (Call.apply s (Call.success m r d t)).loadDurations = s.loadDurations from
          loadDurations_RecordSuccess_of_not_pos s m r d t hl] at hw
        exact (h k w).2 hw

/-- A sequence of calls keeps every stored window non-empty. -/
theorem windows_non_empty_runCalls [Float64 F] (calls : List (Call F)) (s : MetricsStore F)
    (h : ∀ k w, (s.durationSamples.find? k = some w → w ≠ []) ∧
      (s.loadDurations.find? k = some w → w ≠ [])) (k : String) (w : List F) :
    ((runCalls s calls).durationSamples.find? k = some w → w ≠ []) ∧
      ((runCalls s calls).loadDurations.find? k = some w → w ≠ []) := by
  induction calls generalizing s with
  | nil => exact h k w
  | cons c rest ih => exact ih (Call.apply s c) (fun k' w' => windows_non_empty_apply s c h k' w')

/-- The duration window of a model is non-empty after a sequence of calls exactly when it
was non-empty before or the sequence holds a success for the model. -/
theorem durationWindow_non_empty_runCalls [Float64 F] (calls : List (Call F))
    (s : MetricsStore F) (k : String) :
    ((runCalls s calls).durationSamples.getD k []).length > 0 ↔
      (s.durationSamples.getD k []).length > 0 ∨ 1 ≤ successesFor calls k := by
  induction calls generalizing s with
  | nil => simp [runCalls, successesFor]
  | cons c rest ih =>
    have h := ih (Call.apply s c)
    simp only [runCalls, List.foldl_cons] at h ⊢
    rw [h]
    cases c with
    | failure m t =>
      simp only [Call.apply, successesFor]
      rfl
    | success m r d t =>
      simp only [Call.apply, successesFor, getD_durationSamples_RecordSuccess]
      by_cases hk : k = m
      · subst hk
        have hne := trimWindow_append_ne_nil (s.durationSamples.getD k []) d
        have hpos : (trimWindow (s.durationSamples.getD k [] ++ [d])).length > 0 :=
          List.length_pos.mpr hne
        simp only [if_true]
        constructor
        · intro _; right; omega
        · intro _; left; exact hpos
      · have hk' : ¬ m = k := fun e => hk e.symm
        simp only [hk, hk', if_false, Nat.zero_add]

theorem float64Less_rat_total (a b : ℚ) :
    float64Less b a = false ∨ float64Less a b = false := by
  rw [float64Less_rat, float64Less_rat]
  rcases le_total a b with h | h
  · left; simpa using h
  · right; simpa using h

theorem float64Less_rat_trans (a b c : ℚ) (h1 : float64Less b a = false)
    (h2 : float64Less c b = false) : float64Less c a = false := by
  rw [float64Less_rat] at h1 h2 ⊢
  simp only [decide_eq_false_iff_not, not_lt] at h1 h2 ⊢
  exact le_trans h1 h2

theorem float64Less_rat_false_iff (a b : ℚ) : float64Less b a = false ↔ a ≤ b := by
  rw [float64Less_rat]
  simp

end WindowFacts

/-! ## The claims -/

section Claims

variable {F : Type}

/-- C1: after every finite sequence of `RecordSuccess` and `RecordFailure` calls on a store
made by `NewMetricsStore`, and for every model, `requestCount[model]` equals
`requestSuccess[model] + requestFailed[model]`, a missing entry counting as 0. The sum is
Go's `int64` sum; for a sequence of fewer than `2^63` calls no addition wraps and the
equation also holds between the plain integers. -/
theorem C1_request_count_is_success_plus_failure [Float64 F] (calls : List (Call F))
    (now : Time) :
    (∀ model : String,
      (runCalls (NewMetricsStore now) calls).requestCount.getD model 0 =
        add64 ((runCalls (NewMetricsStore now) calls).requestSuccess.getD model 0)
          ((runCalls (NewMetricsStore now) calls).requestFailed.getD model 0)) ∧
    ((calls.length : Int) < 2 ^ 63 → ∀ model : String,
      (runCalls (NewMetricsStore now) calls).requestCount.getD model 0 =
        (runCalls (NewMetricsStore now) calls).requestSuccess.getD model 0 +
          (runCalls (NewMetricsStore now) calls).requestFailed.getD model 0) := by
  refine ⟨?_, ?_⟩
  · intro model
    obtain ⟨h1, h2, h3⟩ := requestCounters_fresh calls now model
    rw [h1, h2, h3, add64, wrap64_add_left, wrap64_add_right]
  · intro hlen model
    obtain ⟨h1, h2, h3⟩ := requestCounters_fresh calls now model
    have hle := successesFor_le_length calls model
    have hle' : ((successesFor calls model : Int) + (failuresFor calls model : Int)) ≤
        (calls.length : Int) := by exact_mod_cast hle
    have hs : (0 : Int) ≤ successesFor calls model := Int.natCast_nonneg _
    have hf : (0 : Int) ≤ failuresFor calls model := Int.natCast_nonneg _
    rw [h1, h2, h3, wrap64_of_range _ (by omega) (by omega),
      wrap64_of_range _ (by omega) (by omega), wrap64_of_range _ (by omega) (by omega)]

/-- C1, on a concrete sequence: two successes and a failure for one model, a failure for
another. -/
theorem C1_request_count_is_success_plus_failure_witness :
    ((sampleCalls.length : Int) < 2 ^ 63) ∧
      ∀ model : String,
        (runCalls (NewMetricsStore 0) sampleCalls).requestCount.getD model 0 =
          (runCalls (NewMetricsStore 0) sampleCalls).requestSuccess.getD model 0 +
            (runCalls (NewMetricsStore 0) sampleCalls).requestFailed.getD model 0 :=
  ⟨by decide, (C1_request_count_is_success_plus_failure sampleCalls 0).2 (by decide)⟩

/-- C2: on a fresh store, after each call of every finite sequence of `RecordSuccess` and
`RecordFailure` calls (that is, after its first `n` calls, for every `n`), the duration
window and the load window of every model hold at most 1000 samples each. -/
theorem C2_windows_hold_at_most_1000 [Float64 F] (calls : List (Call F)) (now : Time)
    (n : Nat) (model : String) :
    ((runCalls (NewMetricsStore now) (calls.take n)).durationSamples.getD model []).length
        ≤ 1000 ∧
      ((runCalls (NewMetricsStore now) (calls.take n)).loadDurations.getD model []).length
        ≤ 1000 :=
  windows_bounded_runCalls (calls.take n) (NewMetricsStore now)
    (fun _ => by simp [NewMetricsStore]) model

/-- C3: when the duration window of a model holds exactly 1000 samples, one more
`RecordSuccess` for that model leaves a window of exactly 501 samples: the last 500 samples
of the previous window, in order, followed by the new duration. -/
theorem C3_sample_1001_leaves_501 [Float64 F] (s : MetricsStore F) (model : String)
    (resp : OllamaResponse) (duration : F) (now : Time)
    (h : (s.durationSamples.getD model []).length = 1000) :
    (RecordSuccess s model resp duration now).durationSamples.find? model =
        some ((s.durationSamples.getD model []).drop 500 ++ [duration]) ∧
      ((s.durationSamples.getD model []).drop 500).length = 500 ∧
      ((RecordSuccess s model resp duration now).durationSamples.getD model []).length
        = 501 := by
  have hfind : (RecordSuccess s model resp duration now).durationSamples.find? model =
      some ((s.durationSamples.getD model []).drop 500 ++ [duration]) := by
    simp only [RecordSuccess, find?_limitSamples_set, trimWindow, List.length_append,
      List.length_singleton, h]
    rw [if_pos (by omega), List.drop_append_of_le_length (by omega)]
  refine ⟨hfind, by rw [List.length_drop]; omega, ?_⟩
  rw [GoMap.getD, hfind, Option.getD_some, List.length_append, List.length_drop, h]
  rfl

/-- C3, on the store whose window for `llama3` holds 0, 1, ..., 999. -/
theorem C3_sample_1001_leaves_501_witness :
    (fullWindowStore.durationSamples.getD "llama3" []).length = 1000 ∧
      (RecordSuccess fullWindowStore "llama3" sampleResponse 7 1).durationSamples.find?
          "llama3" =
        some ((fullWindowStore.durationSamples.getD "llama3" []).drop 500 ++ [7]) ∧
      ((fullWindowStore.durationSamples.getD "llama3" []).drop 500).length = 500 ∧
      ((RecordSuccess fullWindowStore "llama3" sampleResponse 7 1).durationSamples.getD
          "llama3" []).length = 501 :=
  ⟨by simp only [fullWindowStore, GoMap.getD_set_self, List.length_map, List.length_range],
    C3_sample_1001_leaves_501 fullWindowStore "llama3" sampleResponse 7 1
      (by simp only [fullWindowStore, GoMap.getD_set_self, List.length_map,
        List.length_range])⟩

/-- C4: after `k` calls of `RecordSuccess` for one model on a fresh store, the duration
window of that model is the recorded durations without the oldest `k - N(k)` of them, so
the newest `N(k)` in recording order, a suffix of the history ending with the most recent
one; it holds `N(k)` samples, where `N(k) = k` up to 1000 and `501 + (k - 1001) mod 500`
beyond. One call on any store either evicts nothing or evicts exactly the 500 oldest
samples of the window it appended to. -/
theorem C4_window_is_newest_samples [Float64 F] (model : String)
    (records : List (OllamaResponse × F × Time)) (now : Time) :
    (runCalls (NewMetricsStore now) (successCalls model records)).durationSamples.getD model []
        = (durationsOf records).drop (records.length - retainedCount records.length) ∧
      ((runCalls (NewMetricsStore now) (successCalls model records)).durationSamples.getD
          model []).length = retainedCount records.length ∧
      ((runCalls (NewMetricsStore now) (successCalls model records)).durationSamples.getD
          model []) <:+ durationsOf records ∧
      (∀ (s : MetricsStore F) (resp : OllamaResponse) (duration : F) (t : Time),
        (RecordSuccess s model resp duration t).durationSamples.getD model [] =
            s.durationSamples.getD model [] ++ [duration] ∨
          ∃ evicted : List F, evicted.length = 500 ∧
            s.durationSamples.getD model [] ++ [duration] =
              evicted ++ (RecordSuccess s model resp duration t).durationSamples.getD model [])
    := by
  have hw := durationWindow_successCalls model records now
  obtain ⟨_, hle2⟩ := retainedCount_le records.length
  refine ⟨hw, ?_, ?_, ?_⟩
  · rw [hw, List.length_drop]
    simp only [durationsOf, List.length_map]
    omega
  · rw [hw]
    exact List.drop_suffix _ _
  · intro s resp duration t
    rw [getD_durationSamples_RecordSuccess, if_pos rfl]
    unfold trimWindow
    by_cases hlen : (s.durationSamples.getD model [] ++ [duration]).length > 1000
    · right
      refine ⟨(s.durationSamples.getD model [] ++ [duration]).take 500, ?_, ?_⟩
      · rw [List.length_take]; omega
      · rw [if_pos hlen, List.take_append_drop]
    · left
      rw [if_neg hlen]

/-- C5: `RecordSuccess(m, r, d)` on any store adds 1 to `requestCount[m]` and to
`requestSuccess[m]`, adds `r.EvalCount` to `tokenCount[m]` and `r.PromptEvalCount` to
`promptTokens[m]` (Go's `int64` additions, a missing entry counting as 0), leaves
`requestFailed` as it was, and leaves the entry of every other model in all seven maps as
it was. Whenever the four sums fit in an `int64`, the new values are the plain sums. -/
theorem C5_record_success_effect [Float64 F] (s : MetricsStore F) (m : String)
    (r : OllamaResponse) (d : F) (now : Time) :
    (∀ k : String,
      (RecordSuccess s m r d now).requestCount.find? k =
          (if k = m then some (add64 (s.requestCount.getD m 0) 1)
            else s.requestCount.find? k) ∧
        (RecordSuccess s m r d now).requestSuccess.find? k =
          (if k = m then some (add64 (s.requestSuccess.getD m 0) 1)
            else s.requestSuccess.find? k) ∧
        (RecordSuccess s m r d now).tokenCount.find? k =
          (if k = m then some (add64 (s.tokenCount.getD m 0) r.EvalCount)
            else s.tokenCount.find? k) ∧
        (RecordSuccess s m r d now).promptTokens.find? k =
          (if k = m then some (add64 (s.promptTokens.getD m 0) r.PromptEvalCount)
            else s.promptTokens.find? k) ∧
        (k ≠ m →
          (RecordSuccess s m r d now).durationSamples.find? k = s.durationSamples.find? k ∧
          (RecordSuccess s m r d now).loadDurations.find? k = s.loadDurations.find? k)) ∧
      (RecordSuccess s m r d now).requestFailed = s.requestFailed ∧
      (inInt64 (s.requestCount.getD m 0 + 1) ∧ inInt64 (s.requestSuccess.getD m 0 + 1) ∧
          inInt64 (s.tokenCount.getD m 0 + r.EvalCount) ∧
          inInt64 (s.promptTokens.getD m 0 + r.PromptEvalCount) →
        (RecordSuccess s m r d now).requestCount.getD m 0 = s.requestCount.getD m 0 + 1 ∧
        (RecordSuccess s m r d now).requestSuccess.getD m 0 = s.requestSuccess.getD m 0 + 1 ∧
        (RecordSuccess s m r d now).tokenCount.getD m 0 =
          s.tokenCount.getD m 0 + r.EvalCount ∧
        (RecordSuccess s m r d now).promptTokens.getD m 0 =
          s.promptTokens.getD m 0 + r.PromptEvalCount) := by
  refine ⟨?_, rfl, ?_⟩
  · intro k
    refine ⟨GoMap.find?_set _ _ _ _, GoMap.find?_set _ _ _ _, GoMap.find?_set _ _ _ _,
      GoMap.find?_set _ _ _ _, ?_⟩
    intro hk
    refine ⟨?_, ?_⟩
    · simp only [RecordSuccess]
      rw [find?_limitSamples_ne _ _ _ hk, GoMap.find?_set_ne _ _ _ _ hk]
    · simp only [RecordSuccess]
      split
      · rw [find?_limitSamples_ne _ _ _ hk, GoMap.find?_set_ne _ _ _ _ hk]
      · rfl
  · rintro ⟨h1, h2, h3, h4⟩
    simp only [RecordSuccess, GoMap.getD_set_self, add64]
    exact ⟨wrap64_of_range _ h1.1 h1.2, wrap64_of_range _ h2.1 h2.2,
      wrap64_of_range _ h3.1 h3.2, wrap64_of_range _ h4.1 h4.2⟩

/-- C5, on a fresh store: the first success for `llama3` sets its counters to 1, 1, 42
and 10. -/
theorem C5_record_success_effect_witness :
    (inInt64 ((NewMetricsStore 0 : MetricsStore ℚ).requestCount.getD "llama3" 0 + 1) ∧
      inInt64 ((NewMetricsStore 0 : MetricsStore ℚ).requestSuccess.getD "llama3" 0 + 1) ∧
      inInt64 ((NewMetricsStore 0 : MetricsStore ℚ).tokenCount.getD "llama3" 0 +
        sampleResponse.EvalCount) ∧
      inInt64 ((NewMetricsStore 0 : MetricsStore ℚ).promptTokens.getD "llama3" 0 +
        sampleResponse.PromptEvalCount)) ∧
    ((RecordSuccess (NewMetricsStore 0 : MetricsStore ℚ) "llama3" sampleResponse 1 1
        ).requestCount.getD "llama3" 0 =
        (NewMetricsStore 0 : MetricsStore ℚ).requestCount.getD "llama3" 0 + 1 ∧
      (RecordSuccess (NewMetricsStore 0 : MetricsStore ℚ) "llama3" sampleResponse 1 1
        ).requestSuccess.getD "llama3" 0 =
        (NewMetricsStore 0 : MetricsStore ℚ).requestSuccess.getD "llama3" 0 + 1 ∧
      (RecordSuccess (NewMetricsStore 0 : MetricsStore ℚ) "llama3" sampleResponse 1 1
        ).tokenCount.getD "llama3" 0 =
        (NewMetricsStore 0 : MetricsStore ℚ).tokenCount.getD "llama3" 0 +
          sampleResponse.EvalCount ∧
      (RecordSuccess (NewMetricsStore 0 : MetricsStore ℚ) "llama3" sampleResponse 1 1
        ).promptTokens.getD "llama3" 0 =
        (NewMetricsStore 0 : MetricsStore ℚ).promptTokens.getD "llama3" 0 +
          sampleResponse.PromptEvalCount) :=
  ⟨by decide,
    (C5_record_success_effect (NewMetricsStore 0 : MetricsStore ℚ) "llama3" sampleResponse 1
      1).2.2 (by decide)⟩

/-- C6: `RecordSuccess(m, r, d)` appends `float64(r.LoadDuration) / 1e9` to the load
window of `m` as its newest sample (then trims that window) exactly when
`r.LoadDuration > 0`, and the load window of no other model changes; when
`r.LoadDuration <= 0` the whole map `loadDurations` is as it was, so no entry is made for
`m`. -/
theorem C6_load_duration_recorded_iff_positive [Float64 F] (s : MetricsStore F) (m : String)
    (r : OllamaResponse) (d : F) (now : Time) :
    if r.LoadDuration > 0 then
      (∀ k : String, (RecordSuccess s m r d now).loadDurations.find? k =
        if k = m then
          some (trimWindow (s.loadDurations.getD m [] ++
            [Float64.div (Float64.ofInt r.LoadDuration : F) (Float64.ofInt 1000000000)]))
        else s.loadDurations.find? k) ∧
      ((RecordSuccess s m r d now).loadDurations.getD m []).getLast? =
        some (Float64.div (Float64.ofInt r.LoadDuration : F) (Float64.ofInt 1000000000)) ∧
      (RecordSuccess s m r d now).loadDurations.getD m [] ≠ s.loadDurations.getD m []
    else
      (RecordSuccess s m r d now).loadDurations = s.loadDurations := by
  by_cases hl : r.LoadDuration > 0
  · rw [if_pos hl]
    have hfind : ∀ k : String, (RecordSuccess s m r d now).loadDurations.find? k =
        if k = m then
          some (trimWindow (s.loadDurations.getD m [] ++
            [Float64.div (Float64.ofInt r.LoadDuration : F) (Float64.ofInt 1000000000)]))
        else s.loadDurations.find? k := by
      intro k
      simp only [RecordSuccess, hl, if_true]
      by_cases hk : k = m
      · subst hk
        rw [if_pos rfl, find?_limitSamples_set]
      · rw [if_neg hk, find?_limitSamples_ne _ _ _ hk, GoMap.find?_set_ne _ _ _ _ hk]
    have hget : (RecordSuccess s m r d now).loadDurations.getD m [] =
        trimWindow (s.loadDurations.getD m [] ++
          [Float64.div (Float64.ofInt r.LoadDuration : F) (Float64.ofInt 1000000000)]) := by
      rw [GoMap.getD, hfind m, if_pos rfl, Option.getD_some]
    refine ⟨hfind, ?_, ?_⟩
    · rw [hget, trimWindow_append_singleton]
      simp
    · rw [hget]
      intro heq
      exact length_trimWindow_append_ne _ _ (congrArg List.length heq)
  · rw [if_neg hl]
    simp [RecordSuccess, hl]

/-- C7: `RecordFailure(m)` on any store adds 1 to `requestCount[m]` and to
`requestFailed[m]` (Go's `int64` addition, a missing entry counting as 0), leaves the
request and failure counters of every other model as they were, and leaves the maps
`requestSuccess`, `tokenCount`, `promptTokens`, `durationSamples` and `loadDurations` as
they were; the only other field written is the time stamp. Whenever the two sums fit in
an `int64`, the new values are the plain sums. -/
theorem C7_record_failure_effect (s : MetricsStore F) (m : String) (now : Time) :
    (∀ k : String,
      (RecordFailure s m now).requestCount.find? k =
          (if k = m then some (add64 (s.requestCount.getD m 0) 1)
            else s.requestCount.find? k) ∧
        (RecordFailure s m now).requestFailed.find? k =
          (if k = m then some (add64 (s.requestFailed.getD m 0) 1)
            else s.requestFailed.find? k)) ∧
      (RecordFailure s m now).requestSuccess = s.requestSuccess ∧
      (RecordFailure s m now).tokenCount = s.tokenCount ∧
      (RecordFailure s m now).promptTokens = s.promptTokens ∧
      (RecordFailure s m now).durationSamples = s.durationSamples ∧
      (RecordFailure s m now).loadDurations = s.loadDurations ∧
      (RecordFailure s m now).lastUpdate = now ∧
      (inInt64 (s.requestCount.getD m 0 + 1) ∧ inInt64 (s.requestFailed.getD m 0 + 1) →
        (RecordFailure s m now).requestCount.getD m 0 = s.requestCount.getD m 0 + 1 ∧
        (RecordFailure s m now).requestFailed.getD m 0 = s.requestFailed.getD m 0 + 1) := by
  refine ⟨fun k => ⟨GoMap.find?_set _ _ _ _, GoMap.find?_set _ _ _ _⟩, rfl, rfl, rfl, rfl,
    rfl, rfl, ?_⟩
  rintro ⟨h1, h2⟩
  simp only [RecordFailure, GoMap.getD_set_self, add64]
  exact ⟨wrap64_of_range _ h1.1 h1.2, wrap64_of_range _ h2.1 h2.2⟩

/-- C7, on a fresh store: the first failure for `llama3` sets both counters to 1. -/
theorem C7_record_failure_effect_witness :
    (inInt64 ((NewMetricsStore 0 : MetricsStore ℚ).requestCount.getD "llama3" 0 + 1) ∧
      inInt64 ((NewMetricsStore 0 : MetricsStore ℚ).requestFailed.getD "llama3" 0 + 1)) ∧
    ((RecordFailure (NewMetricsStore 0 : MetricsStore ℚ) "llama3" 1).requestCount.getD
        "llama3" 0 = (NewMetricsStore 0 : MetricsStore ℚ).requestCount.getD "llama3" 0 + 1 ∧
      (RecordFailure (NewMetricsStore 0 : MetricsStore ℚ) "llama3" 1).requestFailed.getD
        "llama3" 0 = (NewMetricsStore 0 : MetricsStore ℚ).requestFailed.getD "llama3" 0 + 1) :=
  ⟨by decide,
    (C7_record_failure_effect (NewMetricsStore 0 : MetricsStore ℚ) "llama3" 1).2.2.2.2.2.2.2
      (by decide)⟩

/-- C8, refuted as stated: after one success with 42 generated and 10 prompt tokens, a
second success whose record carries `eval_count = -3` and `prompt_eval_count = -1` lowers
the generated-token counter from 42 to 39 and the prompt-token counter from 10 to 9; and
after one success with `eval_count = 2^63 - 1`, a second success with `eval_count = 42`
wraps the generated-token counter round to a negative value. -/
theorem C8_counterexample_negative_token_counts :
    (RecordSuccess (NewMetricsStore 0 : MetricsStore ℚ) "llama3" sampleResponse 1 1
        ).tokenCount.getD "llama3" 0 = 42 ∧
      (RecordSuccess
          (RecordSuccess (NewMetricsStore 0 : MetricsStore ℚ) "llama3" sampleResponse 1 1)
          "llama3" negativeResponse 1 2).tokenCount.getD "llama3" 0 = 39 ∧
      (RecordSuccess (NewMetricsStore 0 : MetricsStore ℚ) "llama3" sampleResponse 1 1
        ).promptTokens.getD "llama3" 0 = 10 ∧
      (RecordSuccess
          (RecordSuccess (NewMetricsStore 0 : MetricsStore ℚ) "llama3" sampleResponse 1 1)
          "llama3" negativeResponse 1 2).promptTokens.getD "llama3" 0 = 9 ∧
      (RecordSuccess (NewMetricsStore 0 : MetricsStore ℚ) "llama3" hugeResponse 1 1
        ).tokenCount.getD "llama3" 0 = 9223372036854775807 ∧
      (RecordSuccess
          (RecordSuccess (NewMetricsStore 0 : MetricsStore ℚ) "llama3" hugeResponse 1 1)
          "llama3" sampleResponse 1 2).tokenCount.getD "llama3" 0 = -9223372036854775767 := by
  decide

/-- C8, amended: a `RecordSuccess(m, r, d)` whose record has `EvalCount >= 0` and
`PromptEvalCount >= 0`, on a store where none of the four additions exceeds the largest
`int64`, leaves each of the five counters of every model at least as large as before; so
does a `RecordFailure(m)` on a store where neither of its two additions exceeds the
largest `int64`. -/
theorem C8_counters_non_decreasing [Float64 F] (s : MetricsStore F) (m : String)
    (r : OllamaResponse) (d : F) (now : Time) :
    (0 ≤ r.EvalCount → 0 ≤ r.PromptEvalCount →
      s.requestCount.getD m 0 + 1 < 2 ^ 63 → s.requestSuccess.getD m 0 + 1 < 2 ^ 63 →
      s.tokenCount.getD m 0 + r.EvalCount < 2 ^ 63 →
      s.promptTokens.getD m 0 + r.PromptEvalCount < 2 ^ 63 →
      ∀ k : String,
        s.requestCount.getD k 0 ≤ (RecordSuccess s m r d now).requestCount.getD k 0 ∧
        s.requestSuccess.getD k 0 ≤ (RecordSuccess s m r d now).requestSuccess.getD k 0 ∧
        s.requestFailed.getD k 0 ≤ (RecordSuccess s m r d now).requestFailed.getD k 0 ∧
        s.tokenCount.getD k 0 ≤ (RecordSuccess s m r d now).tokenCount.getD k 0 ∧
        s.promptTokens.getD k 0 ≤ (RecordSuccess s m r d now).promptTokens.getD k 0) ∧
    (s.requestCount.getD m 0 + 1 < 2 ^ 63 → s.requestFailed.getD m 0 + 1 < 2 ^ 63 →
      ∀ k : String,
        s.requestCount.getD k 0 ≤ (RecordFailure s m now).requestCount.getD k 0 ∧
        s.requestSuccess.getD k 0 ≤ (RecordFailure s m now).requestSuccess.getD k 0 ∧
        s.requestFailed.getD k 0 ≤ (RecordFailure s m now).requestFailed.getD k 0 ∧
        s.tokenCount.getD k 0 ≤ (RecordFailure s m now).tokenCount.getD k 0 ∧
        s.promptTokens.getD k 0 ≤ (RecordFailure s m now).promptTokens.getD k 0) := by
  refine ⟨?_, ?_⟩
  · intro he hp h1 h2 h3 h4 k
    simp only [RecordSuccess, getD_set_eq, add64]
    by_cases hk : k = m
    · subst hk
      simp only [if_true]
      exact ⟨le_wrap64_add _ _ (by norm_num) h1, le_wrap64_add _ _ (by norm_num) h2, le_refl _,
        le_wrap64_add _ _ he h3, le_wrap64_add _ _ hp h4⟩
    · simp only [hk, if_false]
      exact ⟨le_refl _, le_refl _, le_refl _, le_refl _, le_refl _⟩
  · intro h1 h2 k
    simp only [RecordFailure, getD_set_eq, add64]
    by_cases hk : k = m
    · subst hk
      simp only [if_true]
      exact ⟨le_wrap64_add _ _ (by norm_num) h1, le_refl _, le_wrap64_add _ _ (by norm_num) h2,
        le_refl _, le_refl _⟩
    · simp only [hk, if_false]
      exact ⟨le_refl _, le_refl _, le_refl _, le_refl _, le_refl _⟩

/-- C8 as amended, on the store reached by one success for `llama3`: a second success with
the same record and a failure both leave every counter of `llama3` at least as large. -/
theorem C8_counters_non_decreasing_witness :
    (0 ≤ sampleResponse.EvalCount ∧ 0 ≤ sampleResponse.PromptEvalCount ∧
      (RecordSuccess (NewMetricsStore 0 : MetricsStore ℚ) "llama3" sampleResponse 1 1
        ).requestCount.getD "llama3" 0 + 1 < 2 ^ 63 ∧
      (RecordSuccess (NewMetricsStore 0 : MetricsStore ℚ) "llama3" sampleResponse 1 1
        ).requestSuccess.getD "llama3" 0 + 1 < 2 ^ 63 ∧
      (RecordSuccess (NewMetricsStore 0 : MetricsStore ℚ) "llama3" sampleResponse 1 1
        ).requestFailed.getD "llama3" 0 + 1 < 2 ^ 63 ∧
      (RecordSuccess (NewMetricsStore 0 : MetricsStore ℚ) "llama3" sampleResponse 1 1
        ).tokenCount.getD "llama3" 0 + sampleResponse.EvalCount < 2 ^ 63 ∧
      (RecordSuccess (NewMetricsStore 0 : MetricsStore ℚ) "llama3" sampleResponse 1 1
        ).promptTokens.getD "llama3" 0 + sampleResponse.PromptEvalCount < 2 ^ 63) ∧
    (RecordSuccess (NewMetricsStore 0 : MetricsStore ℚ) "llama3" sampleResponse 1 1
        ).tokenCount.getD "llama3" 0 ≤
      (RecordSuccess
          (RecordSuccess (NewMetricsStore 0 : MetricsStore ℚ) "llama3" sampleResponse 1 1)
          "llama3" sampleResponse 1 2).tokenCount.getD "llama3" 0 ∧
    (RecordSuccess (NewMetricsStore 0 : MetricsStore ℚ) "llama3" sampleResponse 1 1
        ).requestCount.getD "llama3" 0 ≤
      (RecordFailure
          (RecordSuccess (NewMetricsStore 0 : MetricsStore ℚ) "llama3" sampleResponse 1 1)
          "llama3" 2).requestCount.getD "llama3" 0 :=
  ⟨by decide,
    ((C8_counters_non_decreasing
        (RecordSuccess (NewMetricsStore 0 : MetricsStore ℚ) "llama3" sampleResponse 1 1)
        "llama3" sampleResponse 1 2).1 (by decide) (by decide) (by decide) (by decide)
        (by decide) (by decide) "llama3").2.2.2.1,
    ((C8_counters_non_decreasing
        (RecordSuccess (NewMetricsStore 0 : MetricsStore ℚ) "llama3" sampleResponse 1 1)
        "llama3" sampleResponse 1 2).2 (by decide) (by decide) "llama3").1⟩

/-- C9, refuted as stated: after the single call `RecordFailure("llama3")` on a fresh
store, `llama3` is a key of the snapshots of `GetRequestCount` and `GetFailureCount` but of
none of the snapshots of `GetSuccessCount`, `GetTokenCount` and `GetPromptTokens`. -/
theorem C9_counterexample_failure_only_model :
    "llama3" ∈ (GetRequestCount (runCalls (NewMetricsStore 0 : MetricsStore ℚ)
        [Call.failure "llama3" 1])).1.keys ∧
      "llama3" ∈ (GetFailureCount (runCalls (NewMetricsStore 0 : MetricsStore ℚ)
        [Call.failure "llama3" 1])).1.keys ∧
      "llama3" ∉ (GetSuccessCount (runCalls (NewMetricsStore 0 : MetricsStore ℚ)
        [Call.failure "llama3" 1])).1.keys ∧
      "llama3" ∉ (GetTokenCount (runCalls (NewMetricsStore 0 : MetricsStore ℚ)
        [Call.failure "llama3" 1])).1.keys ∧
      "llama3" ∉ (GetPromptTokens (runCalls (NewMetricsStore 0 : MetricsStore ℚ)
        [Call.failure "llama3" 1])).1.keys := by
  decide

/-- C9, amended: after any sequence of `RecordSuccess`/`RecordFailure` calls on a fresh
store, the keys of the snapshot of `GetRequestCount` are the models passed to at least one
call; the keys of the snapshots of `GetSuccessCount`, `GetTokenCount` and `GetPromptTokens`
are the models passed to at least one `RecordSuccess`; and the keys of the snapshot of
`GetFailureCount` are the models passed to at least one `RecordFailure`. -/
theorem C9_snapshot_keys [Float64 F] (calls : List (Call F)) (now : Time) (k : String) :
    (k ∈ (GetRequestCount (runCalls (NewMetricsStore now) calls)).1.keys ↔
        ∃ c ∈ calls, c.model = k) ∧
      (k ∈ (GetSuccessCount (runCalls (NewMetricsStore now) calls)).1.keys ↔
        ∃ c ∈ calls, c.isSuccess = true ∧ c.model = k) ∧
      (k ∈ (GetTokenCount (runCalls (NewMetricsStore now) calls)).1.keys ↔
        ∃ c ∈ calls, c.isSuccess = true ∧ c.model = k) ∧
      (k ∈ (GetPromptTokens (runCalls (NewMetricsStore now) calls)).1.keys ↔
        ∃ c ∈ calls, c.isSuccess = true ∧ c.model = k) ∧
      (k ∈ (GetFailureCount (runCalls (NewMetricsStore now) calls)).1.keys ↔
        ∃ c ∈ calls, c.isSuccess = false ∧ c.model = k) := by
  refine ⟨?_, ?_, ?_, ?_, ?_⟩
  · rw [GetRequestCount, mem_keys_copyMap,
      mem_keys_runCalls (fun s => s.requestCount) (fun _ => true) mem_keys_requestCount_apply]
    simp [NewMetricsStore, not_mem_keys_empty]
  · rw [GetSuccessCount, mem_keys_copyMap,
      mem_keys_runCalls (fun s => s.requestSuccess) Call.isSuccess
        mem_keys_requestSuccess_apply]
    simp [NewMetricsStore, not_mem_keys_empty]
  · rw [GetTokenCount, mem_keys_copyMap,
      mem_keys_runCalls (fun s => s.tokenCount) Call.isSuccess mem_keys_tokenCount_apply]
    simp [NewMetricsStore, not_mem_keys_empty]
  · rw [GetPromptTokens, mem_keys_copyMap,
      mem_keys_runCalls (fun s => s.promptTokens) Call.isSuccess mem_keys_promptTokens_apply]
    simp [NewMetricsStore, not_mem_keys_empty]
  · rw [GetFailureCount, mem_keys_copyMap,
      mem_keys_runCalls (fun s => s.requestFailed) (fun c => !c.isSuccess)
        mem_keys_requestFailed_apply]
    simp [NewMetricsStore, not_mem_keys_empty]

/-- C10: on any store, `GetDurationStats` returns (without a run-time failure) and leaves
the store as it was; the keys of the returned map are exactly the models whose duration
window is non-empty, and each key is mapped to `calculateStats` of that model's window, so
a model whose window is empty or missing has no entry. The same holds for
`GetLoadDurationStats` and the load windows. -/
theorem C10_stats_cover_non_empty_windows [Float64 F] (s : MetricsStore F) :
    (∃ res, GetDurationStats s = some (res, s) ∧
      ∀ k : String,
        (res.find? k =
          if (s.durationSamples.getD k []).length > 0 then
            calculateStats (s.durationSamples.getD k [])
          else none) ∧
        (k ∈ res.keys ↔ (s.durationSamples.getD k []).length > 0)) ∧
    (∃ res, GetLoadDurationStats s = some (res, s) ∧
      ∀ k : String,
        (res.find? k =
          if (s.loadDurations.getD k []).length > 0 then
            calculateStats (s.loadDurations.getD k [])
          else none) ∧
        (k ∈ res.keys ↔ (s.loadDurations.getD k []).length > 0)) := by
  refine ⟨?_, ?_⟩
  · obtain ⟨res, hres, hspec⟩ := statsOf_spec s.durationSamples
    exact ⟨res, by simp [GetDurationStats, hres], hspec⟩
  · obtain ⟨res, hres, hspec⟩ := statsOf_spec s.loadDurations
    exact ⟨res, by simp [GetLoadDurationStats, hres], hspec⟩

/-- C11: on a non-empty input `xs` of length `n`, with `s` the sorted copy of `xs`,
`calculateStats` returns `Min = s[0]`, `Max = s[n-1]`, `P50 = s[n*50/100]`,
`P95 = s[n*95/100]`, `P99 = s[n*99/100]` (integer division, no interpolation) and
`Avg = (sum of s) / n`, which is `(sum of xs) / n` when the additions commute and associate;
`s` is a rearrangement of `xs`, ascending when the order compares any two values and is
transitive. In exact arithmetic the input `[1, ..., 10]` gives `P50 = 6`, `Min = 1`,
`Max = 10` and `Avg = 5.5`. -/
theorem C11_calculateStats_nearest_rank [Float64 F] (xs : List F) (hne : xs ≠ []) :
    (∃ st, calculateStats xs = some st ∧
      (sortFloat64s xs)[0]? = some st.Min ∧
      (sortFloat64s xs)[xs.length - 1]? = some st.Max ∧
      (sortFloat64s xs)[xs.length * 50 / 100]? = some st.P50 ∧
      (sortFloat64s xs)[xs.length * 95 / 100]? = some st.P95 ∧
      (sortFloat64s xs)[xs.length * 99 / 100]? = some st.P99 ∧
      st.Avg = Float64.div ((sortFloat64s xs).foldl Float64.add (Float64.ofInt 0))
        (Float64.ofInt xs.length) ∧
      ((∀ a b : F, Float64.add a b = Float64.add b a) →
        (∀ a b c : F,
          Float64.add (Float64.add a b) c = Float64.add a (Float64.add b c)) →
        st.Avg = Float64.div (xs.foldl Float64.add (Float64.ofInt 0))
          (Float64.ofInt xs.length))) ∧
    (sortFloat64s xs).Perm xs ∧
    ((∀ a b : F, float64Less b a = false ∨ float64Less a b = false) →
      (∀ a b c : F, float64Less b a = false → float64Less c b = false →
        float64Less c a = false) →
      (sortFloat64s xs).Sorted (fun a b => float64Less b a = false)) ∧
    calculateStats oneToTen =
      some { Avg := 11 / 2, P50 := 6, P95 := 10, P99 := 10, Min := 1, Max := 10 } := by
  obtain ⟨st, hst, havg, h50, h95, h99, hmin, hmax⟩ := calculateStats_spec xs hne
  refine ⟨⟨st, hst, hmin, hmax, h50, h95, h99, havg, ?_⟩, List.perm_insertionSort _ xs,
    sorted_sortFloat64s xs, ?_⟩
  · intro hcomm hassoc
    rw [havg, sum_sortFloat64s xs hcomm hassoc]
  · norm_num [oneToTen, calculateStats, sortFloat64s, float64Less, Float64.lt, Float64.isNaN,
      Float64.add, Float64.div, Float64.ofInt, List.insertionSort, List.orderedInsert]

/-- C11, on the input `[1, ..., 10]` in exact arithmetic: the sorted copy is ascending and
the average is the sum 55 of the input divided by 10. -/
theorem C11_calculateStats_nearest_rank_witness :
    oneToTen ≠ [] ∧
      (∀ a b : ℚ, Float64.add a b = Float64.add b a) ∧
      (∀ a b c : ℚ, Float64.add (Float64.add a b) c = Float64.add a (Float64.add b c)) ∧
      (∀ a b : ℚ, float64Less b a = false ∨ float64Less a b = false) ∧
      (∀ a b c : ℚ, float64Less b a = false → float64Less c b = false →
        float64Less c a = false) ∧
      (∃ st, calculateStats oneToTen = some st ∧
        st.Avg = Float64.div (oneToTen.foldl Float64.add (Float64.ofInt 0))
          (Float64.ofInt oneToTen.length)) ∧
      (sortFloat64s oneToTen).Sorted (fun a b => float64Less b a = false) := by
  have hcomm : ∀ a b : ℚ, Float64.add a b = Float64.add b a := fun a b => add_comm a b
  have hassoc : ∀ a b c : ℚ,
      Float64.add (Float64.add a b) c = Float64.add a (Float64.add b c) :=
    fun a b c => add_assoc a b c
  have htotal : ∀ a b : ℚ, float64Less b a = false ∨ float64Less a b = false := by
    intro a b
    rw [float64Less_rat, float64Less_rat]
    rcases le_total a b with h | h
    · left; simpa using h
    · right; simpa using h
  have htrans : ∀ a b c : ℚ, float64Less b a = false → float64Less c b = false →
      float64Less c a = false := by
    intro a b c
    rw [float64Less_rat, float64Less_rat, float64Less_rat]
    simp only [decide_eq_false_iff_not, not_lt]
    exact fun h1 h2 => le_trans h1 h2
  have hne : oneToTen ≠ [] := by simp [oneToTen]
  obtain ⟨⟨st, hst, _, _, _, _, _, _, havg⟩, _, hsorted, _⟩ :=
    C11_calculateStats_nearest_rank oneToTen hne
  exact ⟨hne, hcomm, hassoc, htotal, htrans, ⟨st, hst, havg hcomm hassoc⟩,
    hsorted htotal htrans⟩

/-- C12: `calculateStats` never indexes out of range. On an input of length `n >= 1` each
of the indices `n*50/100`, `n*95/100` and `n*99/100` is at most `n - 1`, the sorted copy
has `n` elements, so each percentile lookup (and those of `Min` and `Max`) finds an
element without clamping and the function returns; on the empty input it returns the
all-zero `Stats`. -/
theorem C12_calculateStats_in_range [Float64 F] (xs : List F) :
    (1 ≤ xs.length →
      (sortFloat64s xs).length = xs.length ∧
      (∀ p ∈ [50, 95, 99], xs.length * p / 100 ≤ xs.length - 1 ∧
        ((sortFloat64s xs)[xs.length * p / 100]?).isSome = true) ∧
      ((sortFloat64s xs)[0]?).isSome = true ∧
      ((sortFloat64s xs)[xs.length - 1]?).isSome = true ∧
      (calculateStats xs).isSome = true) ∧
    calculateStats ([] : List F) = some zeroStats := by
  refine ⟨?_, rfl⟩
  intro hn
  have hlen : (sortFloat64s xs).length = xs.length := List.length_insertionSort _ _
  obtain ⟨st, hst⟩ := calculateStats_total xs
  refine ⟨hlen, ?_, ?_, ?_, by simp [hst]⟩
  · intro p hp
    simp only [List.mem_cons, List.mem_singleton, List.not_mem_nil, or_false] at hp
    have hidx : xs.length * p / 100 ≤ xs.length - 1 := by
      rcases hp with h | h | h <;> subst h <;> omega
    refine ⟨hidx, ?_⟩
    rw [List.getElem?_eq_getElem (by omega)]
    rfl
  · rw [List.getElem?_eq_getElem (by omega)]
    rfl
  · rw [List.getElem?_eq_getElem (by omega)]
    rfl

/-- C12, on the input `[1, ..., 10]`: the indices 5, 9 and 9 are within the ten elements. -/
theorem C12_calculateStats_in_range_witness :
    1 ≤ oneToTen.length ∧
      (∀ p ∈ [50, 95, 99], oneToTen.length * p / 100 ≤ oneToTen.length - 1 ∧
        ((sortFloat64s oneToTen)[oneToTen.length * p / 100]?).isSome = true) ∧
      (calculateStats oneToTen).isSome = true :=
  ⟨by decide,
    ((C12_calculateStats_in_range oneToTen).1 (by decide)).2.1,
    ((C12_calculateStats_in_range oneToTen).1 (by decide)).2.2.2.2⟩

set_option maxRecDepth 100000

/-- C13: with a writer that can flush, `handleStreamResponse` writes to the client exactly
the non-empty lines read by the scanner, in order, each followed by one line-feed; what is
written is the same for every decoder (and every store and model), so a line that fails to
parse is relayed like any other. -/
theorem C13_stream_relays_non_empty_lines [Float64 F] (env : Env F)
    (metrics : MetricsStore F) (w : ResponseWriter) (resp : Response) (model : String)
    (hf : w.flusher = true) :
    (handleStreamResponse env metrics w resp model).1.body =
        w.body ++ relayed (scanLines resp.Body).1 ∧
      ∀ (env' : Env F) (metrics' : MetricsStore F) (model' : String),
        (handleStreamResponse env' metrics' w resp model').1.body =
          (handleStreamResponse env metrics w resp model).1.body := by
  refine ⟨body_handleStreamResponse env metrics w resp model hf, ?_⟩
  intro env' metrics' model'
  rw [body_handleStreamResponse env metrics w resp model hf,
    body_handleStreamResponse env' metrics' w resp model' hf]

/-- C13, on the stream with a malformed middle line: all three lines reach the client. -/
theorem C13_stream_relays_non_empty_lines_witness :
    freshWriter.flusher = true ∧
      (handleStreamResponse (sampleEnv none) (NewMetricsStore 0) freshWriter
          (okResponse badStream) "llama3").1.body =
        freshWriter.body ++ relayed (scanLines (okResponse badStream).Body).1 ∧
      relayed (scanLines (okResponse badStream).Body).1 = badStream :=
  ⟨rfl,
    (C13_stream_relays_non_empty_lines (sampleEnv none) (NewMetricsStore 0) freshWriter
      (okResponse badStream) "llama3" rfl).1,
    by decide⟩

/-- C14: when some non-empty line read by the scanner fails to parse, wherever it stands,
or when reading the stream ends with an error, `handleStreamResponse` leaves the store
exactly as one `RecordFailure` for the request's model leaves it: no success, token or
duration is recorded, whatever the other lines hold. -/
theorem C14_stream_error_is_sticky [Float64 F] (env : Env F) (metrics : MetricsStore F)
    (w : ResponseWriter) (resp : Response) (model : String)
    (h : (∃ line ∈ (scanLines resp.Body).1,
        line.length ≠ 0 ∧ env.unmarshalChunk line = none) ∨ streamErr resp = true) :
    (handleStreamResponse env metrics w resp model).2 = RecordFailure metrics model env.now ∧
      (handleStreamResponse env metrics w resp model).2.requestSuccess =
        metrics.requestSuccess ∧
      (handleStreamResponse env metrics w resp model).2.tokenCount = metrics.tokenCount ∧
      (handleStreamResponse env metrics w resp model).2.promptTokens =
        metrics.promptTokens ∧
      (handleStreamResponse env metrics w resp model).2.durationSamples =
        metrics.durationSamples ∧
      (handleStreamResponse env metrics w resp model).2.loadDurations =
        metrics.loadDurations := by
  have key : (handleStreamResponse env metrics w resp model).2 =
      RecordFailure metrics model env.now := by
    by_cases hf : w.flusher = true
    · rw [metrics_handleStreamResponse env metrics w resp model hf]
      have herr : (someLineFails env (scanLines resp.Body).1 || streamErr resp) = true := by
        rcases h with ⟨line, hmem, hne, hnone⟩ | h
        · have : someLineFails env (scanLines resp.Body).1 = true := by
            unfold someLineFails
            rw [List.any_eq_true]
            exact ⟨line, hmem, by simp [hne, hnone]⟩
          simp [this]
        · simp [h]
      rw [if_pos herr]
    · unfold handleStreamResponse
      simp [hf]
  rw [key]
  exact ⟨rfl, rfl, rfl, rfl, rfl, rfl⟩

/-- C14, on the stream whose malformed line comes after the terminal record: one failure
and nothing else is recorded. -/
theorem C14_stream_error_is_sticky_witness :
    ((∃ line ∈ (scanLines (okResponse badStream).Body).1,
        line.length ≠ 0 ∧ (sampleEnv none).unmarshalChunk line = none) ∨
        streamErr (okResponse badStream) = true) ∧
      (handleStreamResponse (sampleEnv none) (NewMetricsStore 0) freshWriter
          (okResponse badStream) "llama3").2 =
        RecordFailure (NewMetricsStore 0) "llama3" (sampleEnv none).now :=
  ⟨by decide,
    (C14_stream_error_is_sticky (sampleEnv none) (NewMetricsStore 0) freshWriter
      (okResponse badStream) "llama3" (by decide)).1⟩

/-- C15, refuted as stated for every writer: with a writer that is no `http.Flusher`,
`handleStreamResponse` records one failure and returns before reading the stream, whatever
the stream; the three-line stream `done = false`, `done = false`, `done = true`, whose
lines all parse and which ends without an error, then leaves one failure, no success, no
token and no load sample. -/
theorem C15_counterexample_writer_cannot_flush :
    (∀ line ∈ (scanLines (okResponse doneStream).Body).1,
        line.length ≠ 0 → (sampleEnv none).unmarshalChunk line ≠ none) ∧
      streamErr (okResponse doneStream) = false ∧
      (∃ chunk ∈ parsedChunks (sampleEnv none) (scanLines (okResponse doneStream).Body).1,
        chunk.Done = true) ∧
      (handleStreamResponse (sampleEnv none) (NewMetricsStore 0) plainWriter
          (okResponse doneStream) "llama3").2 =
        RecordFailure (NewMetricsStore 0) "llama3" (sampleEnv none).now ∧
      (handleStreamResponse (sampleEnv none) (NewMetricsStore 0) plainWriter
          (okResponse doneStream) "llama3").2.requestFailed.getD "llama3" 0 = 1 ∧
      (handleStreamResponse (sampleEnv none) (NewMetricsStore 0) plainWriter
          (okResponse doneStream) "llama3").2.requestSuccess.getD "llama3" 0 = 0 ∧
      (handleStreamResponse (sampleEnv none) (NewMetricsStore 0) plainWriter
          (okResponse doneStream) "llama3").2.tokenCount.getD "llama3" 0 = 0 ∧
      (handleStreamResponse (sampleEnv none) (NewMetricsStore 0) plainWriter
          (okResponse doneStream) "llama3").2.loadDurations.getD "llama3" [] = [] ∧
      (handleStreamResponse (sampleEnv none) (NewMetricsStore 0) plainWriter
          (okResponse doneStream) "llama3").1.body = [] :=
  ⟨by decide, by decide, by decide, rfl, by decide, by decide, by decide, by decide,
    by decide⟩

/-- C15: with a writer that can flush, when every non-empty line read by the scanner
parses, reading ends without an error and some record has `done = true`,
`handleStreamResponse` leaves the store exactly as one `RecordSuccess` for the request's
model with the fields of the last record with `done = true` leaves it: the request and
success counters get 1, the token counters get that record's `eval_count` and
`prompt_eval_count`, its `load_duration / 1e9` becomes the newest load sample when positive,
and no failure is recorded. -/
theorem C15_stream_success_uses_last_done [Float64 F] (env : Env F)
    (metrics : MetricsStore F) (w : ResponseWriter) (resp : Response) (model : String)
    (hf : w.flusher = true)
    (hparse : ∀ line ∈ (scanLines resp.Body).1,
      line.length ≠ 0 → env.unmarshalChunk line ≠ none)
    (herr : streamErr resp = false)
    (hdone : ∃ chunk ∈ parsedChunks env (scanLines resp.Body).1, chunk.Done = true) :
    ∃ chunk, lastDone env (scanLines resp.Body).1 = some chunk ∧
      (handleStreamResponse env metrics w resp model).2 =
        RecordSuccess metrics model (responseOfChunk chunk) env.sinceSeconds env.now ∧
      (handleStreamResponse env metrics w resp model).2.requestFailed =
        metrics.requestFailed ∧
      (handleStreamResponse env metrics w resp model).2.requestCount.find? model =
        some (add64 (metrics.requestCount.getD model 0) 1) ∧
      (handleStreamResponse env metrics w resp model).2.requestSuccess.find? model =
        some (add64 (metrics.requestSuccess.getD model 0) 1) ∧
      (handleStreamResponse env metrics w resp model).2.tokenCount.find? model =
        some (add64 (metrics.tokenCount.getD model 0) chunk.EvalCount) ∧
      (handleStreamResponse env metrics w resp model).2.promptTokens.find? model =
        some (add64 (metrics.promptTokens.getD model 0) chunk.PromptEvalCount) ∧
      (if chunk.LoadDuration > 0 then
        ((handleStreamResponse env metrics w resp model).2.loadDurations.getD model
            []).getLast? =
          some (Float64.div (Float64.ofInt chunk.LoadDuration : F)
            (Float64.ofInt 1000000000))
      else
        (handleStreamResponse env metrics w resp model).2.loadDurations =
          metrics.loadDurations) := by
  have hfail : someLineFails env (scanLines resp.Body).1 = false := by
    unfold someLineFails
    rw [List.any_eq_false]
    intro line hmem
    by_cases hlen : line.length = 0
    · simp [hlen]
    · have := hparse line hmem hlen
      cases hp : env.unmarshalChunk line with
      | none => exact absurd hp this
      | some c => simp
  obtain ⟨c, hc, hd⟩ := hdone
  obtain ⟨chunk, hlast⟩ := lastDone_isSome env (scanLines resp.Body).1
    (List.any_eq_true.mpr ⟨c, hc, hd⟩)
  have hstore : (handleStreamResponse env metrics w resp model).2 =
      RecordSuccess metrics model (responseOfChunk chunk) env.sinceSeconds env.now := by
    rw [metrics_handleStreamResponse env metrics w resp model hf, hfail, herr, hlast]
    simp
  refine ⟨chunk, hlast, hstore, ?_, ?_, ?_, ?_, ?_, ?_⟩
  · rw [hstore]; rfl
  · rw [hstore]; exact GoMap.find?_set_self _ _ _
  · rw [hstore]; exact GoMap.find?_set_self _ _ _
  · rw [hstore]; exact GoMap.find?_set_self _ _ _
  · rw [hstore]; exact GoMap.find?_set_self _ _ _
  · rw [hstore]
    by_cases hl : chunk.LoadDuration > 0
    · rw [if_pos hl]
      exact getLast?_loadDurations_RecordSuccess metrics model (responseOfChunk chunk) _ _ hl
    · rw [if_neg hl]
      exact loadDurations_RecordSuccess_of_not_pos metrics model (responseOfChunk chunk) _ _ hl

/-- C15, on the three-line stream `done = false`, `done = false`, `done = true` with
`load_duration = 2000000000`: exactly one success is recorded, with the terminal record,
and its load sample is 2 seconds. -/
theorem C15_stream_success_uses_last_done_witness :
    freshWriter.flusher = true ∧
      (∀ line ∈ (scanLines (okResponse doneStream).Body).1,
        line.length ≠ 0 → (sampleEnv none).unmarshalChunk line ≠ none) ∧
      streamErr (okResponse doneStream) = false ∧
      (∃ chunk ∈ parsedChunks (sampleEnv none) (scanLines (okResponse doneStream).Body).1,
        chunk.Done = true) ∧
      (handleStreamResponse (sampleEnv none) (NewMetricsStore 0) freshWriter
          (okResponse doneStream) "llama3").2 =
        RecordSuccess (NewMetricsStore 0) "llama3" (responseOfChunk chunkDone) (3 / 2) 7 ∧
      ((handleStreamResponse (sampleEnv none) (NewMetricsStore 0) freshWriter
          (okResponse doneStream) "llama3").2.loadDurations.getD "llama3" []).getLast? =
        some 2 := by
  have h1 : freshWriter.flusher = true := rfl
  have h2 : ∀ line ∈ (scanLines (okResponse doneStream).Body).1,
      line.length ≠ 0 → (sampleEnv none).unmarshalChunk line ≠ none := by decide
  have h3 : streamErr (okResponse doneStream) = false := by decide
  have h4 : ∃ chunk ∈ parsedChunks (sampleEnv none)
      (scanLines (okResponse doneStream).Body).1, chunk.Done = true := by decide
  obtain ⟨chunk, hlast, hstore, _, _, _, _, _, hload⟩ :=
    C15_stream_success_uses_last_done (sampleEnv none) (NewMetricsStore 0) freshWriter
      (okResponse doneStream) "llama3" h1 h2 h3 h4
  have hlast' : lastDone (sampleEnv none) (scanLines (okResponse doneStream).Body).1 =
      some chunkDone := by decide
  have hchunk : chunk = chunkDone := by
    rw [hlast'] at hlast
    exact (Option.some.inj hlast).symm
  subst hchunk
  have hpos : chunkDone.LoadDuration > 0 := by decide
  rw [if_pos hpos] at hload
  have htwo : Float64.div (Float64.ofInt chunkDone.LoadDuration : ℚ)
      (Float64.ofInt 1000000000) = 2 := by
    norm_num [Float64.div, Float64.ofInt, chunkDone, zeroChunk]
  rw [htwo] at hload
  exact ⟨h1, h2, h3, h4, hstore, hload⟩

/-- C16, refuted as stated for every writer: with a writer that is no `http.Flusher`,
`handleStreamResponse` records one failure and returns before reading the stream; a stream
of two records with `done = false`, whose lines all parse and which ends without an error,
and the empty stream then change the store: the request and failure counters of the model
are 1. -/
theorem C16_counterexample_writer_cannot_flush :
    (∀ line ∈ (scanLines (okResponse gapStream).Body).1,
        line.length ≠ 0 → (sampleEnv none).unmarshalChunk line ≠ none) ∧
      streamErr (okResponse gapStream) = false ∧
      (∀ chunk ∈ parsedChunks (sampleEnv none) (scanLines (okResponse gapStream).Body).1,
        chunk.Done = false) ∧
      (handleStreamResponse (sampleEnv none) (NewMetricsStore 0) plainWriter
          (okResponse gapStream) "llama3").2 =
        RecordFailure (NewMetricsStore 0) "llama3" (sampleEnv none).now ∧
      (handleStreamResponse (sampleEnv none) (NewMetricsStore 0) plainWriter
          (okResponse gapStream) "llama3").2.requestCount.getD "llama3" 0 = 1 ∧
      (handleStreamResponse (sampleEnv none) (NewMetricsStore 0) plainWriter
          (okResponse gapStream) "llama3").2.requestFailed.getD "llama3" 0 = 1 ∧
      (NewMetricsStore 0 : MetricsStore ℚ).requestFailed.getD "llama3" 0 = 0 ∧
      (handleStreamResponse (sampleEnv none) (NewMetricsStore 0) plainWriter
          (okResponse gapStream) "llama3").2 ≠ NewMetricsStore 0 ∧
      (handleStreamResponse (sampleEnv none) (NewMetricsStore 0) plainWriter
          (okResponse []) "llama3").2 ≠ NewMetricsStore 0 := by
  refine ⟨by decide, by decide, by decide, rfl, by decide, by decide, by decide, ?_, ?_⟩
  · intro h
    have h2 := congrArg (fun st => st.requestFailed.getD "llama3" 0) h
    revert h2
    decide
  · intro h
    have h2 := congrArg (fun st => st.requestFailed.getD "llama3" 0) h
    revert h2
    decide

/-- C16: with a writer that can flush, when every non-empty line read by the scanner
parses, reading ends without an error and no record has `done = true` (the empty stream
included), `handleStreamResponse` returns the store it was given: nothing is recorded. -/
theorem C16_stream_silent_gap [Float64 F] (env : Env F) (metrics : MetricsStore F)
    (w : ResponseWriter) (resp : Response) (model : String)
    (hf : w.flusher = true)
    (hparse : ∀ line ∈ (scanLines resp.Body).1,
      line.length ≠ 0 → env.unmarshalChunk line ≠ none)
    (herr : streamErr resp = false)
    (hnone : ∀ chunk ∈ parsedChunks env (scanLines resp.Body).1, chunk.Done = false) :
    (handleStreamResponse env metrics w resp model).2 = metrics := by
  have hfail : someLineFails env (scanLines resp.Body).1 = false := by
    unfold someLineFails
    rw [List.any_eq_false]
    intro line hmem
    by_cases hlen : line.length = 0
    · simp [hlen]
    · have := hparse line hmem hlen
      cases hp : env.unmarshalChunk line with
      | none => exact absurd hp this
      | some c => simp
  have hlast : lastDone env (scanLines resp.Body).1 = none := by
    apply lastDone_eq_none
    rw [List.any_eq_false]
    intro c hc
    simp [hnone c hc]
  rw [metrics_handleStreamResponse env metrics w resp model hf, hfail, herr, hlast]
  simp

/-- C16, on a stream of two records with `done = false` and on the empty stream: the
fresh store stays fresh. -/
theorem C16_stream_silent_gap_witness :
    (freshWriter.flusher = true ∧
      (∀ line ∈ (scanLines (okResponse gapStream).Body).1,
        line.length ≠ 0 → (sampleEnv none).unmarshalChunk line ≠ none) ∧
      streamErr (okResponse gapStream) = false ∧
      (∀ chunk ∈ parsedChunks (sampleEnv none) (scanLines (okResponse gapStream).Body).1,
        chunk.Done = false)) ∧
      (handleStreamResponse (sampleEnv none) (NewMetricsStore 0) freshWriter
          (okResponse gapStream) "llama3").2 = NewMetricsStore 0 ∧
      (handleStreamResponse (sampleEnv none) (NewMetricsStore 0) freshWriter
          (okResponse []) "llama3").2 = NewMetricsStore 0 :=
  ⟨⟨rfl, by decide, by decide, by decide⟩,
    C16_stream_silent_gap (sampleEnv none) (NewMetricsStore 0) freshWriter
      (okResponse gapStream) "llama3" rfl (by decide) (by decide) (by decide),
    C16_stream_silent_gap (sampleEnv none) (NewMetricsStore 0) freshWriter
      (okResponse []) "llama3" rfl (by decide) (by decide) (by decide)⟩

/-- C17, refuted as stated for the stream branch: an empty line of the body is not
written, a carriage return before a line-feed is not written, a line-feed is written after
a last line that has none, and nothing is written of a line of 65536 bytes; in each case
the bytes written differ from the body. -/
theorem C17_counterexample_stream_rewrites_lines :
    (handleStreamResponse (sampleEnv none) (NewMetricsStore 0) freshWriter
        (okResponse blankLineStream) "llama3").1.body =
        lineNotDone ++ [10] ++ lineDone ++ [10] ∧
      lineNotDone ++ [10] ++ lineDone ++ [10] ≠ blankLineStream ∧
      (handleStreamResponse (sampleEnv none) (NewMetricsStore 0) freshWriter
        (okResponse crlfStream) "llama3").1.body = lineDone ++ [10] ∧
      lineDone ++ [10] ≠ crlfStream ∧
      (handleStreamResponse (sampleEnv none) (NewMetricsStore 0) freshWriter
        (okResponse unterminatedStream) "llama3").1.body = lineDone ++ [10] ∧
      lineDone ++ [10] ≠ unterminatedStream ∧
      (handleStreamResponse (sampleEnv none) (NewMetricsStore 0) freshWriter
        (okResponse (longLineStream 65536)) "llama3").1.body = [] ∧
      longLineStream 65536 ≠ [] :=
  ⟨by decide, by decide, by decide, by decide, by decide, by decide,
    body_handleStreamResponse_longLineStream (sampleEnv none) (NewMetricsStore 0) "llama3"
      65536 (Nat.le_refl 65536),
    longLineStream_ne_nil 65536⟩

/-- C17, amended: `handleNonStreamResponse` writes exactly the body when the body is read
to its end; `handleStreamResponse`, with a writer that can flush, writes the non-empty
lines read by the scanner, each followed by one line-feed, and this is exactly the body
when the body consists of non-empty lines, each shorter than 65536 bytes, not ending with
a carriage return and followed by one line-feed. -/
theorem C17_written_bytes [Float64 F] (env : Env F) (metrics : MetricsStore F)
    (w : ResponseWriter) (resp : Response) (model : String) :
    (resp.BodyErr = false →
      (handleNonStreamResponse env metrics w resp model).1.body = w.body ++ resp.Body) ∧
    (w.flusher = true →
      (handleStreamResponse env metrics w resp model).1.body =
        w.body ++ relayed (scanLines resp.Body).1) ∧
    (w.flusher = true →
      ∀ lines : List Bytes,
        (∀ line ∈ lines, line.length ≠ 0 ∧ (∀ b ∈ line, b ≠ 10) ∧
          line.getLast? ≠ some 13 ∧ line.length < 65536) →
        resp.Body = linesBody lines →
        (handleStreamResponse env metrics w resp model).1.body = w.body ++ resp.Body) := by
  refine ⟨body_handleNonStreamResponse env metrics w resp model,
    body_handleStreamResponse env metrics w resp model, ?_⟩
  intro hf lines hlines hbody
  rw [body_handleStreamResponse env metrics w resp model hf, hbody,
    scanLines_linesBody lines (fun l hl => (hlines l hl).2),
    relayed_of_non_empty lines (fun l hl => (hlines l hl).1)]

/-- C17 as amended, on the three-line stream: both branches write the body itself. -/
theorem C17_written_bytes_witness :
    ((okResponse doneStream).BodyErr = false ∧ freshWriter.flusher = true ∧
      (∀ line ∈ [lineNotDone, lineNotDone, lineDone],
        line.length ≠ 0 ∧ (∀ b ∈ line, b ≠ 10) ∧ line.getLast? ≠ some 13 ∧
          line.length < 65536) ∧
      (okResponse doneStream).Body = linesBody [lineNotDone, lineNotDone, lineDone]) ∧
    (handleNonStreamResponse (sampleEnv none) (NewMetricsStore 0) freshWriter
        (okResponse doneStream) "llama3").1.body =
      freshWriter.body ++ (okResponse doneStream).Body ∧
    (handleStreamResponse (sampleEnv none) (NewMetricsStore 0) freshWriter
        (okResponse doneStream) "llama3").1.body =
      freshWriter.body ++ (okResponse doneStream).Body :=
  ⟨⟨rfl, rfl, by decide, by decide⟩,
    (C17_written_bytes (sampleEnv none) (NewMetricsStore 0) freshWriter
      (okResponse doneStream) "llama3").1 rfl,
    (C17_written_bytes (sampleEnv none) (NewMetricsStore 0) freshWriter
      (okResponse doneStream) "llama3").2.2 rfl [lineNotDone, lineNotDone, lineDone]
      (by decide) (by decide)⟩

/-- C18: in the non-stream branch, for a body `b` read to its end: when `b` parses as a
record `r`, the store is left exactly as one `RecordSuccess` for the model with `r` leaves
it (so `tokenCount` gets `r.EvalCount`, `promptTokens` gets `r.PromptEvalCount` and no
failure is recorded); when `b` does not parse, the store is left exactly as one
`RecordFailure` for the model leaves it (and no success is recorded); in both cases
exactly `b` is written to the client. -/
theorem C18_non_stream_records_by_parse [Float64 F] (env : Env F) (metrics : MetricsStore F)
    (w : ResponseWriter) (resp : Response) (model : String)
    (hread : resp.BodyErr = false) :
    (∀ record, env.unmarshalResponse resp.Body = some record →
      (handleNonStreamResponse env metrics w resp model).2 =
        RecordSuccess metrics model record env.sinceSeconds env.now ∧
      (handleNonStreamResponse env metrics w resp model).2.requestFailed =
        metrics.requestFailed ∧
      (handleNonStreamResponse env metrics w resp model).2.requestSuccess.find? model =
        some (add64 (metrics.requestSuccess.getD model 0) 1) ∧
      (handleNonStreamResponse env metrics w resp model).2.tokenCount.find? model =
        some (add64 (metrics.tokenCount.getD model 0) record.EvalCount) ∧
      (handleNonStreamResponse env metrics w resp model).2.promptTokens.find? model =
        some (add64 (metrics.promptTokens.getD model 0) record.PromptEvalCount) ∧
      (handleNonStreamResponse env metrics w resp model).1.body = w.body ++ resp.Body) ∧
    (env.unmarshalResponse resp.Body = none →
      (handleNonStreamResponse env metrics w resp model).2 =
        RecordFailure metrics model env.now ∧
      (handleNonStreamResponse env metrics w resp model).2.requestSuccess =
        metrics.requestSuccess ∧
      (handleNonStreamResponse env metrics w resp model).2.requestFailed.find? model =
        some (add64 (metrics.requestFailed.getD model 0) 1) ∧
      (handleNonStreamResponse env metrics w resp model).1.body = w.body ++ resp.Body) := by
  have hbody := body_handleNonStreamResponse env metrics w resp model hread
  refine ⟨?_, ?_⟩
  · intro record hrec
    have hstore : (handleNonStreamResponse env metrics w resp model).2 =
        RecordSuccess metrics model record env.sinceSeconds env.now := by
      unfold handleNonStreamResponse
      simp [hread, hrec]
    refine ⟨hstore, ?_, ?_, ?_, ?_, hbody⟩
    · rw [hstore]; rfl
    · rw [hstore]; exact GoMap.find?_set_self _ _ _
    · rw [hstore]; exact GoMap.find?_set_self _ _ _
    · rw [hstore]; exact GoMap.find?_set_self _ _ _
  · intro hnone
    have hstore : (handleNonStreamResponse env metrics w resp model).2 =
        RecordFailure metrics model env.now := by
      unfold handleNonStreamResponse
      simp [hread, hnone]
    refine ⟨hstore, ?_, ?_, hbody⟩
    · rw [hstore]; rfl
    · rw [hstore]; exact GoMap.find?_set_self _ _ _

/-- C18, on the body `{"model":"llama3","done":true,"eval_count":42,
"prompt_eval_count":10}`: one success with 42 generated and 10 prompt tokens, no failure,
the body written as it is; and on a body that is not JSON: one failure, no success. -/
theorem C18_non_stream_records_by_parse_witness :
    ((okResponse responseBody).BodyErr = false ∧
      (sampleEnv none).unmarshalResponse (okResponse responseBody).Body =
        some responseRecord ∧
      (okResponse lineBad).BodyErr = false ∧
      (sampleEnv none).unmarshalResponse (okResponse lineBad).Body = none) ∧
    (handleNonStreamResponse (sampleEnv none) (NewMetricsStore 0) freshWriter
        (okResponse responseBody) "llama3").2 =
      RecordSuccess (NewMetricsStore 0) "llama3" responseRecord (3 / 2) 7 ∧
    (handleNonStreamResponse (sampleEnv none) (NewMetricsStore 0) freshWriter
        (okResponse responseBody) "llama3").1.body = freshWriter.body ++ responseBody ∧
    (handleNonStreamResponse (sampleEnv none) (NewMetricsStore 0) freshWriter
        (okResponse lineBad) "llama3").2 = RecordFailure (NewMetricsStore 0) "llama3" 7 ∧
    ((RecordSuccess (NewMetricsStore 0 : MetricsStore ℚ) "llama3" responseRecord (3 / 2)
        7).requestSuccess.getD "llama3" 0 = 1 ∧
      (RecordSuccess (NewMetricsStore 0 : MetricsStore ℚ) "llama3" responseRecord (3 / 2)
        7).requestFailed.find? "llama3" = none ∧
      (RecordSuccess (NewMetricsStore 0 : MetricsStore ℚ) "llama3" responseRecord (3 / 2)
        7).tokenCount.getD "llama3" 0 = 42 ∧
      (RecordSuccess (NewMetricsStore 0 : MetricsStore ℚ) "llama3" responseRecord (3 / 2)
        7).promptTokens.getD "llama3" 0 = 10) :=
  ⟨⟨rfl, by decide, rfl, by decide⟩,
    ((C18_non_stream_records_by_parse (sampleEnv none) (NewMetricsStore 0) freshWriter
      (okResponse responseBody) "llama3" rfl).1 responseRecord (by decide)).1,
    ((C18_non_stream_records_by_parse (sampleEnv none) (NewMetricsStore 0) freshWriter
      (okResponse responseBody) "llama3" rfl).1 responseRecord (by decide)).2.2.2.2.2,
    ((C18_non_stream_records_by_parse (sampleEnv none) (NewMetricsStore 0) freshWriter
      (okResponse lineBad) "llama3" rfl).2 (by decide)).1,
    by decide⟩

/-- C19: for a request whose body cannot be read or does not parse as a request,
`proxyWithMetrics` answers with status 400, sends nothing to the backend and returns the
store it was given. -/
theorem C19_malformed_request_is_rejected [Float64 F] (env : Env F)
    (metrics : MetricsStore F) (w : ResponseWriter) (r : Request)
    (hw : w.status = none)
    (h : r.BodyErr = true ∨ env.unmarshalRequest r.Body = none) :
    (proxyWithMetrics env metrics w r).w.status = some 400 ∧
      (proxyWithMetrics env metrics w r).sent = [] ∧
      (proxyWithMetrics env metrics w r).metrics = metrics := by
  by_cases hb : r.BodyErr = true
  · have hout : proxyWithMetrics env metrics w r =
        { w := httpError w "Failed to read request" 400, metrics := metrics, sent := [] } := by
      unfold proxyWithMetrics
      rw [if_pos hb]
    rw [hout]
    exact ⟨status_httpError w _ 400 hw, rfl, rfl⟩
  · have hnone : env.unmarshalRequest r.Body = none := h.resolve_left hb
    have hout : proxyWithMetrics env metrics w r =
        { w := httpError w "Invalid request format" 400, metrics := metrics, sent := [] } := by
      unfold proxyWithMetrics
      rw [if_neg hb, hnone]
    rw [hout]
    exact ⟨status_httpError w _ 400 hw, rfl, rfl⟩

/-- C19, on a request whose body is not JSON, with a backend that would answer. -/
theorem C19_malformed_request_is_rejected_witness :
    (freshWriter.status = none ∧
      ((chatRequest lineBad).BodyErr = true ∨
        (sampleEnv (some (okResponse responseBody))).unmarshalRequest
          (chatRequest lineBad).Body = none)) ∧
    (proxyWithMetrics (sampleEnv (some (okResponse responseBody))) (NewMetricsStore 0)
        freshWriter (chatRequest lineBad)).w.status = some 400 ∧
    (proxyWithMetrics (sampleEnv (some (okResponse responseBody))) (NewMetricsStore 0)
        freshWriter (chatRequest lineBad)).sent = [] ∧
    (proxyWithMetrics (sampleEnv (some (okResponse responseBody))) (NewMetricsStore 0)
        freshWriter (chatRequest lineBad)).metrics = NewMetricsStore 0 :=
  ⟨⟨rfl, by decide⟩,
    C19_malformed_request_is_rejected (sampleEnv (some (okResponse responseBody)))
      (NewMetricsStore 0) freshWriter (chatRequest lineBad) rfl (by decide)⟩

/-- C20: for a request whose body parses, whatever `proxyWithMetrics` records is recorded
under the request's `model` field, or under `unknown` when that field is empty: the store
is left as it was, or as one `RecordFailure` for that key leaves it, or as one
`RecordSuccess` for that key leaves it, and the entries of every other key, the model
named by the backend's record included, are as they were in all seven maps. -/
theorem C20_recorded_under_request_model [Float64 F] (env : Env F)
    (metrics : MetricsStore F) (w : ResponseWriter) (r : Request) (reqBody : OllamaRequest)
    (hbody : r.BodyErr = false) (hreq : env.unmarshalRequest r.Body = some reqBody) :
    ((proxyWithMetrics env metrics w r).metrics = metrics ∨
      (proxyWithMetrics env metrics w r).metrics =
        RecordFailure metrics (if reqBody.Model = "" then "unknown" else reqBody.Model)
          env.now ∨
      ∃ record, (proxyWithMetrics env metrics w r).metrics =
        RecordSuccess metrics (if reqBody.Model = "" then "unknown" else reqBody.Model)
          record env.sinceSeconds env.now) ∧
    ∀ k : String, k ≠ (if reqBody.Model = "" then "unknown" else reqBody.Model) →
      (proxyWithMetrics env metrics w r).metrics.requestCount.find? k =
        metrics.requestCount.find? k ∧
      (proxyWithMetrics env metrics w r).metrics.requestSuccess.find? k =
        metrics.requestSuccess.find? k ∧
      (proxyWithMetrics env metrics w r).metrics.requestFailed.find? k =
        metrics.requestFailed.find? k ∧
      (proxyWithMetrics env metrics w r).metrics.tokenCount.find? k =
        metrics.tokenCount.find? k ∧
      (proxyWithMetrics env metrics w r).metrics.promptTokens.find? k =
        metrics.promptTokens.find? k ∧
      (proxyWithMetrics env metrics w r).metrics.durationSamples.find? k =
        metrics.durationSamples.find? k ∧
      (proxyWithMetrics env metrics w r).metrics.loadDurations.find? k =
        metrics.loadDurations.find? k := by
  have hcases := metrics_proxyWithMetrics_cases env metrics w r reqBody hbody hreq
  unfold modelOf at hcases
  refine ⟨hcases, ?_⟩
  intro k hk
  rcases hcases with h | h | ⟨record, h⟩
  · rw [h]
    exact ⟨rfl, rfl, rfl, rfl, rfl, rfl, rfl⟩
  · rw [h]
    exact sameEntries_RecordFailure metrics _ k env.now hk
  · rw [h]
    exact sameEntries_RecordSuccess metrics _ k record env.sinceSeconds env.now hk

/-- C20, on a request for `llama3` answered by a record that names `mistral`, and on a
request without a model answered by the same record: `mistral` gets no entry, and the
success is counted for `llama3`, respectively for `unknown`. -/
theorem C20_recorded_under_request_model_witness :
    ((chatRequest requestBody).BodyErr = false ∧
      (sampleEnv (some (okResponse otherModelResponseBody))).unmarshalRequest
        (chatRequest requestBody).Body = some ⟨"llama3", "", [], false⟩ ∧
      (chatRequest noModelRequestBody).BodyErr = false ∧
      (sampleEnv (some (okResponse otherModelResponseBody))).unmarshalRequest
        (chatRequest noModelRequestBody).Body = some ⟨"", "", [], false⟩ ∧
      "mistral" ≠ (if ("llama3" : String) = "" then "unknown" else "llama3") ∧
      "mistral" ≠ (if ("" : String) = "" then "unknown" else "")) ∧
    (proxyWithMetrics (sampleEnv (some (okResponse otherModelResponseBody)))
        (NewMetricsStore 0) freshWriter (chatRequest requestBody)).metrics.requestCount.find?
      "mistral" = (NewMetricsStore 0 : MetricsStore ℚ).requestCount.find? "mistral" ∧
    (proxyWithMetrics (sampleEnv (some (okResponse otherModelResponseBody)))
        (NewMetricsStore 0) freshWriter
        (chatRequest noModelRequestBody)).metrics.requestCount.find? "mistral" =
      (NewMetricsStore 0 : MetricsStore ℚ).requestCount.find? "mistral" ∧
    (proxyWithMetrics (sampleEnv (some (okResponse otherModelResponseBody)))
        (NewMetricsStore 0) freshWriter (chatRequest requestBody)).metrics.requestSuccess.getD
      "llama3" 0 = 1 ∧
    (proxyWithMetrics (sampleEnv (some (okResponse otherModelResponseBody)))
        (NewMetricsStore 0) freshWriter
        (chatRequest noModelRequestBody)).metrics.requestSuccess.getD "unknown" 0 = 1 :=
  ⟨⟨rfl, by decide, rfl, by decide, by decide, by decide⟩,
    ((C20_recorded_under_request_model (sampleEnv (some (okResponse otherModelResponseBody)))
      (NewMetricsStore 0) freshWriter (chatRequest requestBody) ⟨"llama3", "", [], false⟩
      rfl (by decide)).2 "mistral" (by decide)).1,
    ((C20_recorded_under_request_model (sampleEnv (some (okResponse otherModelResponseBody)))
      (NewMetricsStore 0) freshWriter (chatRequest noModelRequestBody) ⟨"", "", [], false⟩
      rfl (by decide)).2 "mistral" (by decide)).1,
    by decide, by decide⟩

/-- C21: for a request whose body parses and whose proxy request is built, when the call
to the backend fails, `proxyWithMetrics` leaves the store exactly as one `RecordFailure`
for the request's model leaves it (`requestCount` and `requestFailed` of that model get 1),
answers with status 502, and records no success, token or duration. -/
theorem C21_backend_failure_records_one_failure [Float64 F] (env : Env F)
    (metrics : MetricsStore F) (w : ResponseWriter) (r : Request) (reqBody : OllamaRequest)
    (hw : w.status = none) (hbody : r.BodyErr = false)
    (hreq : env.unmarshalRequest r.Body = some reqBody)
    (hnew : env.newRequest r.Method (env.OllamaURL ++ r.Path) = true)
    (hdo : env.clientDo (proxyRequestOf env r) = none) :
    (proxyWithMetrics env metrics w r).metrics =
        RecordFailure metrics (if reqBody.Model = "" then "unknown" else reqBody.Model)
          env.now ∧
      (proxyWithMetrics env metrics w r).w.status = some 502 ∧
      (proxyWithMetrics env metrics w r).sent = [proxyRequestOf env r] ∧
      (proxyWithMetrics env metrics w r).metrics.requestCount.find?
          (if reqBody.Model = "" then "unknown" else reqBody.Model) =
        some (add64 (metrics.requestCount.getD
          (if reqBody.Model = "" then "unknown" else reqBody.Model) 0) 1) ∧
      (proxyWithMetrics env metrics w r).metrics.requestFailed.find?
          (if reqBody.Model = "" then "unknown" else reqBody.Model) =
        some (add64 (metrics.requestFailed.getD
          (if reqBody.Model = "" then "unknown" else reqBody.Model) 0) 1) ∧
      (proxyWithMetrics env metrics w r).metrics.requestSuccess = metrics.requestSuccess ∧
      (proxyWithMetrics env metrics w r).metrics.tokenCount = metrics.tokenCount ∧
      (proxyWithMetrics env metrics w r).metrics.promptTokens = metrics.promptTokens ∧
      (proxyWithMetrics env metrics w r).metrics.durationSamples = metrics.durationSamples ∧
      (proxyWithMetrics env metrics w r).metrics.loadDurations = metrics.loadDurations := by
  have hout : proxyWithMetrics env metrics w r =
      { w := httpError w "Proxy request failed" 502
        metrics := RecordFailure metrics (modelOf reqBody) env.now
        sent := [proxyRequestOf env r] } := by
    unfold proxyRequestOf at hdo
    unfold proxyWithMetrics
    simp only [hbody, Bool.false_eq_true, if_false, hreq, hnew, Bool.not_true, hdo]
    rfl
  rw [hout]
  exact ⟨rfl, status_httpError w _ 502 hw, rfl, GoMap.find?_set_self _ _ _,
    GoMap.find?_set_self _ _ _, rfl, rfl, rfl, rfl, rfl⟩

/-- C21, on a request for `llama3` with a backend that cannot be reached: status 502, one
failure for `llama3`. -/
theorem C21_backend_failure_records_one_failure_witness :
    (freshWriter.status = none ∧ (chatRequest requestBody).BodyErr = false ∧
      (sampleEnv none).unmarshalRequest (chatRequest requestBody).Body =
        some ⟨"llama3", "", [], false⟩ ∧
      (sampleEnv none).newRequest (chatRequest requestBody).Method
        ((sampleEnv none).OllamaURL ++ (chatRequest requestBody).Path) = true ∧
      (sampleEnv none).clientDo (proxyRequestOf (sampleEnv none) (chatRequest requestBody)) =
        none) ∧
    (proxyWithMetrics (sampleEnv none) (NewMetricsStore 0) freshWriter
        (chatRequest requestBody)).w.status = some 502 ∧
    (proxyWithMetrics (sampleEnv none) (NewMetricsStore 0) freshWriter
        (chatRequest requestBody)).metrics.requestFailed.find?
        (if ("llama3" : String) = "" then "unknown" else "llama3") =
      some (add64 ((NewMetricsStore 0 : MetricsStore ℚ).requestFailed.getD
        (if ("llama3" : String) = "" then "unknown" else "llama3") 0) 1) :=
  ⟨⟨rfl, rfl, by decide, rfl, rfl⟩,
    (C21_backend_failure_records_one_failure (sampleEnv none) (NewMetricsStore 0) freshWriter
      (chatRequest requestBody) ⟨"llama3", "", [], false⟩ rfl rfl (by decide) rfl rfl).2.1,
    (C21_backend_failure_records_one_failure (sampleEnv none) (NewMetricsStore 0) freshWriter
      (chatRequest requestBody) ⟨"llama3", "", [], false⟩ rfl rfl (by decide) rfl
      rfl).2.2.2.2.1⟩

/-- C22: whatever the request, the environment and the backend's answer (a failed call
included), the store after `simpleProxy` is the store before it. -/
theorem C22_pass_through_leaves_store (env : Env F) (metrics : MetricsStore F)
    (w : ResponseWriter) (r : Request) : (simpleProxy env metrics w r).metrics = metrics := by
  unfold simpleProxy
  split
  · rfl
  · split
    · rfl
    · dsimp only
      split <;> rfl

/-- C28: in the non-stream branch of `proxyWithMetrics`, whatever the status code of the
backend's answer and whatever the `done` flag of its record, a body that is read to its end
and parses leaves the store exactly as one `RecordSuccess` for the request's model with
that record leaves it, with no failure recorded; the backend's status and body are passed
on to the client. -/
theorem C28_non_stream_success_ignores_status [Float64 F] (env : Env F)
    (metrics : MetricsStore F) (w : ResponseWriter) (r : Request) (reqBody : OllamaRequest)
    (resp : Response) (record : OllamaResponse)
    (hw : w.status = none) (hbody : r.BodyErr = false)
    (hreq : env.unmarshalRequest r.Body = some reqBody) (hstream : reqBody.Stream = false)
    (hnew : env.newRequest r.Method (env.OllamaURL ++ r.Path) = true)
    (hdo : env.clientDo (proxyRequestOf env r) = some resp)
    (hread : resp.BodyErr = false)
    (hrec : env.unmarshalResponse resp.Body = some record) :
    (proxyWithMetrics env metrics w r).metrics =
        RecordSuccess metrics (if reqBody.Model = "" then "unknown" else reqBody.Model)
          record env.sinceSeconds env.now ∧
      (proxyWithMetrics env metrics w r).metrics.requestFailed = metrics.requestFailed ∧
      (proxyWithMetrics env metrics w r).w.status = some resp.StatusCode ∧
      (proxyWithMetrics env metrics w r).w.body = w.body ++ resp.Body := by
  have hout : proxyWithMetrics env metrics w r =
      { w := (handleNonStreamResponse env metrics
          (({ w with header := copyHeader resp.Header w.header }).WriteHeader resp.StatusCode)
          resp (modelOf reqBody)).1
        metrics := (handleNonStreamResponse env metrics
          (({ w with header := copyHeader resp.Header w.header }).WriteHeader resp.StatusCode)
          resp (modelOf reqBody)).2
        sent := [proxyRequestOf env r] } := by
    unfold proxyRequestOf at hdo
    unfold proxyWithMetrics
    simp only [hbody, Bool.false_eq_true, if_false, hreq, hnew, Bool.not_true, hdo, hstream]
    rfl
  have hns : handleNonStreamResponse env metrics
      (({ w with header := copyHeader resp.Header w.header }).WriteHeader resp.StatusCode)
      resp (modelOf reqBody) =
      ((({ w with header := copyHeader resp.Header w.header }).WriteHeader
          resp.StatusCode).Write resp.Body,
        RecordSuccess metrics (modelOf reqBody) record env.sinceSeconds env.now) := by
    unfold handleNonStreamResponse
    simp only [hread, Bool.false_eq_true, if_false, hrec]
  rw [hout, hns]
  refine ⟨rfl, rfl, ?_, ?_⟩
  · simp [ResponseWriter.Write, ResponseWriter.WriteHeader, hw]
  · simp [ResponseWriter.Write, ResponseWriter.WriteHeader, hw]

/-- C28, on a backend reply with status 500 and body `{"error":"x"}`: the client gets
status 500 and one success with zero tokens is counted for `llama3`. -/
theorem C28_non_stream_success_ignores_status_witness :
    (freshWriter.status = none ∧ (chatRequest requestBody).BodyErr = false ∧
      errorEnv.unmarshalRequest (chatRequest requestBody).Body =
        some ⟨"llama3", "", [], false⟩ ∧
      (⟨"llama3", "", [], false⟩ : OllamaRequest).Stream = false ∧
      errorEnv.newRequest (chatRequest requestBody).Method
        (errorEnv.OllamaURL ++ (chatRequest requestBody).Path) = true ∧
      errorEnv.clientDo (proxyRequestOf errorEnv (chatRequest requestBody)) =
        some errorResponse ∧
      errorResponse.BodyErr = false ∧
      errorEnv.unmarshalResponse errorResponse.Body = some zeroRecord) ∧
    (proxyWithMetrics errorEnv (NewMetricsStore 0) freshWriter
        (chatRequest requestBody)).w.status = some errorResponse.StatusCode ∧
    errorResponse.StatusCode = 500 ∧
    (proxyWithMetrics errorEnv (NewMetricsStore 0) freshWriter
        (chatRequest requestBody)).metrics.requestSuccess.getD "llama3" 0 = 1 ∧
    (proxyWithMetrics errorEnv (NewMetricsStore 0) freshWriter
        (chatRequest requestBody)).metrics.requestFailed.find? "llama3" = none ∧
    (proxyWithMetrics errorEnv (NewMetricsStore 0) freshWriter
        (chatRequest requestBody)).metrics.tokenCount.getD "llama3" 0 = 0 ∧
    (proxyWithMetrics errorEnv (NewMetricsStore 0) freshWriter
        (chatRequest requestBody)).metrics.promptTokens.getD "llama3" 0 = 0 :=
  ⟨⟨rfl, rfl, by decide, rfl, rfl, rfl, rfl, by decide⟩,
    (C28_non_stream_success_ignores_status errorEnv (NewMetricsStore 0) freshWriter
      (chatRequest requestBody) ⟨"llama3", "", [], false⟩ errorResponse zeroRecord rfl rfl
      (by decide) rfl rfl rfl rfl (by decide)).2.2.1,
    rfl, by decide, by decide, by decide, by decide⟩

/-- C27: on a non-empty input whose values are totally ordered (the order of
`sort.Float64s` compares any two of them and is transitive, as it is without NaN), the
result of `calculateStats` satisfies `Min <= P50 <= P95 <= P99 <= Max`, where `a <= b`
reads "`b` is not less than `a`", and each of `Min`, `P50`, `P95`, `P99`, `Max` is an
element of the input (this last part needs no assumption on the order). -/
theorem C27_stats_are_ordered [Float64 F] (xs : List F) (hne : xs ≠ [])
    (htotal : ∀ a b : F, float64Less b a = false ∨ float64Less a b = false)
    (htrans : ∀ a b c : F, float64Less b a = false → float64Less c b = false →
      float64Less c a = false) :
    ∃ st, calculateStats xs = some st ∧
      float64Less st.P50 st.Min = false ∧ float64Less st.P95 st.P50 = false ∧
      float64Less st.P99 st.P95 = false ∧ float64Less st.Max st.P99 = false ∧
      st.Min ∈ xs ∧ st.P50 ∈ xs ∧ st.P95 ∈ xs ∧ st.P99 ∈ xs ∧ st.Max ∈ xs := by
  obtain ⟨st, hst, _, h50, h95, h99, hmin, hmax⟩ := calculateStats_spec xs hne
  have hsorted := sorted_sortFloat64s xs htotal htrans
  have hrefl : ∀ a : F, float64Less a a = false := fun a => (htotal a a).elim id id
  have hpos : 0 < xs.length := List.length_pos.mpr hne
  refine ⟨st, hst, ?_, ?_, ?_, ?_, mem_of_sortFloat64s_getElem? xs _ _ hmin,
    mem_of_sortFloat64s_getElem? xs _ _ h50, mem_of_sortFloat64s_getElem? xs _ _ h95,
    mem_of_sortFloat64s_getElem? xs _ _ h99, mem_of_sortFloat64s_getElem? xs _ _ hmax⟩
  · exact sorted_getElem?_le _ _ hsorted hrefl 0 (xs.length * 50 / 100) (by omega) _ _ hmin
      h50
  · exact sorted_getElem?_le _ _ hsorted hrefl (xs.length * 50 / 100) (xs.length * 95 / 100)
      (by omega) _ _ h50 h95
  · exact sorted_getElem?_le _ _ hsorted hrefl (xs.length * 95 / 100) (xs.length * 99 / 100)
      (by omega) _ _ h95 h99
  · exact sorted_getElem?_le _ _ hsorted hrefl (xs.length * 99 / 100) (xs.length - 1)
      (by omega) _ _ h99 hmax

/-- C27, on the input `[1, ..., 10]` in exact arithmetic: the five statistics are ordered
rationals taken from the input. -/
theorem C27_stats_are_ordered_witness :
    (oneToTen ≠ [] ∧
      (∀ a b : ℚ, float64Less b a = false ∨ float64Less a b = false) ∧
      (∀ a b c : ℚ, float64Less b a = false → float64Less c b = false →
        float64Less c a = false)) ∧
    ∃ st, calculateStats oneToTen = some st ∧
      st.Min ≤ st.P50 ∧ st.P50 ≤ st.P95 ∧ st.P95 ≤ st.P99 ∧ st.P99 ≤ st.Max ∧
      st.Min ∈ oneToTen ∧ st.Max ∈ oneToTen := by
  have hne : oneToTen ≠ [] := by simp [oneToTen]
  obtain ⟨st, hst, h1, h2, h3, h4, hmin, _, _, _, hmax⟩ :=
    C27_stats_are_ordered oneToTen hne float64Less_rat_total float64Less_rat_trans
  exact ⟨⟨hne, float64Less_rat_total, float64Less_rat_trans⟩, st, hst,
    (float64Less_rat_false_iff _ _).mp h1, (float64Less_rat_false_iff _ _).mp h2,
    (float64Less_rat_false_iff _ _).mp h3, (float64Less_rat_false_iff _ _).mp h4, hmin, hmax⟩

/-- C29: after any sequence of `RecordSuccess`/`RecordFailure` calls on a fresh store, no
window stored in `durationSamples` or `loadDurations` is empty, and a model has an entry
in the map returned by `GetDurationStats` exactly when at least one `RecordSuccess` was
made for it; for a sequence of fewer than `2^63` calls that is exactly when its counter
`requestSuccess` is at least 1. -/
theorem C29_stats_entry_iff_success [Float64 F] (calls : List (Call F)) (now : Time)
    (k : String) :
    (∀ w, ((runCalls (NewMetricsStore now) calls).durationSamples.find? k = some w →
        w ≠ []) ∧
      ((runCalls (NewMetricsStore now) calls).loadDurations.find? k = some w → w ≠ [])) ∧
    (∃ res, GetDurationStats (runCalls (NewMetricsStore now) calls) =
        some (res, runCalls (NewMetricsStore now) calls) ∧
      (k ∈ res.keys ↔ 1 ≤ successesFor calls k)) ∧
    ((calls.length : Int) < 2 ^ 63 →
      (1 ≤ successesFor calls k ↔
        1 ≤ (runCalls (NewMetricsStore now) calls).requestSuccess.getD k 0)) := by
  refine ⟨?_, ?_, ?_⟩
  · intro w
    exact windows_non_empty_runCalls calls (NewMetricsStore now)
      (fun k' w' => by simp [NewMetricsStore]) k w
  · obtain ⟨res, hres, hspec⟩ :=
      statsOf_spec (runCalls (NewMetricsStore now) calls).durationSamples
    refine ⟨res, by simp [GetDurationStats, hres], ?_⟩
    rw [(hspec k).2, durationWindow_non_empty_runCalls]
    simp [NewMetricsStore]
  · intro hlen
    obtain ⟨_, h2, _⟩ := requestCounters_fresh calls now k
    have hle := successesFor_le_length calls k
    have hle' : ((successesFor calls k : Int) + (failuresFor calls k : Int)) ≤
        (calls.length : Int) := by exact_mod_cast hle
    have hs : (0 : Int) ≤ successesFor calls k := Int.natCast_nonneg _
    have hf : (0 : Int) ≤ failuresFor calls k := Int.natCast_nonneg _
    rw [h2, wrap64_of_range _ (by omega) (by omega)]
    omega

/-- C29, on the sample calls: `phi`, which only failed, has a request count but no
successes, and `llama3` has successes. -/
theorem C29_stats_entry_iff_success_witness :
    ((sampleCalls.length : Int) < 2 ^ 63) ∧
      (1 ≤ successesFor sampleCalls "llama3" ↔
        1 ≤ (runCalls (NewMetricsStore 0) sampleCalls).requestSuccess.getD "llama3" 0) ∧
      (1 ≤ successesFor sampleCalls "phi" ↔
        1 ≤ (runCalls (NewMetricsStore 0) sampleCalls).requestSuccess.getD "phi" 0) ∧
      successesFor sampleCalls "phi" = 0 ∧
      (runCalls (NewMetricsStore 0) sampleCalls).requestFailed.getD "phi" 0 = 1 :=
  ⟨by decide, (C29_stats_entry_iff_success sampleCalls 0 "llama3").2.2 (by decide),
    (C29_stats_entry_iff_success sampleCalls 0 "phi").2.2 (by decide), by decide, by decide⟩

end Claims

end Ollama

namespace SparkStreaming

/-! ## Facts about the parsers and the filter -/

section ParserFacts

variable {F : Type}

/-- The value added for a unit is the value times the milliseconds of the unit, when the
product associates, has 1 as a unit and agrees with the product of integers. -/
theorem unitMS_eq_factor [GoFloat F] (value : F) (unit : String)
    (hone : ∀ v : F, GoFloat.mul v (Ollama.Float64.ofInt 1) = v)
    (hassoc : ∀ a b c : F, GoFloat.mul (GoFloat.mul a b) c = GoFloat.mul a (GoFloat.mul b c))
    (hofInt : ∀ a b : Int, GoFloat.mul (Ollama.Float64.ofInt a : F) (Ollama.Float64.ofInt b) =
      Ollama.Float64.ofInt (a * b)) :
    unitMS value unit =
      (unitFactor unit).map (fun factor => GoFloat.mul value (Ollama.Float64.ofInt factor)) := by
  unfold unitMS unitFactor
  split_ifs <;> simp [hone, hassoc, hofInt]

/-- The loop of `convertTimeToMS` adds up the pairs from the left. -/
theorem convertLoop_partsOf [GoFloat F] (pairs : List (String × String)) (total : F)
    (hone : ∀ v : F, GoFloat.mul v (Ollama.Float64.ofInt 1) = v)
    (hassoc : ∀ a b c : F, GoFloat.mul (GoFloat.mul a b) c = GoFloat.mul a (GoFloat.mul b c))
    (hofInt : ∀ a b : Int, GoFloat.mul (Ollama.Float64.ofInt a : F) (Ollama.Float64.ofInt b) =
      Ollama.Float64.ofInt (a * b)) :
    convertLoop (partsOf pairs) total = sumMS pairs total := by
  induction pairs generalizing total with
  | nil => simp [partsOf, convertLoop, sumMS]
  | cons p rest ih =>
    simp only [partsOf, convertLoop, sumMS]
    cases hp : (GoFloat.parseFloat p.1 : Option F) with
    | none => simpa using ih total
    | some value =>
      dsimp only
      rw [unitMS_eq_factor value p.2 hone hassoc hofInt]
      cases hu : unitFactor p.2 with
      | none => simpa using ih total
      | some factor => simpa using ih _

/-- The value added for a unit is the value multiplied in turn by the constants of the
unit. -/
theorem unitMS_eq_chain [GoFloat F] (value : F) (unit : String) :
    unitMS value unit = (unitChain unit).map (chainProduct value) := by
  unfold unitMS unitChain
  split_ifs <;> rfl

/-- The loop of `convertTimeToMS` adds up the chained products of the pairs from the
left. -/
theorem convertLoop_sumChained [GoFloat F] (pairs : List (String × String)) (total : F) :
    convertLoop (partsOf pairs) total = sumChained pairs total := by
  induction pairs generalizing total with
  | nil => simp [partsOf, convertLoop, sumChained]
  | cons p rest ih =>
    simp only [partsOf, convertLoop, sumChained]
    cases hp : (GoFloat.parseFloat p.1 : Option F) with
    | none => simpa using ih total
    | some value =>
      dsimp only
      rw [unitMS_eq_chain value p.2]
      cases hu : unitChain p.2 with
      | none => simpa using ih total
      | some chain => simpa using ih _

/-- In exact arithmetic the loop of `convertTimeToMS` adds up the numbers times the
milliseconds of their units. -/
theorem convertLoop_partsOf_rat (pairs : List (String × String)) (total : ℚ) :
    convertLoop (partsOf pairs) total = sumMS pairs total := by
  apply convertLoop_partsOf
  · intro v
    show v * ((1 : Int) : ℚ) = v
    simp
  · exact fun a b c => mul_assoc a b c
  · intro a b
    show ((a : Int) : ℚ) * ((b : Int) : ℚ) = ((a * b : Int) : ℚ)
    push_cast
    rfl

theorem matchesPrefix_eq_any (name : String) (prefixes : List String) :
    matchesPrefix name prefixes = prefixes.any (fun pfx => HasPrefix name pfx) := by
  induction prefixes with
  | nil => rfl
  | cons pfx rest ih =>
    simp only [matchesPrefix, List.any_cons, ih]
    cases HasPrefix name pfx <;> simp

/-- The outer loop of `filterAppsByPrefix` appends the matching applications in order. -/
theorem filterLoop_eq_filter (prefixes : List String) (filtered apps : List YARNApp) :
    filterLoop prefixes filtered apps =
      filtered ++ apps.filter (fun app => prefixes.any (fun pfx => HasPrefix app.Name pfx)) := by
  induction apps generalizing filtered with
  | nil => simp [filterLoop]
  | cons app rest ih =>
    simp only [filterLoop, matchesPrefix_eq_any]
    by_cases h : prefixes.any (fun pfx => HasPrefix app.Name pfx) = true
    · rw [if_pos h, ih, List.filter_cons, if_pos h]
      simp
    · rw [if_neg h, ih, List.filter_cons, if_neg h]

end ParserFacts

/-! ## The claims -/

section Claims

variable {F : Type}

set_option maxRecDepth 100000

/-- C23, refuted as stated for `float64`: on `0.1 d` the code computes
`0.1 * 24 * 60 * 60 * 1000` with every product rounded, which is `8640000 + 2^-29`
(printed `8640000.000000002`), while 0.1 times 86400000 is 8640000, in exact arithmetic
and in `float64` alike; on `4.35 min` it returns 261000, while the `float64` product of
4.35 and 60000 is `261000 - 2^-35`. -/
theorem C23_counterexample_rounded_products :
    Fields "0.1 d" = partsOf [("0.1", "d")] ∧
      (convertTimeToMS "0.1 d" : Double) = ⟨8640000 + 1 / 536870912⟩ ∧
      (sumMS [("0.1", "d")] (Ollama.Float64.ofInt 0) : Double) = ⟨8640000⟩ ∧
      (sumMS [("0.1", "d")] (Ollama.Float64.ofInt 0) : ℚ) = 8640000 ∧
      (convertTimeToMS "0.1 d" : Double) ≠
        sumMS [("0.1", "d")] (Ollama.Float64.ofInt 0) ∧
      Fields "4.35 min" = partsOf [("4.35", "min")] ∧
      (convertTimeToMS "4.35 min" : Double) = ⟨261000⟩ ∧
      (sumMS [("4.35", "min")] (Ollama.Float64.ofInt 0) : Double) =
        ⟨261000 - 1 / 34359738368⟩ ∧
      (convertTimeToMS "4.35 min" : Double) ≠
        sumMS [("4.35", "min")] (Ollama.Float64.ofInt 0) := by
  decide!

/-- C23, amended: for a time string whose parts (as cut by `strings.Fields`) are the parts
of a list of (number, unit) pairs, `convertTimeToMS` returns, for every arithmetic, the sum
added up from the left, starting at 0, over the pairs of the number multiplied in turn by
the constants of its unit (`ms`: none; `s`: 1000; `min`: 60, 1000; `h`: 60, 60, 1000;
`d`: 24, 60, 60, 1000), a pair whose number does not parse or whose unit is unknown adding
nothing; in exact arithmetic this is the sum of the numbers times 1, 1000, 60000, 3600000
and 86400000. A text without the prefix gives 0, and in `float64`
`parseTimeValue("Avg: 123 ms", "Avg:")` is 123 and
`parseTimeValue("Avg: 1 min 30 s", "Avg:")` is 90000. -/
theorem C23_time_string_chained_products [GoFloat F] (timeStr : String)
    (pairs : List (String × String)) (hfields : Fields timeStr = partsOf pairs) :
    (convertTimeToMS timeStr : F) = sumChained pairs (Ollama.Float64.ofInt 0) ∧
      (convertTimeToMS timeStr : ℚ) = sumMS pairs (Ollama.Float64.ofInt 0) ∧
      (∀ text pfx : String, Index text pfx < 0 →
        (parseTimeValue text pfx : F) = Ollama.Float64.ofInt 0) ∧
      (parseTimeValue "Avg: 123 ms" "Avg:" : Double) = ⟨123⟩ ∧
      (parseTimeValue "Avg: 1 min 30 s" "Avg:" : Double) = ⟨90000⟩ ∧
      (parseTimeValue "Scheduling Delay: 5 ms" "Avg:" : Double) = ⟨0⟩ := by
  refine ⟨?_, ?_, ?_, by decide!, by decide!, by decide!⟩
  · unfold convertTimeToMS
    rw [hfields]
    exact convertLoop_sumChained pairs _
  · unfold convertTimeToMS
    rw [hfields]
    exact convertLoop_partsOf_rat pairs _
  · intro text pfx h
    unfold parseTimeValue
    rw [if_pos h]

/-- C23, on the time string `1 min 30 s` in `float64`: `1 * 60 * 1000 + 30 * 1000`, which
is 90000. -/
theorem C23_time_string_chained_products_witness :
    Fields "1 min 30 s" = partsOf [("1", "min"), ("30", "s")] ∧
      (convertTimeToMS "1 min 30 s" : Double) =
        sumChained [("1", "min"), ("30", "s")] (Ollama.Float64.ofInt 0) ∧
      (sumChained [("1", "min"), ("30", "s")] (Ollama.Float64.ofInt 0) : Double) =
        ⟨90000⟩ :=
  ⟨by decide,
    (C23_time_string_chained_products "1 min 30 s" [("1", "min"), ("30", "s")]
      (by decide)).1,
    by decide!⟩

/-- C24, the code at the failing input: with a space after the closing parenthesis,
`parseInputRate` returns the current rate 7.5 and not the average 123.45, because
`TrimSuffix` runs before `TrimSpace` and leaves `123.45)`, which is no number; without
the trailing space, also with leading spaces, it returns the average, and without an
`(avg:` part it returns the current rate. -/
theorem C24_trailing_space_loses_average :
    (parseInputRate "Input Rate 7.5 records/sec (avg: 123.45) " : ℚ) = 15 / 2 ∧
      TrimSpace (TrimSuffix " 123.45) " ")") = "123.45)" ∧
      (GoFloat.parseFloat "123.45)" : Option ℚ) = none ∧
      (parseInputRate "Input Rate 7.5 records/sec (avg: 123.45)" : ℚ) = 2469 / 20 ∧
      (parseInputRate "  Input Rate 7.5 records/sec (avg: 123.45)" : ℚ) = 2469 / 20 ∧
      (parseInputRate "Input Rate 123.45 records/sec" : ℚ) = 2469 / 20 := by
  decide!

/-- C25: with no prefix configured `filterAppsByPrefix` returns its input; otherwise it
returns the applications of the input whose name starts with at least one prefix, in the
order of the input and each as often as the input holds it at most (the result is the
input filtered by that test, hence a sub-list of it). -/
theorem C25_filter_keeps_matching_apps (AppPrefixes : List String) (apps : List YARNApp) :
    filterAppsByPrefix [] apps = apps ∧
      (AppPrefixes ≠ [] →
        filterAppsByPrefix AppPrefixes apps =
            apps.filter (fun app => AppPrefixes.any (fun pfx => HasPrefix app.Name pfx)) ∧
          (filterAppsByPrefix AppPrefixes apps).Sublist apps ∧
          (∀ app, app ∈ filterAppsByPrefix AppPrefixes apps ↔
            app ∈ apps ∧ ∃ pfx ∈ AppPrefixes, HasPrefix app.Name pfx = true) ∧
          (∀ app, (filterAppsByPrefix AppPrefixes apps).count app ≤ apps.count app)) := by
  refine ⟨rfl, ?_⟩
  intro hne
  have hlen : ¬ AppPrefixes.length = 0 := fun h => hne (List.length_eq_zero.mp h)
  have heq : filterAppsByPrefix AppPrefixes apps =
      apps.filter (fun app => AppPrefixes.any (fun pfx => HasPrefix app.Name pfx)) := by
    unfold filterAppsByPrefix
    rw [if_neg hlen, filterLoop_eq_filter]
    rfl
  refine ⟨heq, ?_, ?_, ?_⟩
  · rw [heq]
    exact List.filter_sublist _
  · intro app
    rw [heq, List.mem_filter, List.any_eq_true]
  · intro app
    rw [heq]
    exact (List.filter_sublist _).count_le app

/-- C25, on three applications and the prefix `spark-`: the two Spark jobs are kept, in
their order. -/
theorem C25_filter_keeps_matching_apps_witness :
    ["spark-"] ≠ ([] : List String) ∧
      filterAppsByPrefix ["spark-"] sampleApps =
        sampleApps.filter (fun app => ["spark-"].any (fun pfx => HasPrefix app.Name pfx)) ∧
      (filterAppsByPrefix ["spark-"] sampleApps).map (fun app => app.Name) =
        ["spark-etl-orders", "spark-stream-clicks"] :=
  ⟨by decide, ((C25_filter_keeps_matching_apps ["spark-"] sampleApps).2 (by decide)).1,
    by decide⟩

end Claims

end SparkStreaming

/-!
# NPU input plugin: the claims
-/

namespace Npu

section CacheKeyFacts

/-- No metrics key is the key of the chip list: the two differ at their fifth character. -/
theorem metricsKey_ne_chipList (p : Int) : GetMetricsCacheKey p ≠ CacheKeyChipList := by
  intro h
  have h2 := congrArg String.data h
  simp [GetMetricsCacheKey, CacheKeyMetricsBase, CacheKeyChipList, String.data_append] at h2

end CacheKeyFacts

section Claims

set_option maxRecDepth 100000

/-- C26: when every collection call fails, `collectChipMetrics` stores the seven error
sentinels; six of them are classified as invalid after the conversion to `float64`, but
the voltage sentinel `float32(UnRetError)` is `4294967296`, which `isInvalidValue` does
not recognise, so that the basic block of `ConvertMetricsToSamples` emits exactly one
sample, `npu_voltage = 4294967296`. -/
theorem C26_voltage_sentinel_is_emitted :
    (collectChipMetrics failingDevice (chipWith 0 0) 0).Temperature = RetError ∧
    (collectChipMetrics failingDevice (chipWith 0 0) 0).Utilization = RetError ∧
    (collectChipMetrics failingDevice (chipWith 0 0) 0).OverallUtilization = RetError ∧
    (collectChipMetrics failingDevice (chipWith 0 0) 0).VectorUtilization = RetError ∧
    (collectChipMetrics failingDevice (chipWith 0 0) 0).Power = float32OfInt RetError ∧
    (collectChipMetrics failingDevice (chipWith 0 0) 0).Voltage = float32OfInt UnRetError ∧
    (collectChipMetrics failingDevice (chipWith 0 0) 0).AICoreCurrentFreq = UnRetError ∧
    isInvalidValue (float64OfInt RetError) = true ∧
    isInvalidValue (float64OfFloat32 (float32OfInt RetError)) = true ∧
    isInvalidValue (float64OfInt UnRetError) = true ∧
    float64OfInt UnRetError = FloatVal.finite 4294967295 ∧
    float64OfFloat32 (float32OfInt UnRetError) = FloatVal.finite 4294967296 ∧
    isInvalidValue (float64OfFloat32 (float32OfInt UnRetError)) = false ∧
    List.map (fun s => (s.Metric, s.Value))
        (convertBasicMetrics (collectChipMetrics failingDevice (chipWith 0 0) 0) []
          Ollama.GoMap.empty) =
      [("npu_voltage", FloatVal.finite 4294967296)] := by
  decide!

/-- C30: `GetMetricsCacheKey` is not injective on `int32`: every value that is no valid
code point (negative, a surrogate, above U+10FFFF) gets the key of U+FFFD, so that after
`collectAllMetrics` over chips -1 and -2 `GetMetrics (-1)` returns the metrics of chip -2.
No metrics key equals `CacheKeyChipList`. -/
theorem C30_invalid_code_points_share_a_key :
    GetMetricsCacheKey (-1) = GetMetricsCacheKey (-2) ∧
    GetMetricsCacheKey (-1) = "npu_metrics_\uFFFD" ∧
    GetMetricsCacheKey 55296 = GetMetricsCacheKey 65533 ∧
    GetMetricsCacheKey 1114112 = GetMetricsCacheKey 65533 ∧
    Option.map (fun m => m.Chip.PhyId)
        ((twoChipCollector.collectAllMetrics 10).GetMetrics (-1) 10) = some (-2) ∧
    Option.map (fun m => m.Chip.PhyId)
        ((twoChipCollector.collectAllMetrics 10).GetMetrics (-2) 10) = some (-2) ∧
    GetMetricsCacheKey 48 ≠ GetMetricsCacheKey 49 ∧
    (∀ p : Int, GetMetricsCacheKey p ≠ CacheKeyChipList) := by
  refine ⟨by decide!, by decide!, by decide!, by decide!, by decide!, by decide!, by decide!,
    metricsKey_ne_chipList⟩

end Claims

end Npu
